import Mathlib

/-!
Verification of the post-generation reconciliation pipeline of the
mistakepatch backend (backend/app/services/analyzer.py, models.py,
schemas.py, config.py) against its natural-language specification.

Modelling conventions:
* Python floats are modelled as exact rationals (ℚ).  All the constants of
  the source (0.05, 1e-9, 0.1, …) are decimal and representable exactly.
  Python round() rounds ties to even on binary floats; it is modelled here
  as exact half-up rounding on ℚ, which agrees with the source at every
  non-tie point (and the source adds 1e-9 before its tenth-rounding
  precisely to push ties upward).
* Python str is modelled as Lean String; len/slicing count code points in
  both.  str.split() is modelled on the ASCII whitespace characters.
* Python dicts of the canonical grading shape are modelled by typed
  structures whose field names follow the source keys; the defensive
  "key missing / not a float" reads of the source collapse on this domain
  to plain field reads.
* Python list.sort / sorted are stable; they are modelled by a stable
  insertion sort with the corresponding boolean "comes before or ties"
  relation.
-/

namespace MistakePatch

/-- Python ASCII whitespace, the characters str.split() splits on. -/
def pyIsSpace (c : Char) : Bool :=
  c = ' ' || c = '\t' || c = '\n' || c = '\r' || c = Char.ofNat 11 || c = Char.ofNat 12

/-- Accumulator pass of Python str.split(): splits on whitespace runs and
drops empty segments. -/
def pySplitAux : List Char → List Char → List (List Char)
  | [], acc => if acc.isEmpty then [] else [acc.reverse]
  | c :: cs, acc =>
    if pyIsSpace c then
      (if acc.isEmpty then pySplitAux cs [] else acc.reverse :: pySplitAux cs [])
    else pySplitAux cs (c :: acc)

/-- Python str.split() with no argument. -/
def pySplit (l : List Char) : List (List Char) := pySplitAux l []

/-- Python " ".join. -/
def joinSpace : List (List Char) → List Char
  | [] => []
  | [w] => w
  | w :: ws => w ++ ' ' :: joinSpace ws

/-- Whitespace normalization " ".join(value.split()) used by _clean_text. -/
def normWs (l : List Char) : List Char := joinSpace (pySplit l)

/-- Source _clean_text applied to a string value: collapse whitespace, fall
back to the default when empty, truncate to max_len code points. -/
def pyCleanText (value default : String) (maxLen : ℕ) : String :=
  let normalized := String.mk (normWs value.data)
  if normalized.isEmpty then String.mk (default.data.take maxLen)
  else String.mk (normalized.data.take maxLen)

/-- Source _clean_text applied to an optional string (a value read from a
dict that may be missing or non-string; non-strings take the default). -/
def pyCleanTextOpt (value : Option String) (default : String) (maxLen : ℕ) : String :=
  match value with
  | some s => pyCleanText s default maxLen
  | none => String.mk (default.data.take maxLen)

/-- Source _clamp. -/
def clampQ (value minValue maxValue : ℚ) : ℚ := max minValue (min maxValue value)

/-- Python round(x, d), modelled as exact half-up rounding on ℚ (the source
only ever rounds values where binary-float half-to-even agrees). -/
def pyRound (d : ℕ) (q : ℚ) : ℚ := (⌊q * (10 : ℚ) ^ d + 1 / 2⌋ : ℤ) / (10 : ℚ) ^ d

/-- Source _round_to_tenth: round(value + 1e-9, 1). -/
def roundToTenth (value : ℚ) : ℚ := pyRound 1 (value + 1 / 1000000000)

/-- Stable insertion of one element: x goes in front of the first y with
le x y.  Together with stableSort this reproduces the output order of
Python sorted-with-key (le a b = "a sorts before or ties with b"). -/
def insertSorted (le : α → α → Bool) (x : α) : List α → List α
  | [] => [x]
  | y :: ys => if le x y then x :: y :: ys else y :: insertSorted le x ys

/-- Stable sort (insertion sort).  Python list.sort/sorted are stable, and
a stable sort under a total preorder has a unique output, so any stable
implementation is a faithful model. -/
def stableSort (le : α → α → Bool) : List α → List α
  | [] => []
  | x :: xs => insertSorted le x (stableSort le xs)

/-- Python str.lower(), character by character (ASCII case folding; the
Korean text of the source is unaffected by lower/upper in Python too). -/
def pyLower (s : String) : String := String.mk (s.data.map Char.toLower)

/-- Python str.upper(), character by character. -/
def pyUpper (s : String) : String := String.mk (s.data.map Char.toUpper)

/-- Python str.strip(): drop leading and trailing whitespace. -/
def pyStrip (s : String) : String :=
  String.mk (((s.data.dropWhile pyIsSpace).reverse.dropWhile pyIsSpace).reverse)

/-- Characters matched by the token class [0-9a-zA-Z가-힣] used by the
source for token based text similarity. -/
def isTokenChar (c : Char) : Bool :=
  (('0' ≤ c && c ≤ '9') || ('a' ≤ c && c ≤ 'z') || ('A' ≤ c && c ≤ 'Z')
    || (0xAC00 ≤ c.val && c.val ≤ 0xD7A3))

/-- Accumulator pass for re.findall of the token class. -/
def findTokensAux : List Char → List Char → List (List Char)
  | [], acc => if acc.isEmpty then [] else [acc.reverse]
  | c :: cs, acc =>
    if isTokenChar c then findTokensAux cs (c :: acc)
    else if acc.isEmpty then findTokensAux cs []
    else acc.reverse :: findTokensAux cs []

/-- Maximal runs of token characters: re.findall of the token class. -/
def findTokens (l : List Char) : List (List Char) := findTokensAux l []

/-- Token set of a string (lowercased, deduplicated), as used by
_text_similarity and _infer_step_id. -/
def tokenSet (s : String) : List String :=
  ((findTokens (pyLower s).data).map String.mk).dedup

/-- Source _text_similarity: token Jaccard similarity. -/
def textSimilarity (first second : String) : ℚ :=
  let f := tokenSet first
  let s := tokenSet second
  if f.isEmpty && s.isEmpty then 1
  else if f.isEmpty || s.isEmpty then 0
  else
    let inter := f.filter (fun t => s.contains t)
    let uni := f ++ s.filter (fun t => !f.contains t)
    (inter.length : ℚ) / (uni.length : ℚ)

/-! Closed enumerations from backend/app/models.py. -/

/-- Severity.low. -/
def sevLow : String := "low"
/-- Severity.med. -/
def sevMed : String := "med"
/-- Severity.high. -/
def sevHigh : String := "high"

/-- MistakeType values (models.py). -/
def mtConditionMissed : String := "CONDITION_MISSED"
/-- MistakeType.sign_error. -/
def mtSignError : String := "SIGN_ERROR"
/-- MistakeType.unit_error. -/
def mtUnitError : String := "UNIT_ERROR"
/-- MistakeType.definition_confusion. -/
def mtDefinitionConfusion : String := "DEFINITION_CONFUSION"
/-- MistakeType.algebra_error. -/
def mtAlgebraError : String := "ALGEBRA_ERROR"
/-- MistakeType.logic_gap. -/
def mtLogicGap : String := "LOGIC_GAP"
/-- MistakeType.case_miss. -/
def mtCaseMiss : String := "CASE_MISS"
/-- MistakeType.graph_misread. -/
def mtGraphMisread : String := "GRAPH_MISREAD"
/-- MistakeType.arithmetic_error. -/
def mtArithmeticError : String := "ARITHMETIC_ERROR"
/-- MistakeType.final_form_error. -/
def mtFinalFormError : String := "FINAL_FORM_ERROR"

/-- AnswerVerdict values. -/
def avCorrect : String := "correct"
/-- AnswerVerdict.incorrect. -/
def avIncorrect : String := "incorrect"
/-- AnswerVerdict.unknown. -/
def avUnknown : String := "unknown"

/-- Source _normalize_severity on a string value (the Severity-instance and
"severity." cases of the source cannot arise on the string-typed domain). -/
def normalizeSeverity (value : String) : String :=
  let text := pyLower (pyStrip value)
  let text :=
    if text.startsWith "severity." then (text.drop 9) else text
  if text = sevLow || text = sevMed || text = sevHigh then text else sevLow

/-- Source _severity_rank. -/
def severityRank (severity : String) : ℕ :=
  let normalized := normalizeSeverity severity
  if normalized = sevLow then 0
  else if normalized = sevMed then 1
  else if normalized = sevHigh then 2
  else 0

/-- Source _higher_severity. -/
def higherSeverity (existing current : String) : String :=
  let existingValue := normalizeSeverity existing
  let currentValue := normalizeSeverity current
  if severityRank existingValue < severityRank currentValue then currentValue
  else existingValue

/-- Source _normalize_answer_verdict on a string value (the enum- and
bool-typed branches of the source cannot arise on this domain). -/
def normalizeAnswerVerdict (value : String) : String :=
  let text := pyLower (pyStrip value)
  if text = "correct" || text = "맞음" || text = "정답" || text = "true" then avCorrect
  else if text = "incorrect" || text = "틀림" || text = "오답" || text = "false" then avIncorrect
  else if text = "unknown" || text = "uncertain" then avUnknown
  else avUnknown

/-! Data model: the canonical grading-result shape (the normalized dict that
flows through every pipeline stage; keys follow models.py / schemas.py) and
the verifier dataclasses of analyzer.py. -/

/-- Highlight sub-object of a mistake. -/
structure Highlight where
  mode : String
  shape : String
  x : Option ℚ := none
  y : Option ℚ := none
  w : Option ℚ := none
  h : Option ℚ := none
deriving DecidableEq, Repr

/-- Mistake entry of the canonical grading result. -/
structure Mistake where
  type : String
  severity : String
  points_deducted : ℚ
  evidence : String
  fix_instruction : String
  location_hint : String
  highlight : Highlight
deriving DecidableEq, Repr

/-- Rubric scores: five named dimensions. -/
structure RubricScores where
  conditions : ℚ
  modeling : ℚ
  logic : ℚ
  calculation : ℚ
  final : ℚ
deriving DecidableEq, Repr

/-- One minimal patch change. -/
structure PatchChange where
  change : String
  rationale : String
deriving DecidableEq, Repr

/-- Patch object of the canonical grading result. -/
structure Patch where
  minimal_changes : List PatchChange
  patched_solution_brief : String
deriving DecidableEq, Repr

/-- Canonical grading result dict, the value every reconciliation stage of
analyzer.py reads and writes.  answer_verdict (and its reason) are plain
strings; a stage reading a missing verdict behaves exactly like reading
the normalized default "unknown". -/
structure GradingResult where
  score_total : ℚ
  rubric_scores : RubricScores
  mistakes : List Mistake
  patch : Patch
  next_checklist : List String
  confidence : ℚ
  missing_info : List String
  answer_verdict : String
  answer_verdict_reason : String
deriving DecidableEq, Repr

/-- Dataclass ExtractedStep of analyzer.py. -/
structure ExtractedStep where
  step_id : String
  text : String
  equation : String
deriving DecidableEq, Repr

/-- Dataclass VerificationFinding of analyzer.py. -/
structure VerificationFinding where
  step_id : String
  rule : String
  passed : Bool
  reason : String
  counterexample : Option String := none
deriving DecidableEq, Repr

/-- Dataclass VerificationReport of analyzer.py. -/
structure VerificationReport where
  steps : List ExtractedStep
  findings : List VerificationFinding
  expected_x : Option ℚ
  observed_x : Option ℚ
  confidence : ℚ
  requires_review : Bool
deriving DecidableEq, Repr

/-- Dataclass ConsensusMeta of analyzer.py. -/
structure ConsensusMeta where
  runs_requested : ℕ
  runs_used : ℕ
  agreement : ℚ
  score_spread : ℚ
deriving DecidableEq, Repr

/-- Dataclass LinearExpression of analyzer.py: normal form a·x + b. -/
structure LinearExpression where
  a : ℚ
  b : ℚ
deriving DecidableEq, Repr

/-- Dataclass LinearEquation of analyzer.py: normal form a·x + b = 0. -/
structure LinearEquation where
  a : ℚ
  b : ℚ
  raw : String
deriving DecidableEq, Repr

/-! Linear algebra verifier: text canonicalization and the recursive
descent evaluation of _parse_linear_expression / _eval_linear_node. -/

/-- Source _normalize_ocr_symbol_text (all replacements are single
characters, so the sequential str.replace calls act character-wise). -/
def normalizeOcrSymbolChar (c : Char) : Char :=
  if c = '−' || c = '—' || c = '–' then '-'
  else if c = '＝' || c = '⇒' || c = '→' || c = '⟶' then '='
  else if c = '÷' then '/'
  else if c = '×' || c = '✕' || c = '✖' || c = 'χ' || c = 'Χ' || c = 'ⅹ' || c = 'ｘ' || c = 'X' then 'x'
  else c

/-- Source _normalize_ocr_symbol_text. -/
def normalizeOcrSymbolText (s : String) : String :=
  String.mk (s.data.map normalizeOcrSymbolChar)

/-- Source _normalize_ocr_digit_text translation table. -/
def normalizeOcrDigitChar (c : Char) : Char :=
  if c = 'O' || c = 'o' then '0'
  else if c = 'I' || c = 'l' || c = '|' then '1'
  else if c = 'S' then '5'
  else if c = 'B' then '8'
  else if c = 'Z' then '2'
  else c

/-- Source _normalize_ocr_digit_text. -/
def normalizeOcrDigitText (s : String) : String :=
  String.mk (s.data.map normalizeOcrDigitChar)

/-- One star-insertion pass: re.sub of a two-character pattern p·q replaced
by p·*·q.  For every pattern used by the source the second character class
is disjoint from the first, so the left-to-right non-overlapping regex
substitution coincides with this adjacent-pair scan. -/
def insertStar (p q : Char → Bool) : List Char → List Char
  | [] => []
  | [c] => [c]
  | c1 :: c2 :: rest =>
    if p c1 && q c2 then c1 :: '*' :: insertStar p q (c2 :: rest)
    else c1 :: insertStar p q (c2 :: rest)

/-- Decimal digit test. -/
def isDigitChar (c : Char) : Bool := '0' ≤ c && c ≤ '9'

/-- Character set _ALLOWED_EXPR_CHARS of analyzer.py. -/
def isAllowedExprChar (c : Char) : Bool :=
  isDigitChar c || c = 'x' || c = 'X' || c = '+' || c = '-' || c = '*' || c = '/'
    || c = '(' || c = ')' || c = '.' || pyIsSpace c

/-- Python numeric literal at the head of the character stream: digits with
an optional fractional part.  Mirrors the CPython tokenizer on the allowed
character set: an integer literal with a leading zero and a later nonzero
digit is a syntax error, float literals (with a dot) are free-form. -/
def parseNumberLit : List Char → Option (ℚ × List Char)
  | l =>
    let intPart := l.takeWhile isDigitChar
    let rest1 := l.dropWhile isDigitChar
    match rest1 with
    | '.' :: rest2 =>
      let fracPart := rest2.takeWhile isDigitChar
      let rest3 := rest2.dropWhile isDigitChar
      if intPart.isEmpty && fracPart.isEmpty then none
      else
        let ip : ℕ := (String.mk intPart).toNat?.getD 0
        let fp : ℕ := (String.mk fracPart).toNat?.getD 0
        some ((ip : ℚ) + (fp : ℚ) / (10 : ℚ) ^ fracPart.length, rest3)
    | _ =>
      if intPart.isEmpty then none
      else if intPart.head? = some '0' && intPart.length > 1 && intPart.any (fun c => c ≠ '0') then
        none
      else some (((String.mk intPart).toNat?.getD 0 : ℚ), rest1)

/-- Multiplication case of _eval_linear_node: accepted only when at least
one side is a pure constant (|a| ≤ 1e-9). -/
def linMul (left right : LinearExpression) : Option LinearExpression :=
  let leftConst : Bool := decide (|left.a| ≤ 1 / 1000000000)
  let rightConst : Bool := decide (|right.a| ≤ 1 / 1000000000)
  if leftConst && rightConst then some ⟨0, left.b * right.b⟩
  else if leftConst && !rightConst then some ⟨right.a * left.b, right.b * left.b⟩
  else if rightConst && !leftConst then some ⟨left.a * right.b, left.b * right.b⟩
  else none

/-- Division case of _eval_linear_node: divisor must be a constant that is
not near zero. -/
def linDiv (left right : LinearExpression) : Option LinearExpression :=
  if |right.a| > 1 / 1000000000 || |right.b| ≤ 1 / 1000000000 then none
  else some ⟨left.a / right.b, left.b / right.b⟩

mutual

/-- Additive level of the expression grammar (Python + and - precedence),
fused with _eval_linear_node.  Fuel-indexed recursive descent; each call
site passes strictly smaller fuel and the top entry point supplies more
fuel than the input length can consume. -/
def parseAddL : ℕ → List Char → Option (LinearExpression × List Char)
  | 0, _ => none
  | fuel + 1, l => do
    let (first, rest) ← parseMulL fuel l
    parseAddChain fuel first rest

/-- Chain of + / - operators at the additive level. -/
def parseAddChain : ℕ → LinearExpression → List Char → Option (LinearExpression × List Char)
  | 0, _, _ => none
  | fuel + 1, acc, l =>
    match l with
    | '+' :: rest => do
      let (t, rest2) ← parseMulL fuel rest
      parseAddChain fuel ⟨acc.a + t.a, acc.b + t.b⟩ rest2
    | '-' :: rest => do
      let (t, rest2) ← parseMulL fuel rest
      parseAddChain fuel ⟨acc.a - t.a, acc.b - t.b⟩ rest2
    | _ => some (acc, l)

/-- Multiplicative level of the expression grammar (Python * and /),
fused with the constant-only multiplication and division rules. -/
def parseMulL : ℕ → List Char → Option (LinearExpression × List Char)
  | 0, _ => none
  | fuel + 1, l => do
    let (first, rest) ← parseUnaryL fuel l
    parseMulChain fuel first rest

/-- Chain of * / / operators at the multiplicative level. -/
def parseMulChain : ℕ → LinearExpression → List Char → Option (LinearExpression × List Char)
  | 0, _, _ => none
  | fuel + 1, acc, l =>
    match l with
    | '*' :: rest => do
      let (t, rest2) ← parseUnaryL fuel rest
      let v ← linMul acc t
      parseMulChain fuel v rest2
    | '/' :: rest => do
      let (t, rest2) ← parseUnaryL fuel rest
      let v ← linDiv acc t
      parseMulChain fuel v rest2
    | _ => some (acc, l)

/-- Unary level (Python unary + and - bind tighter than * and /). -/
def parseUnaryL : ℕ → List Char → Option (LinearExpression × List Char)
  | 0, _ => none
  | fuel + 1, l =>
    match l with
    | '+' :: rest => parseUnaryL fuel rest
    | '-' :: rest => do
      let (v, rest2) ← parseUnaryL fuel rest
      some (⟨-v.a, -v.b⟩, rest2)
    | _ => parseAtomL fuel l

/-- Atom level: the variable x, a numeric literal, or a parenthesized
expression. -/
def parseAtomL : ℕ → List Char → Option (LinearExpression × List Char)
  | 0, _ => none
  | fuel + 1, l =>
    match l with
    | 'x' :: rest => some (⟨1, 0⟩, rest)
    | '(' :: rest => do
      let (v, rest2) ← parseAddL fuel rest
      match rest2 with
      | ')' :: rest3 => some (v, rest3)
      | _ => none
    | _ => do
      let (q, rest) ← parseNumberLit l
      some ((⟨0, q⟩ : LinearExpression), rest)

end

/-- Source _parse_linear_expression: canonicalize the text, insert the
implicit multiplication stars, restrict the character set, and evaluate
the expression into linear normal form. -/
def parseLinearExpression (expressionText : String) : Option LinearExpression :=
  let normalized := normalizeOcrSymbolText expressionText
  let normalized := normalizeOcrDigitText normalized
  let normalized := String.mk (normalized.data.map (fun c => if c = ',' then '.' else c))
  let chars := normalized.data.filter (fun c => !pyIsSpace c)
  let chars := insertStar isDigitChar (fun c => c = 'x') chars
  let chars := insertStar (fun c => c = ')') (fun c => isDigitChar c || c = 'x') chars
  let chars := insertStar (fun c => isDigitChar c || c = ')') (fun c => c = '(') chars
  let chars := insertStar (fun c => c = 'x') (fun c => c = '(') chars
  if chars.isEmpty || !(chars.all isAllowedExprChar) then none
  else
    match parseAddL (4 * chars.length + 4) chars with
    | some (v, []) => some v
    | _ => none

/-- Source _parse_linear_equation: split on the first '=', parse both
sides, and form (LHSa−RHSa)·x + (LHSb−RHSb) = 0. -/
def parseLinearEquation (equationText : String) : Option LinearEquation :=
  if !equationText.data.contains '=' then none
  else
    let leftRaw := String.mk (equationText.data.takeWhile (fun c => c ≠ '='))
    let rightRaw := String.mk ((equationText.data.dropWhile (fun c => c ≠ '=')).drop 1)
    match parseLinearExpression leftRaw, parseLinearExpression rightRaw with
    | some left, some right =>
      some ⟨left.a - right.a, left.b - right.b, equationText⟩
    | _, _ => none

/-- Source _solve_linear_equation: classification plus root. -/
def solveLinearEquation (equation : LinearEquation) : String × Option ℚ :=
  if |equation.a| ≤ 1 / 1000000000 then
    if |equation.b| ≤ 1 / 1000000000 then ("identity", none)
    else ("inconsistent", none)
  else ("single", some (-equation.b / equation.a))

/-- Source _equations_equivalent. -/
def equationsEquivalent (first second : LinearEquation) : Bool :=
  let f := solveLinearEquation first
  let s := solveLinearEquation second
  if f.1 ≠ s.1 then false
  else if f.1 = "single" then
    match f.2, s.2 with
    | some fv, some sv => decide (|fv - sv| ≤ 1 / 20)
    | _, _ => true
  else true

/-! Provenance tagging: _format_provenance_evidence, _PROVENANCE_PATTERN
and _parse_provenance. -/

/-- Source _format_provenance_evidence.  An empty-string counterexample is
falsy in Python and is not appended. -/
def formatProvenanceEvidence (step_id rule reason : String)
    (counterexample : Option String := none) : String :=
  let body := "근거: " ++ pyCleanText reason "근거 부족으로 자동 감점을 보류했습니다." 160
  let body :=
    match counterexample with
    | some ce => if ce.isEmpty then body else body ++ " 반례: " ++ pyCleanText ce "" 60
    | none => body
  pyCleanText ("[step:" ++ step_id ++ "][rule:" ++ rule ++ "] " ++ body) body 240

/-- Case-insensitive literal match at the head of the stream (the
re.IGNORECASE flag of _PROVENANCE_PATTERN). -/
def matchLitCI : List Char → List Char → Option (List Char)
  | [], rest => some rest
  | _, [] => none
  | l :: ls, c :: cs => if l.toLower = c.toLower then matchLitCI ls cs else none

/-- Anchored match of _PROVENANCE_PATTERN
([step:([^\x5d]+)]\s*[rule:([^\x5d]+)]\s*(.*)): both bracket groups are a
nonempty run up to the first closing bracket, whitespace runs in between
are skipped, and the body is the remainder (the input is already
whitespace-collapsed, so the dot-excludes-newline subtlety is vacuous). -/
def provMatch (l : List Char) : Option (List Char × List Char × List Char) := do
  let r1 ← matchLitCI "[step:".data l
  let stepPart := r1.takeWhile (fun c => c ≠ ']')
  if stepPart.isEmpty then none
  else
    match r1.dropWhile (fun c => c ≠ ']') with
    | ']' :: r2 =>
      let r3 := r2.dropWhile pyIsSpace
      match matchLitCI "[rule:".data r3 with
      | none => none
      | some r4 =>
        let rulePart := r4.takeWhile (fun c => c ≠ ']')
        if rulePart.isEmpty then none
        else
          match r4.dropWhile (fun c => c ≠ ']') with
          | ']' :: r5 => some (stepPart, rulePart, r5.dropWhile pyIsSpace)
          | _ => none
    | _ => none

/-- Source _parse_provenance. -/
def parseProvenance (evidence : String) : Option String × Option String × String :=
  let text := pyCleanText evidence "" 240
  if text.isEmpty then (none, none, "")
  else
    match provMatch text.data with
    | none => (none, none, text)
    | some (stepRaw, ruleRaw, bodyRaw) =>
      let step := pyCleanText (String.mk stepRaw) "" 20
      let rule := pyCleanText (String.mk ruleRaw) "" 40
      let body := pyCleanText (String.mk bodyRaw) "" 180
      ((if step.isEmpty then none else some step),
       (if rule.isEmpty then none else some rule), body)

/-- Contiguous-substring test on character lists. -/
def listContainsSub (needle : List Char) : List Char → Bool
  | [] => needle.isEmpty
  | c :: cs => needle.isPrefixOf (c :: cs) || listContainsSub needle cs

/-- Substring test, Python "needle in hay". -/
def strContainsSub (hay needle : String) : Bool := listContainsSub needle.data hay.data

/-- Source _infer_step_id (the location_hint argument is a string on the
canonical domain). -/
def inferStepId (location_hint : String) (steps : List ExtractedStep) : Option String :=
  if steps.isEmpty then none
  else
    let hint := pyLower (pyCleanText location_hint "" 120)
    let lastId := (steps.getLast?.map (·.step_id)).getD ""
    if hint.isEmpty then some lastId
    else if strContainsSub hint "마지막" || strContainsSub hint "최종" then some lastId
    else if strContainsSub hint "첫" then some ((steps.head?.map (·.step_id)).getD "")
    else if strContainsSub hint "두" && steps.length ≥ 2 then some ((steps.get? 1).map (·.step_id) |>.getD "")
    else if strContainsSub hint "세" && steps.length ≥ 3 then some ((steps.get? 2).map (·.step_id) |>.getD "")
    else
      let hintTokens := ((findTokens hint.data).map String.mk).dedup
      if hintTokens.isEmpty then some lastId
      else
        let scored := steps.filterMap (fun step =>
          let stepTokens := ((findTokens (pyLower step.text).data).map String.mk).dedup
          if stepTokens.isEmpty then none
          else
            let overlap := (hintTokens.filter (fun t => stepTokens.contains t)).length
            let uni := (hintTokens ++ stepTokens.filter (fun t => !hintTokens.contains t)).length
            if uni = 0 then none
            else some ((overlap : ℚ) / (uni : ℚ), step.step_id))
        if scored.isEmpty then some lastId
        else
          let sorted := stableSort (fun x y : ℚ × String =>
            !(decide (x.1 < y.1) || (decide (x.1 = y.1) && decide (x.2 < y.2)))) scored
          sorted.head?.map (·.2)

/-- Source _default_rule_for_mistake_type. -/
def defaultRuleForMistakeType (mtype : String) : String :=
  let normalized := pyUpper (pyStrip mtype)
  if normalized = mtFinalFormError then "RULE_FINAL_SUBSTITUTION"
  else if normalized = mtSignError || normalized = mtArithmeticError
      || normalized = mtAlgebraError || normalized = mtLogicGap then "RULE_EQUIV_TRANSFORM"
  else "RULE_GENERAL_CONSISTENCY"

/-- Source _DEFAULT_GENERIC_EVIDENCE. -/
def defaultGenericEvidence : List String :=
  ["근거가 부족해 보완 설명이 필요합니다.", "핵심 감점 구간을 한 줄씩 다시 전개해 수정하세요."]

/-- Source _has_actionable_reason: cleaned length at least 8 and not one of
the fixed boilerplate phrases. -/
def hasActionableReason (reason : String) : Bool :=
  let cleaned := pyCleanText reason "" 180
  if cleaned.length < 8 then false
  else !(defaultGenericEvidence.contains cleaned)

/-! Pipeline stage 1: _inject_verification_findings. -/

/-- Lookup in the step_id → text dict built by
_inject_verification_findings (last writer wins, as in a Python dict). -/
def lookupStepText (steps : List ExtractedStep) (sid : String) : Option String :=
  ((steps.filter (fun st => st.step_id = sid)).getLast?).map (·.text)

/-- Synthetic mistake generated for one failed finding. -/
def mistakeOfFailedFinding (steps : List ExtractedStep) (finding : VerificationFinding) : Mistake :=
  let isFinal := finding.rule = "RULE_FINAL_SUBSTITUTION"
  { type := if isFinal then mtFinalFormError else mtLogicGap
    severity := if isFinal then sevHigh else sevMed
    points_deducted := if isFinal then 1.5 else 0.5
    evidence := formatProvenanceEvidence finding.step_id finding.rule finding.reason finding.counterexample
    fix_instruction := pyCleanText
      (if isFinal then "최종 값을 원식에 대입해 성립 여부를 확인한 뒤 답을 수정하세요."
       else "전후 식의 해가 같아지는지 한 줄씩 다시 전개해 수정하세요.")
      "핵심 감점 구간을 다시 검토하세요." 240
    location_hint := pyCleanTextOpt (lookupStepText steps finding.step_id) (finding.step_id ++ " 단계") 120
    highlight := { mode := "ocr_box", shape := "box" } }

/-- Source _inject_verification_findings. -/
def injectVerificationFindings (result : GradingResult) (report : VerificationReport) : GradingResult :=
  let failed := report.findings.filter (fun f => !f.passed)
  if failed.isEmpty then result
  else
    let generated := failed.map (mistakeOfFailedFinding report.steps)
    { result with mistakes := (generated ++ result.mistakes).take 20 }

/-! Pipeline stage 2: _enforce_evidence_gate. -/

/-- Step-id inference chain of _enforce_evidence_gate: parsed provenance
step, else hint-inferred step, else the last step id, else "s0" (Python
or-chains treat the empty string as falsy). -/
def gateInferredStep (parsedStep : Option String) (location_hint : String)
    (steps : List ExtractedStep) : String :=
  let fallback := ((steps.getLast?.map (·.step_id)).getD "s0")
  let fromHint :=
    match inferStepId location_hint steps with
    | some s => if s.isEmpty then fallback else s
    | none => fallback
  match parsedStep with
  | some s => if s.isEmpty then fromHint else s
  | none => fromHint

/-- One iteration of the _enforce_evidence_gate loop: returns the adjusted
mistake and the updated missing_info list. -/
def gateOne (hasVerificationContext : Bool) (steps : List ExtractedStep)
    (idx : ℕ) (m : Mistake) (missing : List String) : Mistake × List String :=
  let parsed := parseProvenance m.evidence
  let inferredStep := gateInferredStep parsed.1 m.location_hint steps
  let inferredRule := (parsed.2.1).getD (defaultRuleForMistakeType m.type)
  let reasonText := if parsed.2.2.isEmpty then pyCleanText m.evidence "" 180 else parsed.2.2
  if hasActionableReason reasonText then
    ({ m with evidence := formatProvenanceEvidence inferredStep inferredRule reasonText }, missing)
  else
    let (m2, reasonText2, holdNote) :=
      if hasVerificationContext then
        ({ m with points_deducted := 0, severity := sevLow },
         "근거 부족으로 자동 감점을 보류했습니다.",
         pyCleanText ("mistake#" ++ toString (idx + 1) ++ ": evidence_gate_hold") "" 80)
      else
        let m2 :=
          if m.points_deducted ≤ 0 then { m with points_deducted := 0.3, severity := sevLow }
          else m
        (m2, "OCR 검증 정보 부족: 모델 감점 근거를 보류 없이 반영",
         pyCleanText ("mistake#" ++ toString (idx + 1) ++ ": evidence_unverified_model") "" 80)
    let missing2 :=
      if !holdNote.isEmpty && !missing.contains holdNote then missing ++ [holdNote] else missing
    ({ m2 with evidence := formatProvenanceEvidence inferredStep inferredRule reasonText2 }, missing2)

/-- Fold of gateOne over the indexed mistakes. -/
def gateFold (hasVerificationContext : Bool) (steps : List ExtractedStep) :
    List (ℕ × Mistake) → List String → List Mistake × List String
  | [], missing => ([], missing)
  | (idx, m) :: rest, missing =>
    let (m2, missing2) := gateOne hasVerificationContext steps idx m missing
    let (tail, missing3) := gateFold hasVerificationContext steps rest missing2
    (m2 :: tail, missing3)

/-- Source _enforce_evidence_gate. -/
def enforceEvidenceGate (result : GradingResult) (report : VerificationReport) : GradingResult :=
  let hasVerificationContext := !report.findings.isEmpty || !report.steps.isEmpty
  let (adjusted, missing) :=
    gateFold hasVerificationContext report.steps result.mistakes.enum result.missing_info
  { result with mistakes := adjusted.take 20, missing_info := missing.take 6 }

/-! Pipeline stage 3: _dedupe_mistakes_by_step_rule. -/

/-- Merge of a new mistake into the already-grouped representative with the
same (step, rule) key, following the source branch on points. -/
def dedupeMerge (key : String × String) (existing m : Mistake) : Mistake :=
  let parsedE := parseProvenance existing.evidence
  let parsedM := parseProvenance m.evidence
  let similarity := textSimilarity parsedM.2.2 parsedE.2.2
  let existingPoints := existing.points_deducted
  let currentPoints := m.points_deducted
  let mergedEvidence :=
    formatProvenanceEvidence (parsedE.1.getD key.1) ((parsedE.2.1).getD key.2)
      (pyCleanText (parsedE.2.2 ++ " 추가근거: " ++ parsedM.2.2)
        (if parsedE.2.2.isEmpty then parsedM.2.2 else parsedE.2.2) 180)
  if existingPoints < currentPoints then
    { existing with
      type := m.type
      fix_instruction := m.fix_instruction
      location_hint := m.location_hint
      highlight := m.highlight
      severity := higherSeverity existing.severity m.severity
      points_deducted := currentPoints
      evidence := if similarity ≥ 0.7 then m.evidence else mergedEvidence }
  else
    { existing with
      points_deducted := max existingPoints currentPoints
      severity := higherSeverity existing.severity m.severity
      evidence := if similarity < 0.7 then mergedEvidence else existing.evidence }

/-- Grouping key of _dedupe_mistakes_by_step_rule. -/
def dedupeKey (m : Mistake) : String × String :=
  let parsed := parseProvenance m.evidence
  (parsed.1.getD "s0", (parsed.2.1).getD (defaultRuleForMistakeType m.type))

/-- Insertion-ordered grouping of the mistakes by (step, rule). -/
def dedupeGroup : List Mistake → List ((String × String) × Mistake) → List ((String × String) × Mistake)
  | [], acc => acc
  | m :: rest, acc =>
    let key := dedupeKey m
    if acc.any (fun kv => kv.1 = key) then
      dedupeGroup rest (acc.map (fun kv => if kv.1 = key then (kv.1, dedupeMerge key kv.2 m) else kv))
    else dedupeGroup rest (acc ++ [(key, m)])

/-- Source _dedupe_mistakes_by_step_rule. -/
def dedupeMistakesByStepRule (result : GradingResult) : GradingResult :=
  let deduped := (dedupeGroup result.mistakes []).map (·.2)
  let sorted := stableSort (fun x y : Mistake =>
    !(decide (x.points_deducted < y.points_deducted)
      || (decide (x.points_deducted = y.points_deducted)
          && decide (severityRank x.severity < severityRank y.severity)))) deduped
  { result with mistakes := sorted.take 20 }

/-! Pipeline stage 4: _apply_verified_wrong_final_cap. -/

/-- Synthetic final-form mistake inserted by the verified-wrong-final cap. -/
def capSyntheticMistake (failure : VerificationFinding) : Mistake :=
  { type := mtFinalFormError
    severity := sevHigh
    points_deducted := 1.8
    evidence := formatProvenanceEvidence failure.step_id failure.rule failure.reason failure.counterexample
    fix_instruction := "최종 값을 원식에 대입해 성립 여부를 확인한 뒤 정답을 수정하세요."
    location_hint := "최종 답 줄"
    highlight := { mode := "ocr_box", shape := "box" } }

/-- Upgrade in place of the first FINAL_FORM_ERROR mistake. -/
def capUpgradeFirst (failure : VerificationFinding) : List Mistake → List Mistake
  | [] => []
  | m :: rest =>
    if m.type = mtFinalFormError then
      { m with
        severity := sevHigh
        points_deducted := max m.points_deducted 1.8
        evidence := formatProvenanceEvidence failure.step_id failure.rule failure.reason failure.counterexample
        fix_instruction := "최종 값을 원식에 대입해 성립 여부를 확인한 뒤 정답을 수정하세요." } :: rest
    else m :: capUpgradeFirst failure rest

/-- Python "value or default" on a number: zero is falsy and selects the
default (the source leans on this in several "x = _to_float(...) or d"
reads with a nonzero d). -/
def pyOrQ (v d : ℚ) : ℚ := if v = 0 then d else v

/-- Python "value or default" on a string: the empty string is falsy. -/
def pyOrStr (v d : String) : String := if v.isEmpty then d else v

/-- Source _apply_verified_wrong_final_cap. -/
def applyVerifiedWrongFinalCap (result : GradingResult) (report : VerificationReport) : GradingResult :=
  let finalFailures := report.findings.filter
    (fun f => !f.passed && f.rule = "RULE_FINAL_SUBSTITUTION")
  match finalFailures.head? with
  | none => result
  | some failure =>
    let mistakes :=
      if result.mistakes.any (fun m => m.type = mtFinalFormError) then
        capUpgradeFirst failure result.mistakes
      else capSyntheticMistake failure :: result.mistakes
    let mistakes := mistakes.take 20
    let scoreCap : ℚ := 7.0
    let currentScore := pyOrQ result.score_total 10.0
    let score1 := if currentScore > scoreCap then scoreCap else result.score_total
    let rubric := result.rubric_scores
    let rubric :=
      { rubric with
        final := min (pyOrQ rubric.final 0.6) 0.8
        logic := min (pyOrQ rubric.logic 1.1) 1.6
        conditions := clampQ (pyOrQ rubric.conditions 1.2) 0 2
        modeling := clampQ (pyOrQ rubric.modeling 1.2) 0 2
        calculation := clampQ (pyOrQ rubric.calculation 1.2) 0 2 }
    let rubricSum := rubric.conditions + rubric.modeling + rubric.logic + rubric.calculation + rubric.final
    let score2 := pyRound 2 (min (min (pyOrQ score1 scoreCap) rubricSum) scoreCap)
    { result with
      mistakes := mistakes
      score_total := score2
      rubric_scores := rubric
      confidence := pyRound 2 (min (pyOrQ result.confidence 0.7) 0.72) }

/-! Pipeline stage 5: _apply_uncertainty_policy. -/

/-- Python f-string ".2f" formatting, modelled as exact half-up rounding of
the magnitude to hundredths (every call site formats an already
2-decimal-rounded value, where all roundings agree). -/
def formatFixed2 (q : ℚ) : String :=
  let scaled : ℕ := (⌊|q| * 100 + 1 / 2⌋).toNat
  let whole := scaled / 100
  let frac := scaled % 100
  (if q < 0 then "-" else "") ++ toString whole ++ "."
    ++ (if frac < 10 then "0" ++ toString frac else toString frac)

/-- Source _make_review_placeholder. -/
def makeReviewPlaceholder : Mistake :=
  { type := mtLogicGap
    severity := sevLow
    points_deducted := 0
    evidence := formatProvenanceEvidence "s0" "RULE_REVIEW_REQUIRED"
      "자동 판정 근거가 부족해 감점을 보류했습니다."
    fix_instruction := "핵심 줄의 식 변형을 한 줄씩 확인해 검토하세요."
    location_hint := "전체 풀이"
    highlight := { mode := "ocr_box", shape := "box" } }

/-- Hold transformation applied to one mistake by the uncertainty policy. -/
def holdMistake (m : Mistake) : Mistake :=
  let parsed := parseProvenance m.evidence
  let reason := pyCleanText ((pyOrStr parsed.2.2 "근거 불충분") ++ " -> 자동 감점 보류(검토 필요)")
    "근거 부족으로 자동 감점을 보류했습니다." 180
  { m with
    points_deducted := 0
    severity := sevLow
    evidence := formatProvenanceEvidence (parsed.1.getD "s0")
      ((parsed.2.1).getD "RULE_REVIEW_REQUIRED") reason }

/-- Review note added to missing_info by the uncertainty policy. -/
def reviewNote (blendedConf agreement : ℚ) : String :=
  pyCleanText ("검토 필요: 자동 감점 보류 (confidence=" ++ formatFixed2 blendedConf
    ++ ", agreement=" ++ formatFixed2 agreement ++ ")") "" 80

/-- Hold condition of _apply_uncertainty_policy: low blended confidence,
low agreement, or verifier review request — vetoed by a verified critical
failure or by the absence of any verification context. -/
def uncertaintyShouldHold (uncertaintyThreshold consensusMinAgreement blendedConf : ℚ)
    (report : VerificationReport) (meta : ConsensusMeta) : Bool :=
  let hasVerifiedCriticalFailure := report.findings.any (fun f =>
    !f.passed && (f.rule = "RULE_FINAL_SUBSTITUTION" || f.rule = "RULE_EQUIV_TRANSFORM")
      && !(f.counterexample.getD "").isEmpty)
  let hasVerificationContext :=
    !report.findings.isEmpty || report.expected_x.isSome || report.observed_x.isSome
  (decide (blendedConf < uncertaintyThreshold)
    || decide (meta.agreement < consensusMinAgreement)
    || report.requires_review)
    && !hasVerifiedCriticalFailure && hasVerificationContext

/-- Source _apply_uncertainty_policy. -/
def applyUncertaintyPolicy (uncertaintyThreshold consensusMinAgreement : ℚ)
    (result : GradingResult) (report : VerificationReport) (meta : ConsensusMeta) : GradingResult :=
  let blendedConf := pyRound 2 (clampQ
    (result.confidence * 0.5 + report.confidence * 0.3 + meta.agreement * 0.2) 0 1)
  let result := { result with confidence := blendedConf }
  if !(uncertaintyShouldHold uncertaintyThreshold consensusMinAgreement blendedConf report meta) then
    result
  else
    let mistakes := if result.mistakes.isEmpty then [makeReviewPlaceholder] else result.mistakes
    let mistakes := (mistakes.map holdMistake).take 20
    let result := { result with mistakes := mistakes }
    let currentScore := result.score_total
    let reviewCeiling : ℚ := 8.8
    let result :=
      if currentScore > reviewCeiling then
        let rubric := result.rubric_scores
        let total := rubric.conditions + rubric.modeling + rubric.logic
          + rubric.calculation + rubric.final
        let rubric :=
          if total > 0 then
            let scale := reviewCeiling / total
            { conditions := pyRound 2 (clampQ (rubric.conditions * scale) 0 2)
              modeling := pyRound 2 (clampQ (rubric.modeling * scale) 0 2)
              logic := pyRound 2 (clampQ (rubric.logic * scale) 0 2)
              calculation := pyRound 2 (clampQ (rubric.calculation * scale) 0 2)
              final := pyRound 2 (clampQ (rubric.final * scale) 0 2) }
          else
            let perBucket := min 2 (pyRound 2 (reviewCeiling / 5))
            { conditions := perBucket, modeling := perBucket, logic := perBucket
              calculation := perBucket, final := perBucket }
        { result with score_total := reviewCeiling, rubric_scores := rubric }
      else result
    let currentScore2 := if currentScore > reviewCeiling then reviewCeiling else currentScore
    let scoreFloor : ℚ := 8.0
    let result :=
      if currentScore2 < scoreFloor then
        let rubric := result.rubric_scores
        let perBucket := pyRound 2 (scoreFloor / 5)
        { result with
          score_total := scoreFloor
          rubric_scores :=
            { conditions := max rubric.conditions perBucket
              modeling := max rubric.modeling perBucket
              logic := max rubric.logic perBucket
              calculation := max rubric.calculation perBucket
              final := max rubric.final perBucket } }
      else result
    let note := reviewNote blendedConf meta.agreement
    let missing :=
      if !note.isEmpty && !result.missing_info.contains note then
        result.missing_info ++ [note]
      else result.missing_info
    let result := { result with missing_info := missing.take 6 }
    let checklist :=
      match result.next_checklist with
      | [] => ["검토 필요 항목 우선 확인: 자동 감점은 보류됨"]
      | first :: rest => pyCleanText "검토 필요 항목 우선 확인: 자동 감점은 보류됨" first 80 :: rest
    { result with next_checklist := checklist.take 3 }

/-! Pipeline stage 6: _apply_answer_verdict_policy. -/

/-- Verdict component of _derive_answer_verdict (the reason component of
the source tuple is dead: the only caller immediately recomputes it with
_stable_verdict_reason, so only the verdict is modelled). -/
def deriveAnswerVerdict (report : VerificationReport) : String :=
  let finalChecks := report.findings.filter (fun f => f.rule = "RULE_FINAL_SUBSTITUTION")
  if finalChecks.any (fun f => !f.passed && !(f.counterexample.getD "").isEmpty) then avIncorrect
  else if finalChecks.any (fun f => f.passed) then avCorrect
  else if report.findings.any (fun f =>
      f.rule = "RULE_EQUIV_TRANSFORM" && !f.passed && !(f.counterexample.getD "").isEmpty) then
    avIncorrect
  else
    match report.expected_x, report.observed_x with
    | some e, some o => if |e - o| ≤ 1 / 20 then avCorrect else avIncorrect
    | _, _ => avUnknown

/-- Source _stable_verdict_reason. -/
def stableVerdictReason (verdict : String) (report : VerificationReport)
    (usedExistingSignal : Bool) : String :=
  if verdict = avCorrect then
    if usedExistingSignal then "맞음: 보조 검산 기준에서 일치가 확인되었습니다."
    else if report.findings.any (fun f => f.rule = "RULE_FINAL_SUBSTITUTION" && f.passed) then
      "맞음: 최종 답 검증을 통과했습니다."
    else if report.expected_x.isSome && report.observed_x.isSome then
      "맞음: 최종 답이 정답과 일치합니다."
    else "맞음: 검증 기준에서 정답으로 판단했습니다."
  else if verdict = avIncorrect then
    if usedExistingSignal then "틀림: 보조 검산 기준에서 불일치가 확인되었습니다."
    else if report.findings.any (fun f => !f.passed && f.rule = "RULE_FINAL_SUBSTITUTION") then
      "틀림: 최종 답 검증에서 불일치가 확인되었습니다."
    else if report.findings.any (fun f => !f.passed && f.rule = "RULE_EQUIV_TRANSFORM") then
      "틀림: 중간 식 변형에서 동치가 깨졌습니다."
    else if report.expected_x.isSome && report.observed_x.isSome then
      "틀림: 최종 답이 정답과 일치하지 않습니다."
    else "틀림: 검증 근거에서 오답 신호가 확인되었습니다."
  else "정오 판단 보류: 검증 정보 부족"

/-- Source _estimate_logic_quality. -/
def estimateLogicQuality (result : GradingResult) (report : VerificationReport) : ℚ :=
  let rubric := result.rubric_scores
  let base := rubric.conditions + rubric.modeling + rubric.logic + rubric.calculation
  let rubricQuality := clampQ (base / 8) 0 1
  let transformFindings := report.findings.filter (fun f => f.rule = "RULE_EQUIV_TRANSFORM")
  let processQuality :=
    if transformFindings.isEmpty then rubricQuality
    else ((transformFindings.filter (fun f => f.passed)).length : ℚ) / (transformFindings.length : ℚ)
  pyRound 4 (clampQ (rubricQuality * 0.65 + processQuality * 0.35) 0 1)

/-- Source _rescale_rubric_to_score. -/
def rescaleRubricToScore (rubric : RubricScores) (score_total : ℚ) (verdict : String) : RubricScores :=
  let currentSum := rubric.conditions + rubric.modeling + rubric.logic
    + rubric.calculation + rubric.final
  let rubric :=
    if currentSum ≤ 0 then
      let perBucket := pyRound 2 (clampQ (pyRound 2 (score_total / 5)) 0 2)
      { conditions := perBucket, modeling := perBucket, logic := perBucket
        calculation := perBucket, final := perBucket }
    else
      let scale := score_total / currentSum
      { conditions := pyRound 2 (clampQ (rubric.conditions * scale) 0 2)
        modeling := pyRound 2 (clampQ (rubric.modeling * scale) 0 2)
        logic := pyRound 2 (clampQ (rubric.logic * scale) 0 2)
        calculation := pyRound 2 (clampQ (rubric.calculation * scale) 0 2)
        final := pyRound 2 (clampQ (rubric.final * scale) 0 2) }
  let rubric := if verdict = avIncorrect then { rubric with final := min rubric.final 0.8 } else rubric
  if verdict = avCorrect then { rubric with final := max rubric.final 1.2 } else rubric

/-- Source _apply_answer_verdict_policy. -/
def applyAnswerVerdictPolicy (result : GradingResult) (report : VerificationReport) : GradingResult :=
  let derived := deriveAnswerVerdict report
  let currentScore := result.score_total
  let existingVerdict := normalizeAnswerVerdict result.answer_verdict
  let usedExisting := derived = avUnknown
    && (existingVerdict = avCorrect || existingVerdict = avIncorrect)
  let verdict := if usedExisting then existingVerdict else derived
  let reason := stableVerdictReason verdict report usedExisting
  let result := { result with
    answer_verdict := verdict
    answer_verdict_reason := pyCleanText reason "정오 판단 정보가 부족합니다." 120 }
  let logicQuality := estimateLogicQuality result report
  let targetScore :=
    if verdict = avCorrect then
      let t := pyRound 2 (clampQ (7 + logicQuality * 3) 7 10)
      if 7 ≤ currentScore && currentScore ≤ 10 && currentScore > t then currentScore else t
    else if verdict = avIncorrect then
      let t := pyRound 2 (clampQ (logicQuality * 7) 0 7)
      if currentScore < t then currentScore else t
    else pyRound 2 (clampQ currentScore 0 10)
  { result with
    score_total := targetScore
    rubric_scores := rescaleRubricToScore result.rubric_scores targetScore verdict }

/-! Pipeline stage 7: _ensure_mistake_coverage with
_build_rubric_gap_mistakes, _normalize_deductions_to_target and
_allocate_weighted_with_cap. -/

/-- Source _default_step_for_dimension. -/
def defaultStepForDimension (key : String) (steps : List ExtractedStep) (fallbackIdx : ℕ) : String :=
  match steps with
  | [] => "s" ++ toString (min (max fallbackIdx 1) 6)
  | _ =>
    if key = "final" then ((steps.getLast?.map (·.step_id)).getD "")
    else if key = "conditions" || key = "modeling" then ((steps.head?.map (·.step_id)).getD "")
    else if key = "calculation" then
      (((steps.get? (min (steps.length - 1) (max 1 (steps.length / 2)))).map (·.step_id)).getD "")
    else (((steps.get? (min (steps.length - 1) (max 0 (steps.length / 2)))).map (·.step_id)).getD "")

/-- Source _default_location_for_dimension. -/
def defaultLocationForDimension (key : String) : String :=
  if key = "conditions" then "첫 줄(조건 해석)"
  else if key = "modeling" then "식 세우는 줄"
  else if key = "logic" then "중간 전개 줄"
  else if key = "calculation" then "계산 줄"
  else if key = "final" then "최종 답 줄"
  else "풀이 중간 구간"

/-- Severity bucket used for synthesized deduction entries. -/
def severityForPoints (points : ℚ) : String :=
  if points ≥ 1.2 then sevHigh else if points ≥ 0.6 then sevMed else sevLow

/-- Source _build_rubric_gap_mistakes. -/
def buildRubricGapMistakes (result : GradingResult) (report : VerificationReport)
    (gap : ℚ) : List Mistake :=
  let rubric := result.rubric_scores
  let dims : List (String × String × String × String × ℚ) :=
    [("conditions", mtConditionMissed, "RULE_RUBRIC_CONDITIONS", "조건 반영", rubric.conditions),
     ("modeling", mtDefinitionConfusion, "RULE_RUBRIC_MODELING", "식 세우기", rubric.modeling),
     ("logic", mtLogicGap, "RULE_RUBRIC_LOGIC", "논리 전개", rubric.logic),
     ("calculation", mtArithmeticError, "RULE_RUBRIC_CALC", "계산", rubric.calculation),
     ("final", mtFinalFormError, "RULE_RUBRIC_FINAL", "최종 답 검산", rubric.final)]
  let deficits := dims.filterMap (fun d =>
    let deficit := pyRound 3 (clampQ (2 - d.2.2.2.2) 0 2)
    if deficit > 0.05 then some (d.1, d.2.1, d.2.2.1, d.2.2.2.1, deficit) else none)
  if deficits.isEmpty then []
  else
    let deficitSum := (deficits.map (fun d => d.2.2.2.2)).sum
    let scale := if deficitSum > 0 then gap / deficitSum else 0
    deficits.enum.filterMap (fun d =>
      let idx := d.1 + 1
      let key := d.2.1
      let mtype := d.2.2.1
      let rule := d.2.2.2.1
      let label := d.2.2.2.2.1
      let deficit := d.2.2.2.2.2
      let points := pyRound 2 (clampQ (deficit * scale) 0 2)
      if points < 0.1 then none
      else some
        ({ type := mtype
           severity := severityForPoints points
           points_deducted := points
           evidence := formatProvenanceEvidence (defaultStepForDimension key report.steps idx)
             rule (label ++ " 루브릭 점수 부족으로 감점")
           fix_instruction := label ++ " 관련 줄을 다시 전개해 감점 요인을 수정하세요."
           location_hint := defaultLocationForDimension key
           highlight := { mode := "ocr_box", shape := "box" } } : Mistake))

/-- Inner rounds of _allocate_weighted_with_cap; each recursive step
removes at least one saturated index from remaining, so fuel equal to the
weight count is never exhausted. -/
def allocLoopGo (weights : List ℚ) (safeCap : ℚ) :
    ℕ → List ℚ → ℚ → List ℕ → List ℚ
  | 0, allocations, _, _ => allocations
  | fuel + 1, allocations, remainingTarget, remaining =>
    if remaining.isEmpty || !(remainingTarget > 1 / 1000000000) then allocations
    else
      let weightSum := (remaining.map (fun idx => max (weights.getD idx 0) 0)).sum
      if weightSum ≤ 1 / 1000000000 then
        let share := remainingTarget / (remaining.length : ℚ)
        remaining.foldl (fun acc idx => acc.set idx (min safeCap share)) allocations
      else
        let saturated := remaining.filter (fun idx =>
          remainingTarget * (max (weights.getD idx 0) 0 / weightSum) ≥ safeCap - 1 / 1000000000)
        if !saturated.isEmpty then
          allocLoopGo weights safeCap fuel
            (saturated.foldl (fun acc idx => acc.set idx safeCap) allocations)
            (max 0 (remainingTarget - safeCap * (saturated.length : ℚ)))
            (remaining.filter (fun idx => !saturated.contains idx))
        else
          remaining.foldl
            (fun acc idx => acc.set idx (remainingTarget * (max (weights.getD idx 0) 0 / weightSum)))
            allocations

/-- Source _allocate_weighted_with_cap. -/
def allocateWeightedWithCap (weights : List ℚ) (target cap : ℚ) : List ℚ :=
  if weights.isEmpty then []
  else
    let count := weights.length
    let safeCap := max 0 cap
    allocLoopGo weights safeCap (count + 1) (List.replicate count 0)
      (clampQ target 0 (safeCap * (count : ℚ))) (List.range count)

/-- Generic balancing filler appended while the 2.0-per-item capacity is
below the target (source: the while loop of _normalize_deductions_to_target). -/
def scoreBalanceFiller : Mistake :=
  { type := mtLogicGap
    severity := sevHigh
    points_deducted := 1.0
    evidence := formatProvenanceEvidence "s0" "RULE_SCORE_BALANCE" "점수 총합 정규화를 위한 감점 분배"
    fix_instruction := "핵심 줄의 전개를 순서대로 다시 확인하세요."
    location_hint := "풀이 중간 구간"
    highlight := { mode := "ocr_box", shape := "box" } }

/-- Filler loop: while len(normalized)·20 < target_units and len < 20.
The length grows by one each round, so 20 rounds of fuel always suffice. -/
def addFillers (targetUnits : ℕ) : ℕ → List Mistake → List Mistake
  | 0, l => l
  | fuel + 1, l =>
    if l.length * 20 < targetUnits && l.length < 20 then
      addFillers targetUnits fuel (l ++ [scoreBalanceFiller])
    else l

/-- One pass of the deficit loop: add single tenth units to the items of
the order list that are below the 20-unit cap, stopping when the deficit
reaches zero.  Returns the units, the remaining deficit and whether any
unit moved. -/
def deficitPassGo (order : List ℕ) (units : List ℕ) (d : ℕ) (moved : Bool) :
    List ℕ × ℕ × Bool :=
  match order with
  | [] => (units, d, moved)
  | idx :: rest =>
    if units.getD idx 0 ≥ 20 then deficitPassGo rest units d moved
    else
      let units2 := units.set idx (units.getD idx 0 + 1)
      if d - 1 = 0 then (units2, 0, true)
      else deficitPassGo rest units2 (d - 1) true

/-- Outer deficit loop; every moved pass decreases the deficit by at least
one, so fuel equal to the initial deficit is never exhausted. -/
def deficitLoop (order : List ℕ) : ℕ → List ℕ → ℕ → List ℕ
  | 0, units, _ => units
  | fuel + 1, units, d =>
    if d = 0 then units
    else
      let (u2, d2, moved) := deficitPassGo order units d false
      if !moved then u2
      else if d2 = 0 then u2
      else deficitLoop order fuel u2 d2

/-- One pass of the overflow loop: remove single tenth units from positive
items, stopping when the overflow reaches zero. -/
def overflowPassGo (order : List ℕ) (units : List ℕ) (o : ℕ) (moved : Bool) :
    List ℕ × ℕ × Bool :=
  match order with
  | [] => (units, o, moved)
  | idx :: rest =>
    if units.getD idx 0 = 0 then overflowPassGo rest units o moved
    else
      let units2 := units.set idx (units.getD idx 0 - 1)
      if o - 1 = 0 then (units2, 0, true)
      else overflowPassGo rest units2 (o - 1) true

/-- Outer overflow loop, same fuel discipline as the deficit loop. -/
def overflowLoop (order : List ℕ) : ℕ → List ℕ → ℕ → List ℕ
  | 0, units, _ => units
  | fuel + 1, units, o =>
    if o = 0 then units
    else
      let (u2, o2, moved) := overflowPassGo order units o false
      if !moved then u2
      else if o2 = 0 then u2
      else overflowLoop order fuel u2 o2

/-- Fallback single entry kept when every allocation rounded away. -/
def minimalBalanceEntry (targetUnits : ℕ) : Mistake :=
  let fallbackPoints := roundToTenth (min 2 ((targetUnits : ℚ) / 10))
  { type := mtLogicGap
    severity := if fallbackPoints ≥ 1.2 then sevHigh else sevMed
    points_deducted := fallbackPoints
    evidence := formatProvenanceEvidence "s0" "RULE_SCORE_BALANCE" "점수 총합 정규화를 위한 최소 감점 항목"
    fix_instruction := "핵심 줄의 논리 전개를 다시 확인하세요."
    location_hint := "풀이 중간 구간"
    highlight := { mode := "ocr_box", shape := "box" } }

/-- Lexicographic strictly-less on the descending deficit-order key
((raw·10 − units), weight, −idx). -/
def deficitKeyLt (a b : ℚ × ℚ × ℤ) : Bool :=
  decide (a.1 < b.1) || (decide (a.1 = b.1)
    && (decide (a.2.1 < b.2.1) || (decide (a.2.1 = b.2.1) && decide (a.2.2 < b.2.2))))

/-- Lexicographic strictly-less on the ascending overflow-order key
(units, weight, idx). -/
def overflowKeyLt (a b : ℕ × ℚ × ℕ) : Bool :=
  decide (a.1 < b.1) || (decide (a.1 = b.1)
    && (decide (a.2.1 < b.2.1) || (decide (a.2.1 = b.2.1) && decide (a.2.2 < b.2.2))))

/-- Source _normalize_deductions_to_target. -/
def normalizeDeductionsToTarget (mistakes : List Mistake) (targetDeduction : ℚ) : List Mistake :=
  if mistakes.isEmpty then []
  else
    let targetUnitsZ : ℤ := ⌊roundToTenth (clampQ targetDeduction 0 10) * 10 + 1 / 2⌋
    if targetUnitsZ ≤ 0 then []
    else
      let targetUnits := targetUnitsZ.toNat
      let normalized := addFillers targetUnits 20 mistakes
      let weights := normalized.map (fun m => max m.points_deducted 0.1)
      let rawAlloc := allocateWeightedWithCap weights ((targetUnits : ℚ) / 10) 2.0
      let pointUnits : List ℕ :=
        rawAlloc.map (fun v => (max 0 ⌊v * 10 + 1 / 1000000000⌋).toNat)
      let usedUnits := pointUnits.sum
      let deficit : ℤ := (targetUnits : ℤ) - (usedUnits : ℤ)
      let units :=
        if 0 < deficit then
          let order := stableSort (fun i j =>
            let ki := ((rawAlloc.getD i 0) * 10 - (pointUnits.getD i 0 : ℚ),
              weights.getD i 0, -(i : ℤ))
            let kj := ((rawAlloc.getD j 0) * 10 - (pointUnits.getD j 0 : ℚ),
              weights.getD j 0, -(j : ℤ))
            !(deficitKeyLt ki kj)) (List.range normalized.length)
          deficitLoop order deficit.toNat pointUnits deficit.toNat
        else if deficit < 0 then
          let order := stableSort (fun i j =>
            let ki := (pointUnits.getD i 0, weights.getD i 0, i)
            let kj := (pointUnits.getD j 0, weights.getD j 0, j)
            !(overflowKeyLt kj ki)) (List.range normalized.length)
          overflowLoop order (-deficit).toNat pointUnits (-deficit).toNat
        else pointUnits
      let output := normalized.enum.filterMap (fun im =>
        let points := roundToTenth (clampQ ((units.getD im.1 0 : ℚ) / 10) 0 2)
        if points < 0.1 then none
        else some { im.2 with
          points_deducted := points
          severity := higherSeverity im.2.severity (severityForPoints points) })
      let output := if output.isEmpty && targetUnits > 0 then [minimalBalanceEntry targetUnits] else output
      output.take 20

/-- Descending stable order on points_deducted used by the coverage stage. -/
def sortMistakesByPointsDesc (mistakes : List Mistake) : List Mistake :=
  stableSort (fun x y => !(decide (x.points_deducted < y.points_deducted))) mistakes

/-- Source _ensure_mistake_coverage. -/
def ensureMistakeCoverage (result : GradingResult) (report : VerificationReport) : GradingResult :=
  let mistakes := result.mistakes.filter (fun m => m.points_deducted > 0.04)
  let verdict := normalizeAnswerVerdict result.answer_verdict
  let hasFailedFinding := report.findings.any (fun f => !f.passed)
  if verdict = avCorrect && !hasFailedFinding then
    let taken := (sortMistakesByPointsDesc mistakes).take 20
    let result := { result with mistakes := taken }
    if taken.isEmpty then result
    else
      let totalDeduction := roundToTenth ((taken.map (·.points_deducted)).sum)
      let scoreCeiling := roundToTenth (clampQ (10 - totalDeduction) 0 10)
      let currentScore := roundToTenth result.score_total
      if currentScore > scoreCeiling then { result with score_total := scoreCeiling } else result
  else
    let scoreTotal := roundToTenth (clampQ result.score_total 0 10)
    let targetDeduction := roundToTenth (10 - scoreTotal)
    let actualDeduction := pyRound 2 ((mistakes.map (·.points_deducted)).sum)
    let gap := pyRound 2 (targetDeduction - actualDeduction)
    let mistakes :=
      if gap > 0.1 then
        let withAdditions := mistakes ++ buildRubricGapMistakes result report gap
        let actual2 := pyRound 2 ((withAdditions.map (·.points_deducted)).sum)
        let gap2 := pyRound 2 (targetDeduction - actual2)
        if gap2 > 0.1 then
          let stepId :=
            match inferStepId "풀이 중간 구간" report.steps with
            | some s => if s.isEmpty then "s1" else s
            | none => "s1"
          withAdditions ++
            [{ type := mtLogicGap
               severity := if gap2 < 1 then sevMed else sevHigh
               points_deducted := pyRound 2 (clampQ gap2 0.1 2)
               evidence := formatProvenanceEvidence stepId "RULE_SCORE_BALANCE"
                 "루브릭 총점 대비 누락된 감점 요인 보완"
               fix_instruction := "핵심 논리/계산/최종답 검증을 단계별로 다시 점검하세요."
               location_hint := "풀이 중간 구간"
               highlight := { mode := "ocr_box", shape := "box" } }]
        else withAdditions
      else mistakes
    let taken := (sortMistakesByPointsDesc (normalizeDeductionsToTarget mistakes targetDeduction)).take 20
    let totalDeduction := roundToTenth ((taken.map (·.points_deducted)).sum)
    { result with mistakes := taken, score_total := roundToTenth (10 - totalDeduction) }

/-! Pipeline stage 8: _reconcile_score_from_deductions. -/

/-- Source _reconcile_score_from_deductions. -/
def reconcileScoreFromDeductions (result : GradingResult) : GradingResult :=
  let deduction := (result.mistakes.map (·.points_deducted)).sum
  let scoreCeiling := roundToTenth (clampQ (10 - deduction) 0 10)
  let currentScore := roundToTenth result.score_total
  if currentScore ≤ scoreCeiling then result
  else
    let rubric := result.rubric_scores
    let total := rubric.conditions + rubric.modeling + rubric.logic
      + rubric.calculation + rubric.final
    let rubric :=
      if total > 0 then
        let scale := scoreCeiling / total
        { conditions := pyRound 2 (clampQ (rubric.conditions * scale) 0 2)
          modeling := pyRound 2 (clampQ (rubric.modeling * scale) 0 2)
          logic := pyRound 2 (clampQ (rubric.logic * scale) 0 2)
          calculation := pyRound 2 (clampQ (rubric.calculation * scale) 0 2)
          final := pyRound 2 (clampQ (rubric.final * scale) 0 2) }
      else
        let perBucket := min 2 (pyRound 2 (scoreCeiling / 5))
        { conditions := perBucket, modeling := perBucket, logic := perBucket
          calculation := perBucket, final := perBucket }
    { result with score_total := scoreCeiling, rubric_scores := rubric }

/-- Source _apply_reasoning_guardrails: the sequential composition of the
reconciliation stages (the verification report is built once from OCR by
an external collaborator and is a parameter here, as are the two settings
thresholds). -/
def applyReasoningGuardrails (uncertaintyThreshold consensusMinAgreement : ℚ)
    (result : GradingResult) (report : VerificationReport) (consensusMeta : ConsensusMeta) :
    GradingResult :=
  let r := injectVerificationFindings result report
  let r := enforceEvidenceGate r report
  let r := dedupeMistakesByStepRule r
  let r := applyVerifiedWrongFinalCap r report
  let r := applyUncertaintyPolicy uncertaintyThreshold consensusMinAgreement r report consensusMeta
  let r := applyAnswerVerdictPolicy r report
  let r := ensureMistakeCoverage r report
  reconcileScoreFromDeductions r

/-! Consensus merger: _merge_consensus_results and helpers. -/

/-- Python statistics.median on rationals: middle of the sorted values, or
the mean of the two middles for an even count. -/
def medianQ (values : List ℚ) : ℚ :=
  let sorted := stableSort (fun x y : ℚ => decide (x ≤ y)) values
  let n := sorted.length
  if n % 2 = 1 then sorted.getD (n / 2) 0
  else (sorted.getD (n / 2 - 1) 0 + sorted.getD (n / 2) 0) / 2

/-- Collapse of whitespace runs to single spaces: re.sub of a whitespace
run by one space (no stripping). -/
def collapseWsAux : Bool → List Char → List Char
  | _, [] => []
  | prevWs, c :: cs =>
    if pyIsSpace c then
      (if prevWs then collapseWsAux true cs else ' ' :: collapseWsAux true cs)
    else c :: collapseWsAux false cs

/-- Source _consensus_mistake_key. -/
def consensusMistakeKey (m : Mistake) : String × String :=
  let mtype := pyUpper (pyStrip (pyOrStr m.type mtLogicGap))
  let location := pyLower (pyCleanText m.location_hint "풀이 중간 구간" 80)
  (mtype, String.mk (collapseWsAux false location.data))

/-- Insertion-ordered bucket map update (Python dict.setdefault + append). -/
def bucketsAdd (buckets : List ((String × String) × List Mistake))
    (key : String × String) (m : Mistake) : List ((String × String) × List Mistake) :=
  if buckets.any (fun kv => kv.1 = key) then
    buckets.map (fun kv => if kv.1 = key then (kv.1, kv.2 ++ [m]) else kv)
  else buckets ++ [(key, [m])]

/-- Mistake buckets of the consensus merger, in first-insertion order. -/
def consensusBuckets (validatedRuns : List GradingResult) :
    List ((String × String) × List Mistake) :=
  validatedRuns.foldl
    (fun acc run => run.mistakes.foldl (fun acc m => bucketsAdd acc (consensusMistakeKey m) m) acc)
    []

/-- Representative pick inside one bucket: stable descending sort on
(points_deducted, severity rank), first element. -/
def bucketRepresentative (key : String × String) (bucket : List Mistake) : Option Mistake :=
  let sorted := stableSort (fun x y : Mistake =>
    !(decide (x.points_deducted < y.points_deducted)
      || (decide (x.points_deducted = y.points_deducted)
          && decide (severityRank (pyOrStr x.severity sevLow)
            < severityRank (pyOrStr y.severity sevLow))))) bucket
  sorted.head?.map (fun rep =>
    { rep with location_hint :=
        pyCleanText rep.location_hint (pyOrStr key.2 "풀이 중간 구간") 120 })

/-- Python min(items, key=f): the first element with minimal key. -/
def argminBy (f : α → ℚ) : List α → Option α
  | [] => none
  | x :: xs => some (xs.foldl (fun best y => if f y < f best then y else best) x)

/-- Ordered checklist vote counting (Python dict insertion order). -/
def votesAdd (votes : List (String × ℕ)) (text : String) : List (String × ℕ) :=
  if votes.any (fun kv => kv.1 = text) then
    votes.map (fun kv => if kv.1 = text then (kv.1, kv.2 + 1) else kv)
  else votes ++ [(text, 1)]

/-- Checklist votes across all runs. -/
def checklistVotes (validatedRuns : List GradingResult) : List (String × ℕ) :=
  validatedRuns.foldl
    (fun acc run => run.next_checklist.foldl
      (fun acc entry =>
        let text := pyCleanText entry "" 80
        if text.isEmpty then acc else votesAdd acc text)
      acc)
    []

/-- Ordered union of the cleaned missing_info entries across runs. -/
def missingUnion (validatedRuns : List GradingResult) : List String :=
  validatedRuns.foldl
    (fun acc run => run.missing_info.foldl
      (fun acc raw =>
        let text := pyCleanText raw "" 80
        if !text.isEmpty && !acc.contains text then acc ++ [text] else acc)
      acc)
    []

/-- Source _merge_consensus_results.  The empty-input case raises in
Python (statistics.median of an empty list) and is modelled as none; the
single caller guards against it. -/
def mergeConsensusResults (validatedRuns : List GradingResult) (runsRequested : ℕ) :
    Option (GradingResult × ConsensusMeta) :=
  match validatedRuns with
  | [] => none
  | [single] =>
    some (single, { runs_requested := runsRequested, runs_used := 1, agreement := 1, score_spread := 0 })
  | _ =>
    let n := validatedRuns.length
    let scores := validatedRuns.map (·.score_total)
    let scoreMedian := pyRound 2 (medianQ scores)
    let scoreSpread := (scores.foldl max (scores.headD 0)) - (scores.foldl min (scores.headD 0))
    let scoreAgreement := 1 - min 1 (scoreSpread / 3)
    let rubricVals := fun (f : RubricScores → ℚ) =>
      let vals := validatedRuns.map (fun run => f run.rubric_scores)
      pyRound 2 (clampQ (if vals.isEmpty then scoreMedian / 5 else medianQ vals) 0 2)
    let rubricMerged : RubricScores :=
      { conditions := rubricVals (·.conditions)
        modeling := rubricVals (·.modeling)
        logic := rubricVals (·.logic)
        calculation := rubricVals (·.calculation)
        final := rubricVals (·.final) }
    let buckets := consensusBuckets validatedRuns
    let voteThreshold := max 1 ((n + 1) / 2)
    let mergedMistakes := buckets.filterMap (fun kv =>
      if kv.2.length < voteThreshold then none else bucketRepresentative kv.1 kv.2)
    let mergedMistakes := stableSort (fun x y : Mistake =>
      !(decide (x.points_deducted < y.points_deducted)
        || (decide (x.points_deducted = y.points_deducted) && decide (x.type < y.type))))
      mergedMistakes
    let mistakeAgreement : ℚ :=
      if buckets.isEmpty then 1 else (mergedMistakes.length : ℚ) / (buckets.length : ℚ)
    let agreement := pyRound 2 (clampQ ((scoreAgreement + mistakeAgreement) / 2) 0 1)
    let chosen := (argminBy (fun run => |run.score_total - scoreMedian|) validatedRuns).getD
      { score_total := 0, rubric_scores := rubricMerged, mistakes := [],
        patch := { minimal_changes := [], patched_solution_brief := "" },
        next_checklist := [], confidence := 0, missing_info := [],
        answer_verdict := "", answer_verdict_reason := "" }
    let merged := { chosen with
      score_total := scoreMedian
      rubric_scores := rubricMerged
      mistakes := mergedMistakes.take 20 }
    let votes := checklistVotes validatedRuns
    let merged :=
      if votes.isEmpty then merged
      else
        let rankedVotes := stableSort (fun x y : String × ℕ =>
          !(decide (x.2 < y.2) || (decide (x.2 = y.2) && decide (y.1 < x.1)))) votes
        { merged with next_checklist := (rankedVotes.map (·.1)).take 3 }
    let avgConf := ((validatedRuns.map (·.confidence)).sum) / (n : ℚ)
    let merged := { merged with
      confidence := pyRound 2 (clampQ (avgConf - (1 - agreement) * 0.25) 0 1) }
    let missing := missingUnion validatedRuns
    let note := pyCleanText ("consensus_runs=" ++ toString n ++ "/" ++ toString runsRequested
      ++ ", agreement=" ++ formatFixed2 agreement) "" 80
    let missing := if !note.isEmpty && !missing.contains note then missing ++ [note] else missing
    let merged := { merged with missing_info := missing.take 6 }
    some (merged,
      { runs_requested := runsRequested
        runs_used := n
        agreement := agreement
        score_spread := pyRound 3 scoreSpread })

/-! Candidate normalizer (_validate_result and helpers): an untyped JSON
document model.  Json.num carries an exact rational; it models both Python
int and float (all numerals reachable from JSON text or str-to-float
coercion are decimal, hence exact). -/

/-- Untyped JSON-like Python value. -/
inductive Json where
  | null
  | bool (b : Bool)
  | num (q : ℚ)
  | str (s : String)
  | arr (items : List Json)
  | obj (entries : List (String × Json))

/-- Object entry list (Python dict with insertion order). -/
abbrev JObj := List (String × Json)

/-- Python dict .get. -/
def objGet (entries : JObj) (k : String) : Option Json :=
  (entries.find? (fun kv => kv.1 = k)).map (·.2)

/-- Python dict key-presence test. -/
def objHas (entries : JObj) (k : String) : Bool := entries.any (fun kv => kv.1 = k)

/-- Python dict assignment: replace in place or append. -/
def objSet (entries : JObj) (k : String) (v : Json) : JObj :=
  if objHas entries k then entries.map (fun kv => if kv.1 = k then (k, v) else kv)
  else entries ++ [(k, v)]

/-- Python dict iteration order of the distinct keys. -/
def objKeys (entries : JObj) : List String := (entries.map (·.1)).dedup

/-! Minimal JSON text parser for _parse_json_object (json.loads).  The
non-finite literals NaN/Infinity that Python json accepts are outside the
rational embedding and parse as failures here; no claim depends on them. -/

/-- Json character classification. -/
def isJsonWs (c : Char) : Bool := c = ' ' || c = '\t' || c = '\n' || c = '\r'

/-- Hex digit value. -/
def hexVal (c : Char) : Option ℕ :=
  let n := c.toNat
  if 48 ≤ n ∧ n ≤ 57 then some (n - 48)
  else if 97 ≤ n ∧ n ≤ 102 then some (n - 87)
  else if 65 ≤ n ∧ n ≤ 70 then some (n - 55)
  else none

/-- JSON string body after the opening quote. -/
def parseJsonStringBody : ℕ → List Char → Option (List Char × List Char)
  | 0, _ => none
  | _ + 1, [] => none
  | fuel + 1, c :: rest =>
    if c = '"' then some ([], rest)
    else if c = '\\' then
      match rest with
      | [] => none
      | e :: rest2 =>
        let esc : Option (Char × List Char) :=
          if e = '"' then some ('"', rest2)
          else if e = '\\' then some ('\\', rest2)
          else if e = '/' then some ('/', rest2)
          else if e = 'b' then some (Char.ofNat 8, rest2)
          else if e = 'f' then some (Char.ofNat 12, rest2)
          else if e = 'n' then some ('\n', rest2)
          else if e = 'r' then some ('\r', rest2)
          else if e = 't' then some ('\t', rest2)
          else if e = 'u' then
            match rest2 with
            | h1 :: h2 :: h3 :: h4 :: rest3 =>
              match hexVal h1, hexVal h2, hexVal h3, hexVal h4 with
              | some v1, some v2, some v3, some v4 =>
                some (Char.ofNat (((v1 * 16 + v2) * 16 + v3) * 16 + v4), rest3)
              | _, _, _, _ => none
            | _ => none
          else none
        match esc with
        | some (ch, rest3) => do
          let (s, rest4) ← parseJsonStringBody fuel rest3
          some (ch :: s, rest4)
        | none => none
    else do
      let (s, rest2) ← parseJsonStringBody fuel rest
      some (c :: s, rest2)

/-- JSON number: -?int frac? exp?, with the JSON no-leading-zero rule. -/
def parseJsonNumber (l : List Char) : Option (ℚ × List Char) :=
  let (sign, l1) : ℚ × List Char := if l.head? = some '-' then (-1, l.drop 1) else (1, l)
  let intPart := l1.takeWhile isDigitChar
  let l2 := l1.dropWhile isDigitChar
  if intPart.isEmpty then none
  else if intPart.head? = some '0' && intPart.length > 1 then none
  else
    let ip : ℚ := ((String.mk intPart).toNat?.getD 0 : ℕ)
    let (frac, l3) : ℚ × List Char :=
      match l2 with
      | '.' :: rest =>
        let fracPart := rest.takeWhile isDigitChar
        (((String.mk fracPart).toNat?.getD 0 : ℚ) / (10 : ℚ) ^ fracPart.length,
         rest.dropWhile isDigitChar)
      | _ => (0, l2)
    if (l2.head? = some '.') && (l2.drop 1).takeWhile isDigitChar = [] then none
    else
      match l3 with
      | 'e' :: rest | 'E' :: rest =>
        let (esign, rest2) : ℤ × List Char :=
          if rest.head? = some '-' then (-1, rest.drop 1)
          else if rest.head? = some '+' then (1, rest.drop 1)
          else (1, rest)
        let expPart := rest2.takeWhile isDigitChar
        if expPart.isEmpty then none
        else
          let e : ℤ := esign * ((String.mk expPart).toNat?.getD 0 : ℕ)
          some (sign * (ip + frac) * (10 : ℚ) ^ e, rest2.dropWhile isDigitChar)
      | _ => some (sign * (ip + frac), l3)

mutual

/-- JSON value parser (fuel-indexed recursive descent; the entry point
supplies more fuel than the input length can consume). -/
def parseJsonValue : ℕ → List Char → Option (Json × List Char)
  | 0, _ => none
  | fuel + 1, l =>
    let l := l.dropWhile isJsonWs
    match l with
    | '{' :: rest => parseJsonMembers fuel (rest.dropWhile isJsonWs) []
    | '[' :: rest => parseJsonItems fuel (rest.dropWhile isJsonWs) []
    | '"' :: rest => do
      let (s, rest2) ← parseJsonStringBody (fuel + 1) rest
      some (Json.str (String.mk s), rest2)
    | 't' :: 'r' :: 'u' :: 'e' :: rest => some (Json.bool true, rest)
    | 'f' :: 'a' :: 'l' :: 's' :: 'e' :: rest => some (Json.bool false, rest)
    | 'n' :: 'u' :: 'l' :: 'l' :: rest => some (Json.null, rest)
    | _ => do
      let (q, rest) ← parseJsonNumber l
      some (Json.num q, rest)

/-- JSON object members after the opening brace (duplicate keys follow the
Python json semantics: the last one wins). -/
def parseJsonMembers : ℕ → List Char → JObj → Option (Json × List Char)
  | 0, _, _ => none
  | _ + 1, [], _ => none
  | fuel + 1, c :: rest, acc =>
    if c = '}' && acc.isEmpty then some (Json.obj [], rest)
    else do
      let (k, rest2) ←
        (if c = '"' then parseJsonStringBody (fuel + 1) rest else none)
      let rest3 := rest2.dropWhile isJsonWs
      match rest3 with
      | ':' :: rest4 => do
        let (v, rest5) ← parseJsonValue fuel rest4
        let acc2 := objSet acc (String.mk k) v
        let rest6 := rest5.dropWhile isJsonWs
        match rest6 with
        | ',' :: rest7 => parseJsonMembers fuel (rest7.dropWhile isJsonWs) acc2
        | '}' :: rest7 => some (Json.obj acc2, rest7)
        | _ => none
      | _ => none

/-- JSON array items after the opening bracket. -/
def parseJsonItems : ℕ → List Char → List Json → Option (Json × List Char)
  | 0, _, _ => none
  | _ + 1, [], _ => none
  | fuel + 1, c :: rest, acc =>
    if c = ']' && acc.isEmpty then some (Json.arr [], rest)
    else do
      let (v, rest2) ← parseJsonValue fuel (c :: rest)
      let rest3 := rest2.dropWhile isJsonWs
      match rest3 with
      | ',' :: rest4 => parseJsonItems fuel (rest4.dropWhile isJsonWs) (acc ++ [v])
      | ']' :: rest4 => some (Json.arr (acc ++ [v]), rest4)
      | _ => none

end

/-- json.loads of a whole document: one value plus trailing whitespace. -/
def jsonLoads (text : String) : Option Json := do
  let (v, rest) ← parseJsonValue (4 * text.length + 8) text.data
  if (rest.dropWhile isJsonWs).isEmpty then some v else none

/-- Source _parse_json_object: strict parse first, then the widest brace
snippet. -/
def parseJsonObject (raw : String) : Option JObj :=
  let text := pyStrip raw
  if text.isEmpty then none
  else
    match jsonLoads text with
    | some (Json.obj o) => some o
    | _ =>
      let chars := text.data
      let startIdx := chars.findIdx? (fun c => c = '{')
      let endIdx := (chars.reverse.findIdx? (fun c => c = '}')).map (fun i => chars.length - 1 - i)
      match startIdx, endIdx with
      | some s, some e =>
        if s < e then
          match jsonLoads (String.mk ((chars.drop s).take (e - s + 1))) with
          | some (Json.obj o) => some o
          | _ => none
        else none
      | _, _ => none

/-- Source _coerce_json_object. -/
def coerceJsonObject (value : Json) : Option JObj :=
  match value with
  | Json.obj o => some o
  | Json.str s => parseJsonObject s
  | _ => none

/-- Python float(s) on a stripped string: sign, digits with optional
fractional part (or a bare fractional part), optional exponent.  The
non-finite spellings inf/nan are outside the rational embedding. -/
def pyFloatOfString (raw : String) : Option ℚ :=
  let l := (pyStrip raw).data
  let (sign, l1) : ℚ × List Char :=
    if l.head? = some '-' then (-1, l.drop 1)
    else if l.head? = some '+' then (1, l.drop 1)
    else (1, l)
  let intPart := l1.takeWhile isDigitChar
  let l2 := l1.dropWhile isDigitChar
  let (fracPart, l3) : List Char × List Char :=
    match l2 with
    | '.' :: rest => (rest.takeWhile isDigitChar, rest.dropWhile isDigitChar)
    | _ => ([], l2)
  if intPart.isEmpty && fracPart.isEmpty then none
  else
    let base : ℚ := ((String.mk intPart).toNat?.getD 0 : ℕ)
      + ((String.mk fracPart).toNat?.getD 0 : ℚ) / (10 : ℚ) ^ fracPart.length
    match l3 with
    | 'e' :: rest | 'E' :: rest =>
      let (esign, rest2) : ℤ × List Char :=
        if rest.head? = some '-' then (-1, rest.drop 1)
        else if rest.head? = some '+' then (1, rest.drop 1)
        else (1, rest)
      let expPart := rest2.takeWhile isDigitChar
      if expPart.isEmpty || !(rest2.dropWhile isDigitChar).isEmpty then none
      else some (sign * base * (10 : ℚ) ^ ((esign * ((String.mk expPart).toNat?.getD 0 : ℕ)) : ℤ))
    | [] => some (sign * base)
    | _ => none

/-- Source _to_float on an untyped value: numbers pass (bool excluded),
numeric strings are parsed, everything else is None. -/
def toFloatJson (value : Json) : Option ℚ :=
  match value with
  | Json.num q => some q
  | Json.str s => pyFloatOfString s
  | _ => none

/-- Source _to_float applied to a dict read that may be missing. -/
def toFloatOpt (value : Option Json) : Option ℚ :=
  match value with
  | some v => toFloatJson v
  | none => none

/-- Python str() of an untyped value, used only for enum-membership tests
(the exact numeral spelling never matches an enum value, so the int/float
repr distinction is immaterial). -/
def jsonAsStr (value : Json) : String :=
  match value with
  | Json.str s => s
  | Json.bool true => "True"
  | Json.bool false => "False"
  | Json.null => "None"
  | Json.num q => toString q.num ++ (if q.den = 1 then "" else "/" ++ toString q.den)
  | Json.arr _ => "[...]"
  | Json.obj _ => "{...}"

/-- Python falsiness of an untyped value. -/
def jsonFalsy (value : Json) : Bool :=
  match value with
  | Json.null => true
  | Json.bool b => !b
  | Json.num q => q = 0
  | Json.str s => s.isEmpty
  | Json.arr items => items.isEmpty
  | Json.obj entries => entries.isEmpty

/-- Python "value or default" over an optional untyped read. -/
def jsonOr (value : Option Json) (default : Json) : Json :=
  match value with
  | some v => if jsonFalsy v then default else v
  | none => default

/-- Source _clean_text on an untyped read (non-strings take the default). -/
def cleanTextJson (value : Option Json) (default : String) (maxLen : ℕ) : String :=
  match value with
  | some (Json.str s) => pyCleanText s default maxLen
  | _ => String.mk (default.data.take maxLen)

/-- Source _looks_like_result_payload. -/
def looksLikeResultPayload (payload : JObj) : Bool :=
  objHas payload "score_total"
    || (objHas payload "rubric_scores" && objHas payload "mistakes" && objHas payload "patch")

/-- Signature key set of _looks_like_partial_payload (source name ends in
a word this file avoids in identifiers). -/
def candidateSignatureKeys : List String :=
  ["score_total", "total_score", "score", "final_score", "overall_score", "scoreTotal",
   "rubric_scores", "rubric", "rubric_score", "rubricScores", "mistakes", "patch",
   "next_checklist", "confidence", "answer_verdict", "verdict", "is_correct"]

/-- Source _looks_like_partial_payload: at least two signature keys. -/
def looksLikePartResultPayload (payload : JObj) : Bool :=
  ((objKeys payload).filter (fun k => candidateSignatureKeys.contains k)).length ≥ 2

/-- Per-key attempt of the preferred-wrapper search in
_unwrap_result_container. -/
def unwrapTryKey (data : JObj) (key : String) : Option JObj :=
  match objGet data key with
  | none => none
  | some v =>
    match coerceJsonObject v with
    | none => none
    | some nested =>
      if looksLikeResultPayload nested || looksLikePartResultPayload nested then some nested
      else
        nested.findSome? (fun kv =>
          match coerceJsonObject kv.2 with
          | some childObj => if looksLikeResultPayload childObj then some childObj else none
          | none =>
            match kv.2 with
            | Json.arr items =>
              items.findSome? (fun item =>
                match coerceJsonObject item with
                | some itemObj => if looksLikeResultPayload itemObj then some itemObj else none
                | none => none)
            | _ => none)

/-- Source _unwrap_result_container. -/
def unwrapResultContainer (data : JObj) : JObj :=
  if looksLikeResultPayload data then data
  else
    let preferredKeys := ["analysis_result", "result", "output", "data", "json", "response"]
    match preferredKeys.findSome? (unwrapTryKey data) with
    | some nested => nested
    | none =>
      match data.findSome? (fun kv =>
        match coerceJsonObject kv.2 with
        | some valueObj => if looksLikeResultPayload valueObj then some valueObj else none
        | none => none) with
      | some valueObj => valueObj
      | none => data

/-- Alias application for one target with its alias list (first present
alias wins; the alias key itself is kept and pruned later). -/
def applyAlias (payload : JObj) (target : String) (aliases : List String) : JObj :=
  if objHas payload target then payload
  else
    match aliases.findSome? (fun alias0 =>
      match objGet payload alias0 with
      | some v => some v
      | none => none) with
    | some v => objSet payload target v
    | none => payload

/-- Source _apply_aliases. -/
def applyAliases (payload : JObj) : JObj :=
  let payload := applyAlias payload "score_total"
    ["total_score", "score", "final_score", "overall_score", "scoreTotal"]
  let payload := applyAlias payload "rubric_scores" ["rubric", "rubric_score", "rubricScores"]
  let payload := applyAlias payload "next_checklist"
    ["checklist", "next_steps", "nextChecklist", "review_checklist"]
  let payload := applyAlias payload "answer_verdict"
    ["verdict", "is_correct", "correctness", "answerVerdict"]
  let payload := applyAlias payload "answer_verdict_reason"
    ["verdict_reason", "correctness_reason", "answerVerdictReason"]
  match objGet payload "rubric_scores" with
  | some (Json.obj rubric) =>
    let rubric := applyAlias rubric "conditions" ["condition"]
    let rubric := applyAlias rubric "modeling" ["model"]
    let rubric := applyAlias rubric "calculation" ["cal"]
    objSet payload "rubric_scores" (Json.obj rubric)
  | _ => payload

/-- Source _normalize_numeric_fields. -/
def normalizeNumericFields (payload : JObj) : JObj :=
  let payload :=
    match toFloatOpt (objGet payload "score_total") with
    | some q => objSet payload "score_total" (Json.num q)
    | none => payload
  let payload :=
    match objGet payload "rubric_scores" with
    | some (Json.obj rubric) =>
      let rubric := ["conditions", "modeling", "logic", "calculation", "final"].foldl
        (fun acc key =>
          match toFloatOpt (objGet acc key) with
          | some q => objSet acc key (Json.num q)
          | none => acc)
        rubric
      objSet payload "rubric_scores" (Json.obj rubric)
    | _ => payload
  match objGet payload "mistakes" with
  | some (Json.arr items) =>
    objSet payload "mistakes" (Json.arr (items.map (fun item =>
      match item with
      | Json.obj entries =>
        match toFloatOpt (objGet entries "points_deducted") with
        | some q => Json.obj (objSet entries "points_deducted" (Json.num q))
        | none => item
      | _ => item)))
  | _ => payload

/-- Key filter helper for _prune_to_schema_shape. -/
def pruneKeys (entries : JObj) (allowed : List String) : JObj :=
  entries.filter (fun kv => allowed.contains kv.1)

/-- Source _prune_to_schema_shape. -/
def pruneToSchemaShape (payload : JObj) : JObj :=
  let allowedTop := ["score_total", "rubric_scores", "mistakes", "patch", "next_checklist",
    "confidence", "missing_info", "answer_verdict", "answer_verdict_reason"]
  let payload := pruneKeys payload allowedTop
  let payload :=
    match objGet payload "rubric_scores" with
    | some (Json.obj rubric) =>
      objSet payload "rubric_scores"
        (Json.obj (pruneKeys rubric ["conditions", "modeling", "logic", "calculation", "final"]))
    | _ => payload
  let payload :=
    match objGet payload "mistakes" with
    | some (Json.arr items) =>
      let allowedMistake := ["type", "severity", "points_deducted", "evidence",
        "fix_instruction", "location_hint", "highlight"]
      let allowedHighlight := ["mode", "shape", "x", "y", "w", "h"]
      objSet payload "mistakes" (Json.arr (items.map (fun item =>
        match item with
        | Json.obj entries =>
          let entries := pruneKeys entries allowedMistake
          match objGet entries "highlight" with
          | some (Json.obj highlight) =>
            Json.obj (objSet entries "highlight" (Json.obj (pruneKeys highlight allowedHighlight)))
          | _ => Json.obj entries
        | _ => item)))
    | _ => payload
  match objGet payload "patch" with
  | some (Json.obj patch) =>
    let patch := pruneKeys patch ["minimal_changes", "patched_solution_brief"]
    let patch :=
      match objGet patch "minimal_changes" with
      | some (Json.arr changes) =>
        objSet patch "minimal_changes" (Json.arr (changes.map (fun item =>
          match item with
          | Json.obj entries => Json.obj (pruneKeys entries ["change", "rationale"])
          | _ => item)))
      | _ => patch
    objSet payload "patch" (Json.obj patch)
  | _ => payload

/-- Source _normalize_points_by_severity. -/
def normalizePointsBySeverity (points : ℚ) (severity : String) : ℚ :=
  if severity = sevHigh then max points 1.0
  else if severity = sevMed then max points 0.4
  else min points 0.8

/-- Source _normalize_highlight_value. -/
def normalizeHighlightValue (key : String) (value : ℚ) : ℚ :=
  if key = "x" || key = "y" then pyRound 4 (clampQ value 0 1)
  else pyRound 4 (clampQ value 0.02 1)

/-- Source _normalize_evidence. -/
def normalizeEvidence (text mistakeType : String) : String :=
  let normalized := pyStrip text
  let genericPhrases := ["근거가 부족해 보완 설명이 필요합니다.", "근거 부족", "검토 필요"]
  if !normalized.isEmpty && !genericPhrases.contains normalized && normalized.length ≥ 10 then
    normalized
  else if mistakeType = mtFinalFormError then "최종 답이 문제 조건 또는 식 검산 결과와 일치하지 않습니다."
  else if mistakeType = mtSignError then "이항/전개 단계에서 부호 처리 불일치가 보입니다."
  else if mistakeType = mtUnitError then "중간 계산과 최종 답의 단위 표기가 일관되지 않습니다."
  else if mistakeType = mtAlgebraError then "식 전개 또는 약분 과정의 계산 일관성이 부족합니다."
  else "감점 근거가 명확하지 않아 보수적으로 해석했습니다."

/-- Source _normalize_fix_instruction. -/
def normalizeFixInstruction (text mistakeType : String) : String :=
  let normalized := pyStrip text
  if normalized.length ≥ 12
      && !(["핵심 감점 구간을 한 줄씩 다시 전개해 수정하세요.", "수정 필요", "다시 풀기"].contains normalized) then
    normalized
  else if mistakeType = mtSignError then "이항과 전개 단계의 부호를 한 줄씩 다시 대조하세요."
  else if mistakeType = mtUnitError then "최종 줄과 중간 계산의 단위를 동일 기준으로 정리하세요."
  else if mistakeType = mtConditionMissed then "문제 조건을 식 옆에 적고 누락 없이 반영하세요."
  else if mistakeType = mtAlgebraError then "식 전개와 약분을 단계별로 나눠 재계산하세요."
  else if mistakeType = mtFinalFormError then "최종 답을 원식에 다시 대입해 성립 여부를 확인하세요."
  else if mistakeType = mtLogicGap then "단계 간 연결 근거를 한 줄씩 보강하고 점프를 줄이세요."
  else "핵심 감점 구간을 한 줄씩 다시 전개해 수정하세요."

/-- Source _normalize_location_hint. -/
def normalizeLocationHint (text mistakeType : String) : String :=
  let normalized := pyStrip text
  if !normalized.isEmpty && !(["풀이 중간 구간", "해당 부분"].contains normalized) then normalized
  else if mistakeType = mtFinalFormError then "최종 답 줄"
  else if mistakeType = mtUnitError then "단위 표기 줄"
  else if mistakeType = mtSignError then "이항/부호 처리 줄"
  else if mistakeType = mtConditionMissed then "초기 조건 정리 줄"
  else "풀이 중간 구간"

/-- MISTAKE_TYPES of schemas.py (the MistakeType enum values). -/
def mistakeTypeValues : List String :=
  [mtConditionMissed, mtSignError, mtUnitError, mtDefinitionConfusion, mtAlgebraError,
   mtLogicGap, mtCaseMiss, mtGraphMisread, mtArithmeticError, mtFinalFormError]

/-- Source _normalize_mistake, on an untyped mistake entry. -/
def normalizeMistakeJson (item : JObj) : JObj :=
  let mistakeType := pyUpper (pyStrip (jsonAsStr (jsonOr (objGet item "type") (Json.str mtLogicGap))))
  let mistakeType := if mistakeTypeValues.contains mistakeType then mistakeType else mtLogicGap
  let severity := pyLower (pyStrip (jsonAsStr (jsonOr (objGet item "severity") (Json.str sevMed))))
  let severity := if [sevLow, sevMed, sevHigh].contains severity then severity else sevMed
  let points := (toFloatOpt (objGet item "points_deducted")).getD 0.5
  let points := pyRound 2 (clampQ (normalizePointsBySeverity points severity) 0 2)
  let highlight := match objGet item "highlight" with | some (Json.obj h) => h | _ => []
  let mode := pyStrip (jsonAsStr (jsonOr (objGet highlight "mode") (Json.str "tap")))
  let mode := if ["tap", "ocr_box", "region_box"].contains mode then mode else "tap"
  let shape := pyStrip (jsonAsStr (jsonOr (objGet highlight "shape") (Json.str "circle")))
  let shape := if ["circle", "box"].contains shape then shape else "circle"
  let normalizedHighlight : JObj := [("mode", Json.str mode), ("shape", Json.str shape)]
  let normalizedHighlight := ["x", "y", "w", "h"].foldl
    (fun acc key =>
      match toFloatOpt (objGet highlight key) with
      | some v => objSet acc key (Json.num (normalizeHighlightValue key v))
      | none => acc)
    normalizedHighlight
  let normalizedHighlight :=
    if (mode = "ocr_box" || mode = "region_box")
        && !(["x", "y", "w", "h"].all (fun k => objHas normalizedHighlight k)) then
      [("mode", Json.str "tap"), ("shape", Json.str shape)]
    else normalizedHighlight
  [("type", Json.str mistakeType),
   ("severity", Json.str severity),
   ("points_deducted", Json.num points),
   ("evidence", Json.str (normalizeEvidence
     (cleanTextJson (objGet item "evidence") "근거가 부족해 보완 설명이 필요합니다." 240) mistakeType)),
   ("fix_instruction", Json.str (normalizeFixInstruction
     (cleanTextJson (objGet item "fix_instruction") "핵심 감점 구간을 한 줄씩 다시 전개해 수정하세요." 240)
     mistakeType)),
   ("location_hint", Json.str (normalizeLocationHint
     (cleanTextJson (objGet item "location_hint") "풀이 중간 구간" 120) mistakeType)),
   ("highlight", Json.obj normalizedHighlight)]

/-- Digit-run collapse of _signature_text (re.sub of digit runs by one
hash mark). -/
def collapseDigitsAux : Bool → List Char → List Char
  | _, [] => []
  | prevDigit, c :: cs =>
    if isDigitChar c then
      (if prevDigit then collapseDigitsAux true cs else '#' :: collapseDigitsAux true cs)
    else c :: collapseDigitsAux false cs

/-- Source _signature_text. -/
def signatureText (value : Option Json) : String :=
  String.mk (collapseDigitsAux false (pyLower (cleanTextJson value "" 120)).data)

/-- Dedup key of _deduplicate_mistakes. -/
def dedupSignatureKey (m : JObj) : String :=
  jsonAsStr (jsonOr (objGet m "type") (Json.str ""))
    ++ "|" ++ signatureText (objGet m "location_hint")
    ++ "|" ++ signatureText (objGet m "fix_instruction")

/-- Source _deduplicate_mistakes: first occurrence keeps its position, a
later duplicate with strictly more points replaces it there. -/
def deduplicateMistakesGo : List JObj → List JObj → List (String × ℕ) → List JObj
  | [], acc, _ => acc
  | m :: rest, acc, index =>
    let key := dedupSignatureKey m
    match index.lookup key with
    | none => deduplicateMistakesGo rest (acc ++ [m]) (index ++ [(key, acc.length)])
    | some idx =>
      let existing := acc.getD idx []
      let existingPoints := (toFloatOpt (objGet existing "points_deducted")).getD 0
      let newPoints := (toFloatOpt (objGet m "points_deducted")).getD 0
      deduplicateMistakesGo rest (if existingPoints < newPoints then acc.set idx m else acc) index

/-- Source _deduplicate_mistakes. -/
def deduplicateMistakesJson (mistakes : List JObj) : List JObj :=
  (deduplicateMistakesGo mistakes [] []).take 20

/-- Source _sort_mistakes. -/
def sortMistakesJson (mistakes : List JObj) : List JObj :=
  (stableSort (fun x y : JObj =>
    let kx := (severityRank (jsonAsStr (jsonOr (objGet x "severity") (Json.str sevMed))),
      (toFloatOpt (objGet x "points_deducted")).getD 0)
    let ky := (severityRank (jsonAsStr (jsonOr (objGet y "severity") (Json.str sevMed))),
      (toFloatOpt (objGet y "points_deducted")).getD 0)
    !(decide (kx.1 < ky.1) || (decide (kx.1 = ky.1) && decide (kx.2 < ky.2)))) mistakes).take 20

/-- Source _build_checklist_from_mistakes. -/
def buildChecklistFromMistakesJson (mistakes : List JObj) : List String :=
  let ranked := stableSort (fun x y : JObj =>
    let kx := (severityRank (jsonAsStr (jsonOr (objGet x "severity") (Json.str "med"))),
      (toFloatOpt (objGet x "points_deducted")).getD 0)
    let ky := (severityRank (jsonAsStr (jsonOr (objGet y "severity") (Json.str "med"))),
      (toFloatOpt (objGet y "points_deducted")).getD 0)
    !(decide (kx.1 < ky.1) || (decide (kx.1 = ky.1) && decide (kx.2 < ky.2)))) mistakes
  let checklist := ranked.foldl
    (fun acc item =>
      if acc.length ≥ 3 then acc
      else
        let instruction := cleanTextJson (objGet item "fix_instruction") "" 80
        if !instruction.isEmpty && !acc.contains instruction then acc ++ [instruction] else acc)
    []
  let checklist :=
    if checklist.isEmpty && !mistakes.isEmpty then
      let fallback := cleanTextJson (objGet (mistakes.headD []) "fix_instruction") "최종 답 검산 수행" 80
      if !fallback.isEmpty then [fallback] else []
    else checklist
  checklist.take 3

/-- Source _calibrate_confidence. -/
def calibrateConfidence (baseConfidence : ℚ) (mistakes : List JObj) (scoreTotal : ℚ)
    (missingInfo : Option Json) : ℚ :=
  let confidence := clampQ baseConfidence 0 1
  let missingCount :=
    match missingInfo with
    | some (Json.arr items) =>
      (items.filter (fun item => !(cleanTextJson (some item) "" 80).isEmpty)).length
    | _ => 0
  let confidence := confidence - min 0.32 ((missingCount : ℚ) * 0.08)
  let confidence := if mistakes.isEmpty && scoreTotal < 9 then confidence - 0.1 else confidence
  let penalty := (mistakes.map (fun item =>
    match objGet item "highlight" with
    | some (Json.obj highlight) =>
      let mode := jsonAsStr (jsonOr (objGet highlight "mode") (Json.str "tap"))
      if (mode = "ocr_box" || mode = "region_box")
          && !(["x", "y", "w", "h"].all (fun key =>
            match objGet highlight key with
            | some Json.null => false
            | some _ => true
            | none => false)) then (0.06 : ℚ)
      else 0
    | _ => 0)).sum
  let confidence := confidence - min 0.18 penalty
  pyRound 2 (clampQ confidence 0 1)

/-- Source _infer_score_total. -/
def inferScoreTotal (payload : JObj) : Option ℚ :=
  let fromRubric : Option ℚ :=
    match objGet payload "rubric_scores" with
    | some (Json.obj rubric) =>
      let vals := ["conditions", "modeling", "logic", "calculation", "final"].map
        (fun key => toFloatOpt (objGet rubric key))
      if vals.all (·.isSome) then
        some (pyRound 2 (max 0 (min 10 ((vals.map (fun v => v.getD 0)).sum))))
      else none
    | _ => none
  match fromRubric with
  | some s => some s
  | none =>
    match objGet payload "mistakes" with
    | some (Json.arr items) =>
      let deduction := (items.map (fun item =>
        match item with
        | Json.obj e => (toFloatOpt (objGet e "points_deducted")).getD 0
        | _ => 0)).sum
      some (pyRound 2 (max 0 (min 10 (10 - deduction))))
    | _ => none

/-- Source _normalize_answer_verdict on an untyped read (bools map to
correct/incorrect, falsy values to the empty text, then the alias map). -/
def normalizeAnswerVerdictJson (value : Option Json) : String :=
  match value with
  | some (Json.bool b) => if b then avCorrect else avIncorrect
  | v => normalizeAnswerVerdict (jsonAsStr (jsonOr v (Json.str "")))

/-- Source _harmonize_score_with_deductions. -/
def harmonizeScoreWithDeductions (payload : JObj) : JObj :=
  match objGet payload "mistakes" with
  | some (Json.arr items) =>
    let deductionSum := (items.map (fun item =>
      match item with
      | Json.obj e => (toFloatOpt (objGet e "points_deducted")).getD 0
      | _ => 0)).sum
    let deductionScore := pyRound 2 (clampQ (10 - deductionSum) 0 10)
    match toFloatOpt (objGet payload "score_total") with
    | none => objSet payload "score_total" (Json.num deductionScore)
    | some scoreTotal =>
      if |scoreTotal - deductionScore| > 3 then
        objSet payload "score_total" (Json.num (pyRound 2 ((scoreTotal + deductionScore) / 2)))
      else payload
  | _ => payload

/-- Source _reconcile_rubric_with_score. -/
def reconcileRubricWithScore (payload : JObj) : JObj :=
  match objGet payload "rubric_scores" with
  | some (Json.obj rubric) =>
    let keys := ["conditions", "modeling", "logic", "calculation", "final"]
    let vals := keys.map (fun key => toFloatOpt (objGet rubric key))
    if !(vals.all (·.isSome)) then payload
    else
      match toFloatOpt (objGet payload "score_total") with
      | none => payload
      | some scoreTotal =>
        let rubricSum := (vals.map (fun v => v.getD 0)).sum
        let delta := scoreTotal - rubricSum
        if |delta| ≤ 0.25 then payload
        else
          let step := pyRound 3 (delta / 5)
          let adjusted := keys.map (fun key =>
            (key, Json.num (pyRound 2 (clampQ ((toFloatOpt (objGet rubric key)).getD 0 + step) 0 2))))
          let adjustedSum := (adjusted.map (fun kv =>
            match kv.2 with | Json.num q => q | _ => 0)).sum
          let payload :=
            if |adjustedSum - scoreTotal| > 0.4 then
              objSet payload "score_total" (Json.num (pyRound 2 ((scoreTotal + adjustedSum) / 2)))
            else payload
          objSet payload "rubric_scores" (Json.obj adjusted)
  | _ => payload

/-- Source _inject_uncertainty_hint. -/
def injectUncertaintyHint (payload : JObj) : JObj :=
  match toFloatOpt (objGet payload "confidence") with
  | none => payload
  | some confidence =>
    if confidence ≥ 0.45 then payload
    else
      let missing := match objGet payload "missing_info" with
        | some (Json.arr items) => items
        | _ => []
      let hint := Json.str "필기 가독성이 낮아 일부 단계 판단은 보수적으로 처리했습니다."
      let missing :=
        if missing.any (fun item =>
          match item with
          | Json.str s => s = "필기 가독성이 낮아 일부 단계 판단은 보수적으로 처리했습니다."
          | _ => false) then missing
        else missing ++ [hint]
      objSet payload "missing_info" (Json.arr (missing.take 6))

/-- Source _ensure_required_defaults. -/
def ensureRequiredDefaults (payload : JObj) : JObj :=
  let score :=
    match toFloatOpt (objGet payload "score_total") with
    | some s => s
    | none => (inferScoreTotal payload).getD 0
  let scoreVal := clampQ score 0 10
  let payload := objSet payload "score_total" (Json.num scoreVal)
  let rubric := match objGet payload "rubric_scores" with | some (Json.obj r) => r | _ => []
  let perBucket := pyRound 2 (scoreVal / 5)
  let payload := objSet payload "rubric_scores" (Json.obj
    (["conditions", "modeling", "logic", "calculation", "final"].map (fun key =>
      (key, Json.num (pyRound 2 (clampQ ((toFloatOpt (objGet rubric key)).getD perBucket) 0 2))))))
  let rawMistakes := match objGet payload "mistakes" with | some (Json.arr items) => items | _ => []
  let normalizedMistakes := (rawMistakes.take 20).filterMap (fun item =>
    match item with
    | Json.obj e => some (normalizeMistakeJson e)
    | _ => none)
  let normalizedMistakes := sortMistakesJson (deduplicateMistakesJson normalizedMistakes)
  let payload := objSet payload "mistakes" (Json.arr (normalizedMistakes.map Json.obj))
  let patch := match objGet payload "patch" with | some (Json.obj p) => p | _ => []
  let normalizedChanges : List (String × String) :=
    match objGet patch "minimal_changes" with
    | some (Json.arr changes) =>
      (changes.take 6).filterMap (fun raw =>
        match raw with
        | Json.obj e =>
          let change := cleanTextJson (objGet e "change") "" 220
          if change.isEmpty then none
          else
            let rationale := cleanTextJson (objGet e "rationale") "" 160
            some (change,
              if rationale.isEmpty then "정답 형태를 유지하면서 감점 원인만 최소 수정합니다." else rationale)
        | _ => none)
    | _ => []
  let normalizedChanges :=
    if normalizedChanges.isEmpty then
      let seed :=
        match normalizedMistakes.head? with
        | some m =>
          (match objGet m "fix_instruction" with | some (Json.str s) => s | _ => "")
        | none => "최종 답을 식에 대입해 검산하고 단위/부호를 점검하세요."
      [(pyCleanText seed "중간 계산/기호를 다시 검토해 감점 포인트를 수정합니다." 220,
        "핵심 오류를 먼저 보정하면 전체 점수 회복 효과가 큽니다.")]
    else normalizedChanges
  let brief := cleanTextJson (objGet patch "patched_solution_brief")
    "핵심 감점 포인트를 최소 수정해 기존 풀이 흐름을 유지합니다." 600
  let payload := objSet payload "patch" (Json.obj
    [("minimal_changes", Json.arr (normalizedChanges.map (fun c =>
       Json.obj [("change", Json.str c.1), ("rationale", Json.str c.2)]))),
     ("patched_solution_brief", Json.str brief)])
  let checklistItems : List String :=
    match objGet payload "next_checklist" with
    | some (Json.arr entries) =>
      entries.foldl (fun acc raw =>
        if acc.length ≥ 3 then acc
        else
          let text := cleanTextJson (some raw) "" 80
          if !text.isEmpty && !acc.contains text then acc ++ [text] else acc) []
    | _ => []
  let checklistItems :=
    if checklistItems.isEmpty then
      let fromMistakes := buildChecklistFromMistakesJson normalizedMistakes
      if fromMistakes.length < 3 then
        ["최종 줄의 단위/기호/부호를 다시 확인하세요.", "조건 누락 여부를 체크한 뒤 답을 마무리하세요."].foldl
          (fun acc item =>
            if acc.length ≥ 3 then acc
            else
              let text := pyCleanText item "" 80
              if !text.isEmpty && !acc.contains text then acc ++ [text] else acc)
          fromMistakes
      else fromMistakes
    else checklistItems
  let payload := objSet payload "next_checklist" (Json.arr
    ((if checklistItems.isEmpty then ["핵심 계산 단계를 다시 확인하세요."]
      else checklistItems.take 3).map Json.str))
  let confidence := (toFloatOpt (objGet payload "confidence")).getD 0.62
  let payload := objSet payload "confidence" (Json.num
    (calibrateConfidence confidence normalizedMistakes scoreVal (objGet payload "missing_info")))
  let verdict := normalizeAnswerVerdictJson (objGet payload "answer_verdict")
  let payload := objSet payload "answer_verdict" (Json.str verdict)
  let payload := objSet payload "answer_verdict_reason" (Json.str
    (cleanTextJson (objGet payload "answer_verdict_reason") "정오 판단 정보가 부족합니다." 120))
  let missing : List String :=
    match objGet payload "missing_info" with
    | some (Json.arr items) =>
      (items.take 6).filterMap (fun raw =>
        let text := cleanTextJson (some raw) "" 80
        if text.isEmpty then none else some text)
    | _ => []
  let payload := objSet payload "missing_info" (Json.arr (missing.map Json.str))
  injectUncertaintyHint (reconcileRubricWithScore (harmonizeScoreWithDeductions payload))

/-- Source _normalize_result_candidate. -/
def normalizeResultCandidate (data : JObj) : JObj :=
  ensureRequiredDefaults
    (pruneToSchemaShape (normalizeNumericFields (applyAliases (unwrapResultContainer data))))

/-! Validation passes of _validate_result: the jsonschema check against
ANALYSIS_RESULT_JSON_SCHEMA (schemas.py) and the strict pydantic pass
against AnalysisResult (models.py). -/

/-- Schema "type": "number" with minimum/maximum (jsonschema rejects
booleans for number). -/
def schemaNumber (v : Json) (lo hi : ℚ) : Bool :=
  match v with
  | Json.num q => decide (lo ≤ q) && decide (q ≤ hi)
  | _ => false

/-- Schema "type": "string" with maxLength. -/
def schemaStr (v : Json) (maxLen : ℕ) : Bool :=
  match v with
  | Json.str s => s.length ≤ maxLen
  | _ => false

/-- Schema "type": ["number", "null"]. -/
def schemaNumberOrNull (v : Json) : Bool :=
  match v with
  | Json.num _ => true
  | Json.null => true
  | _ => false

/-- Object check: required keys, additionalProperties false, and a
per-property predicate. -/
def schemaObj (v : Json) (required : List String) (allowed : List String)
    (check : String → Json → Bool) : Bool :=
  match v with
  | Json.obj entries =>
    required.all (fun k => objHas entries k)
      && entries.all (fun kv => allowed.contains kv.1)
      && entries.all (fun kv => check kv.1 kv.2)
  | _ => false

/-- The rubric_scores sub-schema. -/
def schemaRubric (v : Json) : Bool :=
  let keys := ["conditions", "modeling", "logic", "calculation", "final"]
  schemaObj v keys keys (fun _ value => schemaNumber value 0 2)

/-- The highlight sub-schema. -/
def schemaHighlight (v : Json) : Bool :=
  schemaObj v ["mode", "shape", "x", "y", "w", "h"] ["mode", "shape", "x", "y", "w", "h"]
    (fun k value =>
      if k = "mode" then
        match value with
        | Json.str s => ["tap", "ocr_box", "region_box"].contains s
        | _ => false
      else if k = "shape" then
        match value with
        | Json.str s => ["circle", "box"].contains s
        | _ => false
      else schemaNumberOrNull value)

/-- The mistake item sub-schema. -/
def schemaMistake (v : Json) : Bool :=
  let keys := ["type", "severity", "points_deducted", "evidence", "fix_instruction",
    "location_hint", "highlight"]
  schemaObj v keys keys (fun k value =>
    if k = "type" then
      match value with
      | Json.str s => mistakeTypeValues.contains s
      | _ => false
    else if k = "severity" then
      match value with
      | Json.str s => [sevLow, sevMed, sevHigh].contains s
      | _ => false
    else if k = "points_deducted" then schemaNumber value 0 2
    else if k = "evidence" then schemaStr value 240
    else if k = "fix_instruction" then schemaStr value 240
    else if k = "location_hint" then schemaStr value 120
    else schemaHighlight value)

/-- The patch sub-schema. -/
def schemaPatch (v : Json) : Bool :=
  schemaObj v ["minimal_changes", "patched_solution_brief"]
    ["minimal_changes", "patched_solution_brief"]
    (fun k value =>
      if k = "minimal_changes" then
        match value with
        | Json.arr items =>
          1 ≤ items.length && items.length ≤ 6
            && items.all (fun item =>
              schemaObj item ["change", "rationale"] ["change", "rationale"]
                (fun kk vv => if kk = "change" then schemaStr vv 220 else schemaStr vv 160))
        | _ => false
      else schemaStr value 600)

/-- jsonschema validate against ANALYSIS_RESULT_JSON_SCHEMA, specialized
to that fixed schema. -/
def schemaCheckAnalysisResult (v : Json) : Bool :=
  let keys := ["score_total", "rubric_scores", "mistakes", "patch", "next_checklist",
    "confidence", "missing_info", "answer_verdict", "answer_verdict_reason"]
  schemaObj v keys keys (fun k value =>
    if k = "score_total" then schemaNumber value 0 10
    else if k = "rubric_scores" then schemaRubric value
    else if k = "mistakes" then
      match value with
      | Json.arr items => items.length ≤ 20 && items.all schemaMistake
      | _ => false
    else if k = "patch" then schemaPatch value
    else if k = "next_checklist" then
      match value with
      | Json.arr items =>
        1 ≤ items.length && items.length ≤ 3 && items.all (fun i => schemaStr i 80)
      | _ => false
    else if k = "confidence" then schemaNumber value 0 1
    else if k = "missing_info" then
      match value with
      | Json.arr items => items.length ≤ 6 && items.all (fun i => schemaStr i 80)
      | _ => false
    else if k = "answer_verdict" then
      match value with
      | Json.str s => [avCorrect, avIncorrect, avUnknown].contains s
      | _ => false
    else schemaStr value 120)

/-- Pydantic lax float with bounds: numbers and numeric strings pass,
booleans do not. -/
def pydanticFloat (v : Json) (lo hi : ℚ) : Bool :=
  match toFloatJson v with
  | some q => decide (lo ≤ q) && decide (q ≤ hi)
  | none => false

/-- Pydantic str field with length bounds. -/
def pydanticStr (v : Json) (minLen maxLen : ℕ) : Bool :=
  match v with
  | Json.str s => minLen ≤ s.length && s.length ≤ maxLen
  | _ => false

/-- Pydantic validation of the Highlight model (extra="forbid"). -/
def pydanticHighlight (v : Json) : Bool :=
  match v with
  | Json.obj entries =>
    entries.all (fun kv => ["mode", "shape", "x", "y", "w", "h"].contains kv.1)
      && (match objGet entries "mode" with
          | some (Json.str s) => ["tap", "ocr_box", "region_box"].contains s
          | some _ => false
          | none => true)
      && (match objGet entries "shape" with
          | some (Json.str s) => ["circle", "box"].contains s
          | some _ => false
          | none => true)
      && ["x", "y", "w", "h"].all (fun k =>
          match objGet entries k with
          | some Json.null => true
          | some vv => (toFloatJson vv).isSome
          | none => true)
  | _ => false

/-- Pydantic validation of the Mistake model (extra="forbid",
mistake_id optional). -/
def pydanticMistake (v : Json) : Bool :=
  match v with
  | Json.obj entries =>
    entries.all (fun kv => ["mistake_id", "type", "severity", "points_deducted", "evidence",
      "fix_instruction", "location_hint", "highlight"].contains kv.1)
      && (match objGet entries "type" with
          | some (Json.str s) => mistakeTypeValues.contains s
          | _ => false)
      && (match objGet entries "severity" with
          | some (Json.str s) => [sevLow, sevMed, sevHigh].contains s
          | _ => false)
      && (match objGet entries "points_deducted" with
          | some vv => pydanticFloat vv 0 2
          | none => false)
      && (match objGet entries "evidence" with
          | some vv => pydanticStr vv 1 240
          | none => false)
      && (match objGet entries "fix_instruction" with
          | some vv => pydanticStr vv 1 240
          | none => false)
      && (match objGet entries "location_hint" with
          | some vv => pydanticStr vv 1 120
          | none => false)
      && (match objGet entries "highlight" with
          | some vv => pydanticHighlight vv
          | none => true)
  | _ => false

/-- Field names of the pydantic AnalysisResult model (models.py).  The
model does not declare answer_verdict or answer_verdict_reason. -/
def analysisResultModelFields : List String :=
  ["score_total", "rubric_scores", "mistakes", "patch", "next_checklist",
   "confidence", "missing_info"]

/-- Pydantic validation of the AnalysisResult model: extra="forbid" over
analysisResultModelFields, required fields, nested models. -/
def pydanticCheckAnalysisResult (entries : JObj) : Bool :=
  entries.all (fun kv => analysisResultModelFields.contains kv.1)
    && (match objGet entries "score_total" with
        | some vv => pydanticFloat vv 0 10
        | none => false)
    && (match objGet entries "rubric_scores" with
        | some (Json.obj r) =>
          r.all (fun kv => ["conditions", "modeling", "logic", "calculation", "final"].contains kv.1)
            && ["conditions", "modeling", "logic", "calculation", "final"].all (fun k =>
              match objGet r k with
              | some vv => pydanticFloat vv 0 2
              | none => false)
        | _ => false)
    && (match objGet entries "mistakes" with
        | some (Json.arr items) => items.length ≤ 20 && items.all pydanticMistake
        | _ => false)
    && (match objGet entries "patch" with
        | some (Json.obj p) =>
          p.all (fun kv => ["minimal_changes", "patched_solution_brief"].contains kv.1)
            && (match objGet p "minimal_changes" with
                | some (Json.arr items) =>
                  1 ≤ items.length && items.length ≤ 6
                    && items.all (fun item =>
                      match item with
                      | Json.obj e =>
                        e.all (fun kv => ["change", "rationale"].contains kv.1)
                          && (match objGet e "change" with
                              | some vv => pydanticStr vv 1 220
                              | none => false)
                          && (match objGet e "rationale" with
                              | some vv => pydanticStr vv 1 160
                              | none => false)
                      | _ => false)
                | _ => false)
            && (match objGet p "patched_solution_brief" with
                | some vv => pydanticStr vv 1 600
                | none => false)
        | _ => false)
    && (match objGet entries "next_checklist" with
        | some (Json.arr items) =>
          1 ≤ items.length && items.length ≤ 3
            && items.all (fun i => match i with | Json.str _ => true | _ => false)
        | _ => false)
    && (match objGet entries "confidence" with
        | some vv => pydanticFloat vv 0 1
        | none => false)
    && (match objGet entries "missing_info" with
        | some (Json.arr items) =>
          items.length ≤ 6 && items.all (fun i => match i with | Json.str _ => true | _ => false)
        | some _ => false
        | none => true)

/-- Typed extraction of a validated canonical dict (the model_dump view
consumed by the pipeline stages).  The pydantic model carries no verdict
fields, so they read as empty (normalizing to "unknown"). -/
def resultOfValidatedJson (entries : JObj) : GradingResult :=
  let getQ := fun k => (toFloatOpt (objGet entries k)).getD 0
  let getS := fun (o : JObj) k => match objGet o k with | some (Json.str s) => s | _ => ""
  let rubric := match objGet entries "rubric_scores" with | some (Json.obj r) => r | _ => []
  let getOptQ := fun (o : JObj) k =>
    match objGet o k with | some (Json.num q) => some q | _ => none
  { score_total := getQ "score_total"
    rubric_scores :=
      { conditions := (toFloatOpt (objGet rubric "conditions")).getD 0
        modeling := (toFloatOpt (objGet rubric "modeling")).getD 0
        logic := (toFloatOpt (objGet rubric "logic")).getD 0
        calculation := (toFloatOpt (objGet rubric "calculation")).getD 0
        final := (toFloatOpt (objGet rubric "final")).getD 0 }
    mistakes :=
      (match objGet entries "mistakes" with
       | some (Json.arr items) =>
         items.filterMap (fun item =>
           match item with
           | Json.obj e =>
             let h := match objGet e "highlight" with | some (Json.obj hh) => hh | _ => []
             some { type := getS e "type"
                    severity := getS e "severity"
                    points_deducted := (toFloatOpt (objGet e "points_deducted")).getD 0
                    evidence := getS e "evidence"
                    fix_instruction := getS e "fix_instruction"
                    location_hint := getS e "location_hint"
                    highlight :=
                      { mode := getS h "mode"
                        shape := getS h "shape"
                        x := getOptQ h "x"
                        y := getOptQ h "y"
                        w := getOptQ h "w"
                        h := getOptQ h "h" } }
           | _ => none)
       | _ => [])
    patch :=
      (match objGet entries "patch" with
       | some (Json.obj p) =>
         { minimal_changes :=
             (match objGet p "minimal_changes" with
              | some (Json.arr items) =>
                items.filterMap (fun item =>
                  match item with
                  | Json.obj e => some { change := getS e "change", rationale := getS e "rationale" }
                  | _ => none)
              | _ => [])
           patched_solution_brief := getS p "patched_solution_brief" }
       | _ => { minimal_changes := [], patched_solution_brief := "" })
    next_checklist :=
      (match objGet entries "next_checklist" with
       | some (Json.arr items) =>
         items.filterMap (fun i => match i with | Json.str s => some s | _ => none)
       | _ => [])
    confidence := getQ "confidence"
    missing_info :=
      (match objGet entries "missing_info" with
       | some (Json.arr items) =>
         items.filterMap (fun i => match i with | Json.str s => some s | _ => none)
       | _ => [])
    answer_verdict := ""
    answer_verdict_reason := "" }

/-- Source _validate_result: normalize the raw candidate, check it against
the JSON schema (SchemaViolation on failure, surfaced as the
schema_validation_failed RuntimeError), then run the strict pydantic pass
(whose own ValidationError is not caught by the source and escapes as a
distinct validation failure). -/
def validateResult (data : Json) : Except String GradingResult :=
  match data with
  | Json.obj entries =>
    let normalizedInput := normalizeResultCandidate entries
    if !schemaCheckAnalysisResult (Json.obj normalizedInput) then
      Except.error "schema_validation_failed"
    else if !pydanticCheckAnalysisResult normalizedInput then
      Except.error "pydantic_validation_error"
    else Except.ok (resultOfValidatedJson normalizedInput)
  | _ => Except.error "not_a_mapping"

/-! Job boundary: process_analysis_job and _load_fallback_result. -/

/-- Terminal outcome of one worker invocation of process_analysis_job. -/
inductive JobOutcome where
  | saved (result : GradingResult) (fallbackUsed : Bool) (errorCode : Option String)
  | fatalFallbackMissing
  | fatalValidationError
  | fatalPersistenceFailure
deriving Repr

/-- Equality of job outcomes up to payload (used to state which terminal
state a run reaches). -/
def JobOutcome.isSaved : JobOutcome → Bool
  | JobOutcome.saved _ _ _ => true
  | _ => false

/-- Source _load_fallback_result: a missing or unreadable fallback asset
raises (FallbackMissing); otherwise the payload goes through the same
_validate_result. -/
def loadFallbackResult (fallbackAsset : Option Json) : Except (Option String) GradingResult :=
  match fallbackAsset with
  | none => Except.error none
  | some payload =>
    match validateResult payload with
    | Except.ok r => Except.ok r
    | Except.error e => Except.error (some e)

/-- Source process_analysis_job.  providerResults are the per-run
transport outcomes of _get_llm_results; fallbackAsset is the parsed
fallback file (none when absent or corrupt); postProcess is the pure
OCR-driven post-validation pipeline (_apply_simple_equation_consistency,
_apply_reasoning_guardrails, _inject_ocr_hints — it cannot raise);
saveOk models whether the final persistence write succeeds. -/
def processAnalysisJob (providerResults : List (Except String Json))
    (fallbackAsset : Option Json) (runsRequested : ℕ)
    (postProcess : GradingResult → GradingResult) (saveOk : Bool) : JobOutcome :=
  let payloads := providerResults.filterMap (fun r => r.toOption)
  let attempt : Option (GradingResult × ConsensusMeta) :=
    if payloads.isEmpty then none
    else
      let validatedRuns := payloads.filterMap (fun p => (validateResult p).toOption)
      if validatedRuns.isEmpty then none
      else mergeConsensusResults validatedRuns (max 1 runsRequested)
  match attempt with
  | some (validated, _) =>
    if saveOk then JobOutcome.saved (postProcess validated) false none
    else JobOutcome.fatalPersistenceFailure
  | none =>
    match loadFallbackResult fallbackAsset with
    | Except.error none => JobOutcome.fatalFallbackMissing
    | Except.error (some _) => JobOutcome.fatalValidationError
    | Except.ok validated =>
      if saveOk then
        JobOutcome.saved (postProcess validated) true (some "analysis_error")
      else JobOutcome.fatalPersistenceFailure

/-- Default settings values of config.py: MISTAKEPATCH_UNCERTAINTY_THRESHOLD. -/
def defaultUncertaintyThreshold : ℚ := 0.6

/-- Default settings values of config.py: MISTAKEPATCH_CONSENSUS_MIN_AGREEMENT. -/
def defaultConsensusMinAgreement : ℚ := 0.55

/-- Default settings values of config.py: MISTAKEPATCH_CONSENSUS_RUNS. -/
def defaultConsensusRuns : ℕ := 3

/-! Theorems.  Shared helper lemmas first, then one theorem per claim
(with witnesses and counterexamples where required). -/

/-- Single-classification equations always expose their root −b/a. -/
theorem solveLinearEquation_single (e : LinearEquation)
    (h : (solveLinearEquation e).1 = "single") :
    (solveLinearEquation e).2 = some (-e.b / e.a) := by
  unfold solveLinearEquation at h ⊢
  split_ifs at h ⊢ <;> simp_all

/-- Non-single classifications carry no root. -/
theorem solveLinearEquation_not_single (e : LinearEquation)
    (h : (solveLinearEquation e).1 ≠ "single") :
    (solveLinearEquation e).2 = none := by
  unfold solveLinearEquation at h ⊢
  split_ifs at h ⊢ <;> simp_all

/-- C7: two parsed linear equations are judged equivalent exactly when
they share the classification of _solve_linear_equation and, in the
single-root case, the roots x = −b/a agree within 0.05; concretely the
parses of "x+1=4" and "x=4-1" are equivalent while "x+1=4" and "x=5"
are not. -/
theorem c7_equations_equivalent :
    (∀ first second : LinearEquation,
      equationsEquivalent first second = true ↔
        ((solveLinearEquation first).1 = (solveLinearEquation second).1 ∧
          ((solveLinearEquation first).1 = "single" →
            |(-first.b / first.a) - (-second.b / second.a)| ≤ 1 / 20)))
    ∧ (∃ e1 e2 e3 : LinearEquation,
        parseLinearEquation "x+1=4" = some e1 ∧
        parseLinearEquation "x=4-1" = some e2 ∧
        parseLinearEquation "x=5" = some e3 ∧
        equationsEquivalent e1 e2 = true ∧
        equationsEquivalent e1 e3 = false) := by
  constructor
  · intro first second
    unfold equationsEquivalent
    by_cases htype : (solveLinearEquation first).1 = (solveLinearEquation second).1
    · by_cases hsingle : (solveLinearEquation first).1 = "single"
      · have hf := solveLinearEquation_single first hsingle
        have hs := solveLinearEquation_single second (htype ▸ hsingle)
        have hsingle2 : (solveLinearEquation second).1 = "single" := htype.symm.trans hsingle
        simp only [htype, hsingle, ne_eq, not_true_eq_false, if_false, if_true, hf, hs]
        simp [hsingle2]
      · have hf := solveLinearEquation_not_single first hsingle
        simp only [ne_eq, htype, not_true_eq_false, if_false, hsingle, if_true, hf, ite_self]
        constructor
        · intro _
          exact ⟨trivial, fun h => absurd (htype.trans h) hsingle⟩
        · intro _
          trivial
    · simp [htype]
  · refine ⟨⟨1, -3, "x+1=4"⟩, ⟨1, -3, "x=4-1"⟩, ⟨1, -5, "x=5"⟩, ?_, ?_, ?_, ?_, ?_⟩
    · with_unfolding_all decide
    · with_unfolding_all decide
    · with_unfolding_all decide
    · with_unfolding_all decide
    · with_unfolding_all decide

/-- C7 witness: the general equivalence criterion applied at a concrete
pair of single-root equations. -/
theorem c7_equations_equivalent_witness :
    equationsEquivalent ⟨1, -3, "a"⟩ ⟨2, -6, "b"⟩ = true :=
  (c7_equations_equivalent.1 ⟨1, -3, "a"⟩ ⟨2, -6, "b"⟩).mpr
    ⟨by with_unfolding_all decide, fun _ => by norm_num⟩

/-- Clamping stays below the upper bound. -/
theorem clampQ_le_right (v lo hi : ℚ) (h : lo ≤ hi) : clampQ v lo hi ≤ hi :=
  max_le h (min_le_left _ _)

/-- Clamping stays above the lower bound. -/
theorem le_clampQ (v lo hi : ℚ) : lo ≤ clampQ v lo hi := le_max_left _ _

/-- Half-up rounding is monotone. -/
theorem pyRound_mono (d : ℕ) {a b : ℚ} (h : a ≤ b) : pyRound d a ≤ pyRound d b := by
  unfold pyRound
  have hp : (0 : ℚ) < (10 : ℚ) ^ d := by positivity
  have h2 : ((⌊a * (10 : ℚ) ^ d + 1 / 2⌋ : ℤ) : ℚ) ≤ ((⌊b * (10 : ℚ) ^ d + 1 / 2⌋ : ℤ) : ℚ) := by
    have : (⌊a * (10 : ℚ) ^ d + 1 / 2⌋ : ℤ) ≤ ⌊b * (10 : ℚ) ^ d + 1 / 2⌋ := by
      apply Int.floor_le_floor
      nlinarith
    exact_mod_cast this
  rw [div_le_div_iff hp hp]
  nlinarith [h2]

/-- Tenth rounding is monotone. -/
theorem roundToTenth_mono {a b : ℚ} (h : a ≤ b) : roundToTenth a ≤ roundToTenth b :=
  pyRound_mono 1 (by linarith)

/-- First-occurrence decomposition of a list along a predicate. -/
theorem exists_first_decompose (p : α → Bool) (l : List α) (h : l.any p = true) :
    ∃ pre x post, l = pre ++ x :: post ∧ p x = true ∧ ∀ y ∈ pre, p y = false := by
  induction l with
  | nil => simp at h
  | cons a as ih =>
    by_cases ha : p a
    · exact ⟨[], a, as, rfl, ha, by simp⟩
    · have h2 : as.any p := by simpa [ha] using h
      obtain ⟨pre, x, post, heq, hx, hpre⟩ := ih h2
      refine ⟨a :: pre, x, post, by simp [heq], hx, ?_⟩
      intro y hy
      rcases List.mem_cons.mp hy with rfl | hy2
      · simpa using ha
      · exact hpre y hy2

/-- C5 helper: upgrade-in-place of the first FINAL_FORM_ERROR entry. -/
theorem capUpgradeFirst_decompose (failure : VerificationFinding)
    (pre post : List Mistake) (m : Mistake)
    (hpre : ∀ x ∈ pre, x.type ≠ mtFinalFormError) (hm : m.type = mtFinalFormError) :
    capUpgradeFirst failure (pre ++ m :: post) =
      pre ++ ({ m with
        severity := sevHigh
        points_deducted := max m.points_deducted 1.8
        evidence := formatProvenanceEvidence failure.step_id failure.rule failure.reason
          failure.counterexample
        fix_instruction := "최종 값을 원식에 대입해 성립 여부를 확인한 뒤 정답을 수정하세요." } :: post) := by
  induction pre with
  | nil => simp [capUpgradeFirst, hm]
  | cons x xs ih =>
    have hx : x.type ≠ mtFinalFormError := hpre x (List.mem_cons_self x xs)
    have ih2 := ih (fun y hy => hpre y (List.mem_cons_of_mem x hy))
    simp only [List.cons_append, capUpgradeFirst, hx, ite_false]
    exact congrArg (fun t => x :: t) ih2

set_option maxHeartbeats 2000000 in
/-- C5: with no failing RULE_FINAL_SUBSTITUTION finding the
verified-wrong-final cap leaves the result unchanged; with such a finding
it forces the final rubric dimension to at most 0.8 and the total score to
at most 7.0, and ensures a high-severity FINAL_FORM_ERROR mistake with at
least 1.8 deducted points: the synthetic entry is inserted at the front
when no FINAL_FORM_ERROR mistake exists, and otherwise the first such
mistake is upgraded in place. -/
theorem c5_verified_wrong_final_cap :
    (∀ (result : GradingResult) (report : VerificationReport),
      (report.findings.filter (fun f => !f.passed && f.rule = "RULE_FINAL_SUBSTITUTION")).head? = none →
        applyVerifiedWrongFinalCap result report = result)
    ∧ (∀ (result : GradingResult) (report : VerificationReport) (failure : VerificationFinding),
        (report.findings.filter (fun f => !f.passed && f.rule = "RULE_FINAL_SUBSTITUTION")).head?
          = some failure →
        result.mistakes.length ≤ 20 →
        (applyVerifiedWrongFinalCap result report).rubric_scores.final ≤ 0.8
        ∧ (applyVerifiedWrongFinalCap result report).score_total ≤ 7
        ∧ (∃ m ∈ (applyVerifiedWrongFinalCap result report).mistakes,
            m.type = mtFinalFormError ∧ m.severity = sevHigh ∧ 1.8 ≤ m.points_deducted)
        ∧ ((∀ x ∈ result.mistakes, x.type ≠ mtFinalFormError) →
            (applyVerifiedWrongFinalCap result report).mistakes =
              capSyntheticMistake failure :: result.mistakes.take 19)
        ∧ (∀ pre post m, result.mistakes = pre ++ m :: post →
            (∀ x ∈ pre, x.type ≠ mtFinalFormError) → m.type = mtFinalFormError →
            (applyVerifiedWrongFinalCap result report).mistakes =
              pre ++ ({ m with
                severity := sevHigh
                points_deducted := max m.points_deducted 1.8
                evidence := formatProvenanceEvidence failure.step_id failure.rule failure.reason
                  failure.counterexample
                fix_instruction := "최종 값을 원식에 대입해 성립 여부를 확인한 뒤 정답을 수정하세요." }
                :: post))) := by
  constructor
  · intro result report hnone
    simp only [applyVerifiedWrongFinalCap, hnone]
  · intro result report failure hsome hlen
    simp only [applyVerifiedWrongFinalCap, hsome]
    refine ⟨?_, ?_, ?_, ?_, ?_⟩
    · exact min_le_right _ _
    · refine le_trans (pyRound_mono 2 (min_le_right _ _)) ?_
      norm_num [pyRound]
    · by_cases hany : result.mistakes.any (fun m => m.type = mtFinalFormError)
      · obtain ⟨pre, m, post, hsplit, hm, hpre⟩ :=
          exists_first_decompose (fun m => m.type = mtFinalFormError) result.mistakes hany
        have hm2 : m.type = mtFinalFormError := by simpa using hm
        have hpre2 : ∀ x ∈ pre, x.type ≠ mtFinalFormError := fun x hx => by
          simpa using hpre x hx
        have hrw := capUpgradeFirst_decompose failure pre post m hpre2 hm2
        have hany2 : ((pre ++ m :: post).any fun x => x.type = mtFinalFormError) = true := by
          rw [← hsplit]
          exact hany
        rw [hsplit, if_pos hany2, hrw]
        have hprelen : pre.length + 1 ≤ 20 := by
          have := hlen
          rw [hsplit] at this
          simp only [List.length_append, List.length_cons] at this
          omega
        refine ⟨{ m with
            severity := sevHigh
            points_deducted := max m.points_deducted 1.8
            evidence := formatProvenanceEvidence failure.step_id failure.rule failure.reason
              failure.counterexample
            fix_instruction := "최종 값을 원식에 대입해 성립 여부를 확인한 뒤 정답을 수정하세요." },
          ?_, by simpa using hm2, rfl, le_max_right _ _⟩
        have htake : (pre ++ ({ m with
            severity := sevHigh
            points_deducted := max m.points_deducted 1.8
            evidence := formatProvenanceEvidence failure.step_id failure.rule failure.reason
              failure.counterexample
            fix_instruction := "최종 값을 원식에 대입해 성립 여부를 확인한 뒤 정답을 수정하세요." }
            :: post)).take 20 =
            pre ++ ({ m with
              severity := sevHigh
              points_deducted := max m.points_deducted 1.8
              evidence := formatProvenanceEvidence failure.step_id failure.rule failure.reason
                failure.counterexample
              fix_instruction := "최종 값을 원식에 대입해 성립 여부를 확인한 뒤 정답을 수정하세요." }
              :: post.take (20 - pre.length - 1)) := by
          rw [List.take_append_eq_append_take, List.take_of_length_le (by omega)]
          congr 1
          have h20 : 20 - pre.length = (20 - pre.length - 1) + 1 := by omega
          rw [h20, List.take_succ_cons]
          congr 2
        rw [htake]
        exact List.mem_append_right _ (List.mem_cons_self _ _)
      · refine ⟨capSyntheticMistake failure, ?_, rfl, rfl, le_refl _⟩
        simp only [Bool.not_eq_true] at hany
        simp only [hany, Bool.false_eq_true, if_false, List.take_succ_cons]
        exact List.mem_cons_self _ _
    · intro habsent
      have hany : result.mistakes.any (fun m => m.type = mtFinalFormError) = false := by
        simp only [List.any_eq_false]
        intro x hx
        simpa using habsent x hx
      simp only [hany, Bool.false_eq_true, if_false, List.take_succ_cons]
    · intro pre post m hsplit hpre hm
      have hany : result.mistakes.any (fun m => m.type = mtFinalFormError) = true := by
        rw [hsplit]
        exact List.any_eq_true.mpr ⟨m, by simp, by simp [hm]⟩
      simp only [hany, if_true]
      rw [hsplit, capUpgradeFirst_decompose failure pre post m hpre hm]
      apply List.take_of_length_le
      have := hlen
      rw [hsplit] at this
      simpa using this

/-- C5 witness: the cap applied to a concrete perfect-score result with a
concrete failing final-substitution finding. -/
theorem c5_verified_wrong_final_cap_witness :
    (applyVerifiedWrongFinalCap
        { score_total := 9.8
          rubric_scores := { conditions := 2, modeling := 2, logic := 2, calculation := 2, final := 1.8 }
          mistakes := []
          patch := { minimal_changes := [], patched_solution_brief := "" }
          next_checklist := []
          confidence := 0.85
          missing_info := []
          answer_verdict := ""
          answer_verdict_reason := "" }
        { steps := []
          findings := [{ step_id := "s3", rule := "RULE_FINAL_SUBSTITUTION", passed := false, reason := "최종 답 대입 시 원식이 성립하지 않습니다.", counterexample := some "x=5, expected=x=3" }]
          expected_x := some 3
          observed_x := some 5
          confidence := 0.8
          requires_review := false }).rubric_scores.final ≤ 0.8
    ∧ (applyVerifiedWrongFinalCap
        { score_total := 9.8
          rubric_scores := { conditions := 2, modeling := 2, logic := 2, calculation := 2, final := 1.8 }
          mistakes := []
          patch := { minimal_changes := [], patched_solution_brief := "" }
          next_checklist := []
          confidence := 0.85
          missing_info := []
          answer_verdict := ""
          answer_verdict_reason := "" }
        { steps := []
          findings := [{ step_id := "s3", rule := "RULE_FINAL_SUBSTITUTION", passed := false, reason := "최종 답 대입 시 원식이 성립하지 않습니다.", counterexample := some "x=5, expected=x=3" }]
          expected_x := some 3
          observed_x := some 5
          confidence := 0.8
          requires_review := false }).score_total ≤ 7 := by
  have h := c5_verified_wrong_final_cap.2
    { score_total := 9.8
      rubric_scores := { conditions := 2, modeling := 2, logic := 2, calculation := 2, final := 1.8 }
      mistakes := []
      patch := { minimal_changes := [], patched_solution_brief := "" }
      next_checklist := []
      confidence := 0.85
      missing_info := []
      answer_verdict := ""
      answer_verdict_reason := "" }
    { steps := []
      findings := [{ step_id := "s3", rule := "RULE_FINAL_SUBSTITUTION", passed := false, reason := "최종 답 대입 시 원식이 성립하지 않습니다.", counterexample := some "x=5, expected=x=3" }]
      expected_x := some 3
      observed_x := some 5
      confidence := 0.8
      requires_review := false }
    { step_id := "s3", rule := "RULE_FINAL_SUBSTITUTION", passed := false, reason := "최종 답 대입 시 원식이 성립하지 않습니다.", counterexample := some "x=5, expected=x=3" }
    (by with_unfolding_all rfl) (by decide)
  exact ⟨h.1, h.2.1⟩

lemma string_data_append (s t : String) : (s ++ t).data = s.data ++ t.data := rfl

lemma exists_data_cons_append (s t : String) (c : Char) (h : ∃ l, s.data = c :: l) :
    ∃ l, (s ++ t).data = c :: l := by
  obtain ⟨l, hl⟩ := h
  refine ⟨l ++ t.data, ?_⟩
  rw [string_data_append, hl]
  rfl

lemma pySplitAux_ne_nil (l : List Char) : ∀ acc : List Char, acc ≠ [] →
    ∃ w ws, pySplitAux l acc = w :: ws ∧ w ≠ [] := by
  induction l with
  | nil =>
    intro acc h
    refine ⟨acc.reverse, [], ?_, by simpa using h⟩
    simp [pySplitAux, h]
  | cons c cs ih =>
    intro acc h
    by_cases hc : pyIsSpace c = true
    · refine ⟨acc.reverse, pySplitAux cs [], ?_, by simpa using h⟩
      simp [pySplitAux, hc, h]
    · obtain ⟨w, ws, hw, hwne⟩ := ih (c :: acc) (by simp)
      refine ⟨w, ws, ?_, hwne⟩
      simp [pySplitAux, hc, hw]

lemma joinSpace_cons_ne_nil (w : List Char) (ws : List (List Char)) (hw : w ≠ []) :
    joinSpace (w :: ws) ≠ [] := by
  cases ws with
  | nil => simpa [joinSpace] using hw
  | cons w2 ws2 => simp [joinSpace]

lemma normWs_cons_ne_nil (c : Char) (l : List Char) (hc : pyIsSpace c = false) :
    normWs (c :: l) ≠ [] := by
  have h1 : pySplit (c :: l) = pySplitAux l [c] := by
    simp [pySplit, pySplitAux, hc]
  obtain ⟨w, ws, hw, hwne⟩ := pySplitAux_ne_nil l [c] (by simp)
  unfold normWs
  rw [h1, hw]
  exact joinSpace_cons_ne_nil w ws hwne

lemma isEmpty_mk_cons (a : Char) (as : List Char) : (String.mk (a :: as)).isEmpty = false := by
  rw [Bool.eq_false_iff]
  intro h
  have h2 := congrArg String.data ((String.isEmpty_iff _).mp h)
  simp at h2

lemma pyCleanText_isEmpty_false (value d : String) (maxLen : ℕ) (hml : 0 < maxLen)
    (c : Char) (l : List Char) (hv : value.data = c :: l) (hc : pyIsSpace c = false) :
    (pyCleanText value d maxLen).isEmpty = false := by
  obtain ⟨a, as, hws⟩ := List.exists_cons_of_ne_nil (normWs_cons_ne_nil c l hc)
  cases maxLen with
  | zero => omega
  | succ n =>
    simp only [pyCleanText, hv, hws, isEmpty_mk_cons, Bool.false_eq_true, if_false,
      List.take_succ_cons]

lemma reviewNote_isEmpty_false (bc ag : ℚ) : (reviewNote bc ag).isEmpty = false := by
  have h0 : ∃ l, ("검토 필요: 자동 감점 보류 (confidence=" : String).data = '검' :: l := ⟨_, rfl⟩
  have h1 := exists_data_cons_append _ (formatFixed2 bc) _ h0
  have h2 := exists_data_cons_append _ ", agreement=" _ h1
  have h3 := exists_data_cons_append _ (formatFixed2 ag) _ h2
  have h4 := exists_data_cons_append _ ")" _ h3
  obtain ⟨l, hl⟩ := h4
  unfold reviewNote
  exact pyCleanText_isEmpty_false _ "" 80 (by norm_num) '검' l hl (by decide)

lemma pyCleanText_review_first (d : String) :
    pyCleanText "검토 필요 항목 우선 확인: 자동 감점은 보류됨" d 80
      = "검토 필요 항목 우선 확인: 자동 감점은 보류됨" := by
  with_unfolding_all rfl

lemma string_isEmpty_false_iff (s : String) : s.isEmpty = false ↔ s ≠ "" := by
  rw [Bool.eq_false_iff]
  constructor
  · intro h heq
    exact h (by rw [heq]; rfl)
  · intro h hemp
    exact h ((String.isEmpty_iff s).mp hemp)

lemma list_isEmpty_false_iff {α : Type} (l : List α) : l.isEmpty = false ↔ l ≠ [] := by
  cases l <;> simp

lemma uncertaintyShouldHold_iff (ut ma bc : ℚ) (report : VerificationReport)
    (meta : ConsensusMeta) :
    uncertaintyShouldHold ut ma bc report meta = true ↔
      ((bc < ut ∨ meta.agreement < ma ∨ report.requires_review = true)
        ∧ ¬ (∃ f ∈ report.findings, f.passed = false
            ∧ (f.rule = "RULE_FINAL_SUBSTITUTION" ∨ f.rule = "RULE_EQUIV_TRANSFORM")
            ∧ f.counterexample.getD "" ≠ "")
        ∧ (report.findings ≠ [] ∨ report.expected_x.isSome = true
            ∨ report.observed_x.isSome = true)) := by
  simp only [uncertaintyShouldHold, Bool.and_eq_true, Bool.or_eq_true, decide_eq_true_eq,
    Bool.not_eq_true', List.any_eq_false, List.any_eq_true, Bool.not_eq_false,
    List.isEmpty_eq_true, not_exists, String.isEmpty_iff, string_isEmpty_false_iff,
    list_isEmpty_false_iff, and_assoc, or_assoc, not_and, ne_eq]

lemma applyUncertaintyPolicy_confidence (ut ma : ℚ) (result : GradingResult)
    (report : VerificationReport) (meta : ConsensusMeta) :
    (applyUncertaintyPolicy ut ma result report meta).confidence
      = pyRound 2 (clampQ (result.confidence * 0.5 + report.confidence * 0.3
          + meta.agreement * 0.2) 0 1) := by
  simp only [applyUncertaintyPolicy]
  split
  · rfl
  · simp only [apply_ite GradingResult.confidence]
    split <;> split <;> rfl

lemma applyUncertaintyPolicy_of_not_hold (ut ma : ℚ) (result : GradingResult)
    (report : VerificationReport) (meta : ConsensusMeta)
    (h : uncertaintyShouldHold ut ma
        (pyRound 2 (clampQ (result.confidence * 0.5 + report.confidence * 0.3
          + meta.agreement * 0.2) 0 1)) report meta = false) :
    applyUncertaintyPolicy ut ma result report meta
      = { result with confidence := pyRound 2 (clampQ (result.confidence * 0.5
          + report.confidence * 0.3 + meta.agreement * 0.2) 0 1) } := by
  simp only [applyUncertaintyPolicy, h, Bool.not_false, if_true]

lemma applyUncertaintyPolicy_of_hold (ut ma : ℚ) (result : GradingResult)
    (report : VerificationReport) (meta : ConsensusMeta)
    (h : uncertaintyShouldHold ut ma
        (pyRound 2 (clampQ (result.confidence * 0.5 + report.confidence * 0.3
          + meta.agreement * 0.2) 0 1)) report meta = true) :
    (∀ m ∈ (applyUncertaintyPolicy ut ma result report meta).mistakes,
        m.points_deducted = 0 ∧ m.severity = sevLow)
    ∧ (applyUncertaintyPolicy ut ma result report meta).mistakes ≠ []
    ∧ 8 ≤ (applyUncertaintyPolicy ut ma result report meta).score_total
    ∧ (applyUncertaintyPolicy ut ma result report meta).score_total ≤ 8.8
    ∧ (result.missing_info.length ≤ 5 →
        reviewNote (pyRound 2 (clampQ (result.confidence * 0.5 + report.confidence * 0.3
          + meta.agreement * 0.2) 0 1)) meta.agreement
          ∈ (applyUncertaintyPolicy ut ma result report meta).missing_info)
    ∧ (applyUncertaintyPolicy ut ma result report meta).next_checklist.head?
        = some "검토 필요 항목 우선 확인: 자동 감점은 보류됨" := by
  simp only [applyUncertaintyPolicy, h, Bool.not_true, Bool.false_eq_true, if_false]
  refine ⟨?_, ?_, ?_, ?_, ?_, ?_⟩
  · intro m hm
    simp only [apply_ite GradingResult.mistakes] at hm
    rw [ite_self, ite_self] at hm
    have hm2 := List.mem_of_mem_take hm
    obtain ⟨m0, _, rfl⟩ := List.mem_map.mp hm2
    exact ⟨rfl, rfl⟩
  · simp only [apply_ite GradingResult.mistakes]
    rw [ite_self, ite_self]
    simp only [ne_eq, List.take_eq_nil_iff, List.map_eq_nil_iff]
    push_neg
    refine ⟨by omega, ?_⟩
    split
    · simp
    · rename_i hne
      simpa [list_isEmpty_false_iff] using hne
  · simp only [apply_ite GradingResult.score_total]
    by_cases h1 : (8.8 : ℚ) < result.score_total
    · simp only [if_pos h1]
      norm_num
    · simp only [if_neg h1]
      by_cases h2 : result.score_total < (8.0 : ℚ)
      · simp only [if_pos h2]
        norm_num
      · simp only [if_neg h2]
        linarith [not_lt.mp h2]
  · simp only [apply_ite GradingResult.score_total]
    by_cases h1 : (8.8 : ℚ) < result.score_total
    · simp only [if_pos h1]
      norm_num
    · simp only [if_neg h1]
      by_cases h2 : result.score_total < (8.0 : ℚ)
      · simp only [if_pos h2]
        norm_num
      · simp only [if_neg h2]
        exact not_lt.mp h1
  · intro hlen
    simp only [apply_ite GradingResult.missing_info]
    rw [ite_self, ite_self]
    rw [reviewNote_isEmpty_false]
    by_cases hcont : result.missing_info.contains
        (reviewNote (pyRound 2 (clampQ (result.confidence * 0.5 + report.confidence * 0.3
          + meta.agreement * 0.2) 0 1)) meta.agreement)
    · simp only [hcont, Bool.not_true, Bool.not_false, Bool.true_and, Bool.and_false,
        Bool.false_eq_true, if_false]
      rw [List.take_of_length_le (by omega)]
      exact List.mem_of_elem_eq_true hcont
    · simp only [hcont, Bool.not_true, Bool.not_false, Bool.true_and, Bool.and_true, if_true]
      rw [List.take_of_length_le (by simp; omega)]
      exact List.mem_append_right _ (List.mem_singleton.mpr rfl)
  · simp only [apply_ite GradingResult.next_checklist]
    rw [ite_self, ite_self]
    cases hnc : result.next_checklist with
    | nil => rfl
    | cons first rest => simp [pyCleanText_review_first]

set_option maxHeartbeats 1000000 in
/-- C6: the uncertainty policy blends confidence as
0.5·model + 0.3·verifier + 0.2·agreement clamped to [0,1]; it holds exactly
when blended confidence is below the uncertainty threshold, or agreement is
below the minimum agreement, or the verifier requested review — unless a
failing RULE_FINAL_SUBSTITUTION / RULE_EQUIV_TRANSFORM finding with a
counterexample exists or no verification context exists at all, each of
which forces hold off.  When hold is off the result is returned with only
the blended confidence written; when hold is on every surviving mistake has
its deduction zeroed and severity low, the mistake list is nonempty (a
placeholder is inserted when it was empty), the final score is clamped into
[8.0, 8.8], the review note lands in missing_info (whenever the list has
room), and the first checklist entry is the review-first instruction. -/
theorem c6_uncertainty_policy :
    (∀ (ut ma bc : ℚ) (report : VerificationReport) (meta : ConsensusMeta),
      uncertaintyShouldHold ut ma bc report meta = true ↔
        ((bc < ut ∨ meta.agreement < ma ∨ report.requires_review = true)
          ∧ ¬ (∃ f ∈ report.findings, f.passed = false
              ∧ (f.rule = "RULE_FINAL_SUBSTITUTION" ∨ f.rule = "RULE_EQUIV_TRANSFORM")
              ∧ f.counterexample.getD "" ≠ "")
          ∧ (report.findings ≠ [] ∨ report.expected_x.isSome = true
              ∨ report.observed_x.isSome = true)))
    ∧ (∀ (ut ma : ℚ) (result : GradingResult) (report : VerificationReport)
        (meta : ConsensusMeta),
      (applyUncertaintyPolicy ut ma result report meta).confidence
        = pyRound 2 (clampQ (result.confidence * 0.5 + report.confidence * 0.3
            + meta.agreement * 0.2) 0 1))
    ∧ (∀ (ut ma : ℚ) (result : GradingResult) (report : VerificationReport)
        (meta : ConsensusMeta),
      uncertaintyShouldHold ut ma
          (pyRound 2 (clampQ (result.confidence * 0.5 + report.confidence * 0.3
            + meta.agreement * 0.2) 0 1)) report meta = false →
        applyUncertaintyPolicy ut ma result report meta
          = { result with confidence := pyRound 2 (clampQ (result.confidence * 0.5
              + report.confidence * 0.3 + meta.agreement * 0.2) 0 1) })
    ∧ (∀ (ut ma : ℚ) (result : GradingResult) (report : VerificationReport)
        (meta : ConsensusMeta),
      uncertaintyShouldHold ut ma
          (pyRound 2 (clampQ (result.confidence * 0.5 + report.confidence * 0.3
            + meta.agreement * 0.2) 0 1)) report meta = true →
        (∀ m ∈ (applyUncertaintyPolicy ut ma result report meta).mistakes,
            m.points_deducted = 0 ∧ m.severity = sevLow)
        ∧ (applyUncertaintyPolicy ut ma result report meta).mistakes ≠ []
        ∧ 8 ≤ (applyUncertaintyPolicy ut ma result report meta).score_total
        ∧ (applyUncertaintyPolicy ut ma result report meta).score_total ≤ 8.8
        ∧ (result.missing_info.length ≤ 5 →
            reviewNote (pyRound 2 (clampQ (result.confidence * 0.5 + report.confidence * 0.3
              + meta.agreement * 0.2) 0 1)) meta.agreement
              ∈ (applyUncertaintyPolicy ut ma result report meta).missing_info)
        ∧ (applyUncertaintyPolicy ut ma result report meta).next_checklist.head?
            = some "검토 필요 항목 우선 확인: 자동 감점은 보류됨") := by
  refine ⟨uncertaintyShouldHold_iff, applyUncertaintyPolicy_confidence,
    applyUncertaintyPolicy_of_not_hold, applyUncertaintyPolicy_of_hold⟩

set_option maxRecDepth 4000 in
/-- C6 witness: model confidence 0.4, verifier confidence 0.2, agreement
0.42 and requires_review = true with verification context and no verified
critical failure: the hold fires, the mistake list survives nonempty with
the review-first checklist head, and the final score lands in [8.0, 8.8]. -/
theorem c6_uncertainty_policy_witness :
    (applyUncertaintyPolicy 0.6 0.55
        { score_total := 6.5
          rubric_scores := { conditions := 2, modeling := 2, logic := 1, calculation := 1, final := 0.5 }
          mistakes := [{ type := mtAlgebraError, severity := sevMed, points_deducted := 1.5, evidence := "[step:s1][rule:RULE_EQUIV_TRANSFORM] 이항 과정에서 부호가 뒤집혔습니다.", fix_instruction := "이항할 때 부호를 바꾸세요.", location_hint := "2행", highlight := { mode := "tap", shape := "circle" } }]
          patch := { minimal_changes := [], patched_solution_brief := "" }
          next_checklist := []
          confidence := 0.4
          missing_info := []
          answer_verdict := ""
          answer_verdict_reason := "" }
        { steps := []
          findings := []
          expected_x := some 3
          observed_x := none
          confidence := 0.2
          requires_review := true }
        { runs_requested := 3, runs_used := 3, agreement := 0.42, score_spread := 0.6 }).mistakes ≠ []
    ∧ 8 ≤ (applyUncertaintyPolicy 0.6 0.55
        { score_total := 6.5
          rubric_scores := { conditions := 2, modeling := 2, logic := 1, calculation := 1, final := 0.5 }
          mistakes := [{ type := mtAlgebraError, severity := sevMed, points_deducted := 1.5, evidence := "[step:s1][rule:RULE_EQUIV_TRANSFORM] 이항 과정에서 부호가 뒤집혔습니다.", fix_instruction := "이항할 때 부호를 바꾸세요.", location_hint := "2행", highlight := { mode := "tap", shape := "circle" } }]
          patch := { minimal_changes := [], patched_solution_brief := "" }
          next_checklist := []
          confidence := 0.4
          missing_info := []
          answer_verdict := ""
          answer_verdict_reason := "" }
        { steps := []
          findings := []
          expected_x := some 3
          observed_x := none
          confidence := 0.2
          requires_review := true }
        { runs_requested := 3, runs_used := 3, agreement := 0.42, score_spread := 0.6 }).score_total
    ∧ (applyUncertaintyPolicy 0.6 0.55
        { score_total := 6.5
          rubric_scores := { conditions := 2, modeling := 2, logic := 1, calculation := 1, final := 0.5 }
          mistakes := [{ type := mtAlgebraError, severity := sevMed, points_deducted := 1.5, evidence := "[step:s1][rule:RULE_EQUIV_TRANSFORM] 이항 과정에서 부호가 뒤집혔습니다.", fix_instruction := "이항할 때 부호를 바꾸세요.", location_hint := "2행", highlight := { mode := "tap", shape := "circle" } }]
          patch := { minimal_changes := [], patched_solution_brief := "" }
          next_checklist := []
          confidence := 0.4
          missing_info := []
          answer_verdict := ""
          answer_verdict_reason := "" }
        { steps := []
          findings := []
          expected_x := some 3
          observed_x := none
          confidence := 0.2
          requires_review := true }
        { runs_requested := 3, runs_used := 3, agreement := 0.42, score_spread := 0.6 }).score_total ≤ 8.8
    ∧ (applyUncertaintyPolicy 0.6 0.55
        { score_total := 6.5
          rubric_scores := { conditions := 2, modeling := 2, logic := 1, calculation := 1, final := 0.5 }
          mistakes := [{ type := mtAlgebraError, severity := sevMed, points_deducted := 1.5, evidence := "[step:s1][rule:RULE_EQUIV_TRANSFORM] 이항 과정에서 부호가 뒤집혔습니다.", fix_instruction := "이항할 때 부호를 바꾸세요.", location_hint := "2행", highlight := { mode := "tap", shape := "circle" } }]
          patch := { minimal_changes := [], patched_solution_brief := "" }
          next_checklist := []
          confidence := 0.4
          missing_info := []
          answer_verdict := ""
          answer_verdict_reason := "" }
        { steps := []
          findings := []
          expected_x := some 3
          observed_x := none
          confidence := 0.2
          requires_review := true }
        { runs_requested := 3, runs_used := 3, agreement := 0.42, score_spread := 0.6 }).next_checklist.head?
        = some "검토 필요 항목 우선 확인: 자동 감점은 보류됨" := by
  have h := c6_uncertainty_policy.2.2.2 0.6 0.55
    { score_total := 6.5
      rubric_scores := { conditions := 2, modeling := 2, logic := 1, calculation := 1, final := 0.5 }
      mistakes := [{ type := mtAlgebraError, severity := sevMed, points_deducted := 1.5, evidence := "[step:s1][rule:RULE_EQUIV_TRANSFORM] 이항 과정에서 부호가 뒤집혔습니다.", fix_instruction := "이항할 때 부호를 바꾸세요.", location_hint := "2행", highlight := { mode := "tap", shape := "circle" } }]
      patch := { minimal_changes := [], patched_solution_brief := "" }
      next_checklist := []
      confidence := 0.4
      missing_info := []
      answer_verdict := ""
      answer_verdict_reason := "" }
    { steps := []
      findings := []
      expected_x := some 3
      observed_x := none
      confidence := 0.2
      requires_review := true }
    { runs_requested := 3, runs_used := 3, agreement := 0.42, score_spread := 0.6 }
    (by with_unfolding_all rfl)
  exact ⟨h.2.1, h.2.2.1, h.2.2.2.1, h.2.2.2.2.2⟩

lemma mem_insertSorted {α : Type} {le : α → α → Bool} {x a : α} {l : List α} :
    a ∈ insertSorted le x l ↔ a = x ∨ a ∈ l := by
  induction l with
  | nil => simp [insertSorted]
  | cons y ys ih =>
    simp only [insertSorted]
    split
    · simp [List.mem_cons]
    · simp only [List.mem_cons, ih]
      tauto

lemma mem_stableSort {α : Type} {le : α → α → Bool} {a : α} {l : List α} :
    a ∈ stableSort le l ↔ a ∈ l := by
  induction l with
  | nil => simp [stableSort]
  | cons x xs ih => simp [stableSort, mem_insertSorted, ih]

lemma mem_sortMistakesByPointsDesc {m : Mistake} {l : List Mistake} :
    m ∈ sortMistakesByPointsDesc l ↔ m ∈ l := by
  simp [sortMistakesByPointsDesc, mem_stableSort]

lemma roundToTenth_int_div (k : ℤ) : roundToTenth ((k : ℚ) / 10) = (k : ℚ) / 10 := by
  unfold roundToTenth pyRound
  have h1 : ((k : ℚ) / 10 + 1 / 1000000000) * (10 : ℚ) ^ (1 : ℕ) + 1 / 2
      = (k : ℚ) + 50000001 / 100000000 := by
    ring
  rw [h1, Int.floor_int_add]
  have h2 : ⌊(50000001 / 100000000 : ℚ)⌋ = 0 := by
    rw [Int.floor_eq_zero_iff]
    constructor <;> norm_num
  rw [h2]
  norm_num

lemma sum_tenthMul (l : List Mistake)
    (h : ∀ m ∈ l, ∃ k : ℤ, m.points_deducted = (k : ℚ) / 10) :
    ∃ k : ℤ, ((l.map (·.points_deducted)).sum) = (k : ℚ) / 10 := by
  induction l with
  | nil => exact ⟨0, by simp⟩
  | cons m ms ih =>
    obtain ⟨k1, hk1⟩ := h m (List.mem_cons_self m ms)
    obtain ⟨k2, hk2⟩ := ih (fun x hx => h x (List.mem_cons_of_mem _ hx))
    refine ⟨k1 + k2, ?_⟩
    simp only [List.map_cons, List.sum_cons, hk1, hk2]
    push_cast
    ring

lemma clamp_nat_tenth (u : ℕ) :
    clampQ ((u : ℚ) / 10) 0 2 = ((min 20 (u : ℤ) : ℤ) : ℚ) / 10 := by
  unfold clampQ
  rw [show (2 : ℚ) = (20 : ℚ) / 10 by norm_num,
    min_div_div_right (by norm_num : (0 : ℚ) ≤ 10)]
  rw [max_eq_right (by positivity)]
  have : ((min 20 (u : ℤ) : ℤ) : ℚ) = min 20 (u : ℚ) := by
    push_cast
    rfl
  rw [this]

lemma min_two_nat_tenth (u : ℕ) :
    min (2 : ℚ) ((u : ℚ) / 10) = ((min 20 (u : ℤ) : ℤ) : ℚ) / 10 := by
  rw [show (2 : ℚ) = (20 : ℚ) / 10 by norm_num,
    min_div_div_right (by norm_num : (0 : ℚ) ≤ 10)]
  have : ((min 20 (u : ℤ) : ℤ) : ℚ) = min 20 (u : ℚ) := by
    push_cast
    rfl
  rw [this]

lemma minimalBalanceEntry_points (tu : ℕ) (htu : 0 < tu) :
    (∃ k : ℤ, (minimalBalanceEntry tu).points_deducted = (k : ℚ) / 10)
      ∧ (1 / 10 : ℚ) ≤ (minimalBalanceEntry tu).points_deducted
      ∧ (minimalBalanceEntry tu).points_deducted ≤ 2 := by
  have hpts : (minimalBalanceEntry tu).points_deducted = ((min 20 (tu : ℤ) : ℤ) : ℚ) / 10 := by
    show roundToTenth (min 2 ((tu : ℚ) / 10)) = _
    rw [min_two_nat_tenth, roundToTenth_int_div]
  have h1 : (1 : ℤ) ≤ min 20 (tu : ℤ) := by omega
  have h20 : min 20 (tu : ℤ) ≤ 20 := min_le_left _ _
  have h1q : (1 : ℚ) ≤ ((min 20 (tu : ℤ) : ℤ) : ℚ) := by exact_mod_cast h1
  have h20q : ((min 20 (tu : ℤ) : ℤ) : ℚ) ≤ 20 := by exact_mod_cast h20
  exact ⟨⟨_, hpts⟩, by rw [hpts]; linarith, by rw [hpts]; linarith⟩

lemma roundClamp_points (u : ℕ)
    (hge : ¬ roundToTenth (clampQ ((u : ℚ) / 10) 0 2) < 0.1) :
    (∃ k : ℤ, roundToTenth (clampQ ((u : ℚ) / 10) 0 2) = (k : ℚ) / 10)
      ∧ (1 / 10 : ℚ) ≤ roundToTenth (clampQ ((u : ℚ) / 10) 0 2)
      ∧ roundToTenth (clampQ ((u : ℚ) / 10) 0 2) ≤ 2 := by
  rw [clamp_nat_tenth, roundToTenth_int_div] at hge ⊢
  have h20 : min 20 (u : ℤ) ≤ 20 := min_le_left _ _
  have h20q : ((min 20 (u : ℤ) : ℤ) : ℚ) ≤ 20 := by exact_mod_cast h20
  have hge2 := not_lt.mp hge
  norm_num at hge2
  exact ⟨⟨_, rfl⟩, by linarith, by linarith⟩

lemma filterMap_units_points (N : List (ℕ × Mistake)) (U : List ℕ) :
    ∀ m ∈ N.filterMap (fun im =>
        if roundToTenth (clampQ ((U.getD im.1 0 : ℚ) / 10) 0 2) < 0.1 then none
        else some { im.2 with
          points_deducted := roundToTenth (clampQ ((U.getD im.1 0 : ℚ) / 10) 0 2)
          severity := higherSeverity im.2.severity
            (severityForPoints (roundToTenth (clampQ ((U.getD im.1 0 : ℚ) / 10) 0 2))) }),
      (∃ k : ℤ, m.points_deducted = (k : ℚ) / 10)
        ∧ (1 / 10 : ℚ) ≤ m.points_deducted ∧ m.points_deducted ≤ 2 := by
  intro m hm
  obtain ⟨im, _, heq⟩ := List.mem_filterMap.mp hm
  split at heq
  · exact absurd heq (by simp)
  · rename_i hge
    obtain rfl := Option.some.inj heq
    exact roundClamp_points _ hge

lemma take_if_minimal_points (F : List Mistake) (tu : ℕ) (htu : 0 < tu)
    (hF : ∀ m ∈ F, (∃ k : ℤ, m.points_deducted = (k : ℚ) / 10)
        ∧ (1 / 10 : ℚ) ≤ m.points_deducted ∧ m.points_deducted ≤ 2)
    (m : Mistake)
    (hm : m ∈ (if F.isEmpty && decide (0 < tu) then [minimalBalanceEntry tu] else F).take 20) :
    (∃ k : ℤ, m.points_deducted = (k : ℚ) / 10)
      ∧ (1 / 10 : ℚ) ≤ m.points_deducted ∧ m.points_deducted ≤ 2 := by
  have hm2 := List.mem_of_mem_take hm
  split at hm2
  · rw [List.mem_singleton] at hm2
    subst hm2
    exact minimalBalanceEntry_points tu htu
  · exact hF m hm2

lemma normalizeDeductionsToTarget_points (mistakes : List Mistake) (t : ℚ) :
    ∀ m ∈ normalizeDeductionsToTarget mistakes t,
      (∃ k : ℤ, m.points_deducted = (k : ℚ) / 10)
        ∧ (1 / 10 : ℚ) ≤ m.points_deducted ∧ m.points_deducted ≤ 2 := by
  intro m hm
  simp only [normalizeDeductionsToTarget] at hm
  split at hm
  · simp at hm
  · split at hm
    · simp at hm
    · rename_i hne hpos
      refine take_if_minimal_points _ _ ?_ (filterMap_units_points _ _) m hm
      omega

lemma balance_score_eq (taken : List Mistake)
    (hp : ∀ m ∈ taken, ∃ k : ℤ, m.points_deducted = (k : ℚ) / 10) :
    roundToTenth (10 - roundToTenth ((taken.map (·.points_deducted)).sum))
      = 10 - (taken.map (·.points_deducted)).sum := by
  obtain ⟨k, hk⟩ := sum_tenthMul taken hp
  rw [hk, roundToTenth_int_div]
  have h : (10 : ℚ) - (k : ℚ) / 10 = ((100 - k : ℤ) : ℚ) / 10 := by
    push_cast
    ring
  rw [h, roundToTenth_int_div]

lemma balance_round_sum (taken : List Mistake)
    (hp : ∀ m ∈ taken, ∃ k : ℤ, m.points_deducted = (k : ℚ) / 10) :
    roundToTenth (roundToTenth (10 - roundToTenth ((taken.map (·.points_deducted)).sum)))
      + roundToTenth ((taken.map (·.points_deducted)).sum) = 10 := by
  obtain ⟨k, hk⟩ := sum_tenthMul taken hp
  rw [hk, roundToTenth_int_div]
  have h : (10 : ℚ) - (k : ℚ) / 10 = ((100 - k : ℤ) : ℚ) / 10 := by
    push_cast
    ring
  rw [h, roundToTenth_int_div, roundToTenth_int_div]
  push_cast
  ring

lemma ensureMistakeCoverage_balancing (result : GradingResult) (report : VerificationReport)
    (h : ¬ (normalizeAnswerVerdict result.answer_verdict = avCorrect
        ∧ (report.findings.any fun f => !f.passed) = false)) :
    (ensureMistakeCoverage result report).score_total
        = 10 - (((ensureMistakeCoverage result report).mistakes.map (·.points_deducted)).sum)
      ∧ roundToTenth (ensureMistakeCoverage result report).score_total
          + roundToTenth (((ensureMistakeCoverage result report).mistakes.map
            (·.points_deducted)).sum) = 10
      ∧ (∀ m ∈ (ensureMistakeCoverage result report).mistakes,
          (∃ k : ℤ, m.points_deducted = (k : ℚ) / 10)
            ∧ (1 / 10 : ℚ) ≤ m.points_deducted ∧ m.points_deducted ≤ 2) := by
  have hb : (decide (normalizeAnswerVerdict result.answer_verdict = avCorrect)
      && !(report.findings.any fun f => !f.passed)) = false := by
    by_cases hv : normalizeAnswerVerdict result.answer_verdict = avCorrect
    · have hany : (report.findings.any fun f => !f.passed) = true := by
        by_contra hf
        exact h ⟨hv, Bool.eq_false_iff.mpr hf⟩
      simp [hany]
    · simp [hv]
  simp only [ensureMistakeCoverage, hb, Bool.false_eq_true, if_false]
  refine ⟨?_, ?_, ?_⟩
  · exact balance_score_eq _ (fun m hm =>
      (normalizeDeductionsToTarget_points _ _ m
        (mem_sortMistakesByPointsDesc.mp (List.mem_of_mem_take hm))).1)
  · exact balance_round_sum _ (fun m hm =>
      (normalizeDeductionsToTarget_points _ _ m
        (mem_sortMistakesByPointsDesc.mp (List.mem_of_mem_take hm))).1)
  · intro m hm
    exact normalizeDeductionsToTarget_points _ _ m
      (mem_sortMistakesByPointsDesc.mp (List.mem_of_mem_take hm))

lemma ensureMistakeCoverage_skip (result : GradingResult) (report : VerificationReport)
    (h1 : normalizeAnswerVerdict result.answer_verdict = avCorrect)
    (h2 : (report.findings.any fun f => !f.passed) = false) :
    (ensureMistakeCoverage result report).mistakes
        = (sortMistakesByPointsDesc (result.mistakes.filter
            (fun m => m.points_deducted > 0.04))).take 20
      ∧ (∀ m ∈ (ensureMistakeCoverage result report).mistakes, m ∈ result.mistakes)
      ∧ ((ensureMistakeCoverage result report).score_total = result.score_total
          ∨ (ensureMistakeCoverage result report).score_total
              = roundToTenth (clampQ (10 - roundToTenth
                  (((ensureMistakeCoverage result report).mistakes.map
                    (·.points_deducted)).sum)) 0 10)) := by
  have hb : (decide (normalizeAnswerVerdict result.answer_verdict = avCorrect)
      && !(report.findings.any fun f => !f.passed)) = true := by
    simp [h1, h2]
  have hmist : (ensureMistakeCoverage result report).mistakes
      = (sortMistakesByPointsDesc (result.mistakes.filter
          (fun m => m.points_deducted > 0.04))).take 20 := by
    simp only [ensureMistakeCoverage, hb, if_true, apply_ite GradingResult.mistakes]
    rw [ite_self, ite_self]
  refine ⟨hmist, ?_, ?_⟩
  · intro m hm
    rw [hmist] at hm
    exact (List.mem_filter.mp (mem_sortMistakesByPointsDesc.mp (List.mem_of_mem_take hm))).1
  · rw [hmist]
    simp only [ensureMistakeCoverage, hb, if_true, apply_ite GradingResult.score_total]
    split
    · left
      rfl
    · split
      · right
        rfl
      · left
        rfl

set_option maxHeartbeats 1000000 in
/-- C4 (amended): on the verified-correct skip path (verdict correct and no
failed verification finding) the Deduction Balancer generates no synthetic
entries — the output mistakes are exactly the positive-deduction input
mistakes sorted by points descending and capped at 20, every output mistake
is one of the input mistakes, and the score is either untouched or lowered
to the deduction ceiling.  On every other path the balancer recomputes
score_total = 10 − Σ(final deductions) exactly, so
round(score_total, 1) + round(Σ points_deducted, 1) = 10 (well within the
claimed ±0.05), and every surviving deduction is a multiple of 0.1 in
[0.1, 2].  The claim's unqualified balance identity is false on the skip
path (see the counterexample). -/
theorem c4_deduction_balancer :
    (∀ (result : GradingResult) (report : VerificationReport),
      normalizeAnswerVerdict result.answer_verdict = avCorrect →
      (report.findings.any fun f => !f.passed) = false →
        (ensureMistakeCoverage result report).mistakes
            = (sortMistakesByPointsDesc (result.mistakes.filter
                (fun m => m.points_deducted > 0.04))).take 20
          ∧ (∀ m ∈ (ensureMistakeCoverage result report).mistakes, m ∈ result.mistakes)
          ∧ ((ensureMistakeCoverage result report).score_total = result.score_total
              ∨ (ensureMistakeCoverage result report).score_total
                  = roundToTenth (clampQ (10 - roundToTenth
                      (((ensureMistakeCoverage result report).mistakes.map
                        (·.points_deducted)).sum)) 0 10)))
    ∧ (∀ (result : GradingResult) (report : VerificationReport),
      ¬ (normalizeAnswerVerdict result.answer_verdict = avCorrect
          ∧ (report.findings.any fun f => !f.passed) = false) →
        (ensureMistakeCoverage result report).score_total
            = 10 - (((ensureMistakeCoverage result report).mistakes.map
                (·.points_deducted)).sum)
          ∧ roundToTenth (ensureMistakeCoverage result report).score_total
              + roundToTenth (((ensureMistakeCoverage result report).mistakes.map
                (·.points_deducted)).sum) = 10
          ∧ (∀ m ∈ (ensureMistakeCoverage result report).mistakes,
              (∃ k : ℤ, m.points_deducted = (k : ℚ) / 10)
                ∧ (1 / 10 : ℚ) ≤ m.points_deducted ∧ m.points_deducted ≤ 2)) :=
  ⟨ensureMistakeCoverage_skip, ensureMistakeCoverage_balancing⟩

set_option maxRecDepth 4000 in
/-- C4 counterexample: a verified-correct result (no failed finding) with a
single 0.5-point mistake and score 9.0 passes the balancer unchanged, so
round(score_total, 1) + round(Σ points_deducted, 1) = 9.5, which misses the
claimed 10.0 by 0.5 — far outside ±0.05.  The balance identity therefore
does not hold for every result. -/
theorem c4_balance_counterexample :
    ¬ (|roundToTenth (ensureMistakeCoverage
        { score_total := 9.0
          rubric_scores := { conditions := 2, modeling := 2, logic := 2, calculation := 2, final := 1.5 }
          mistakes := [{ type := "ARITHMETIC_ERROR", severity := "low", points_deducted := 0.5, evidence := "[step:s2][rule:RULE_EQUIV_TRANSFORM] 마지막 줄 계산에서 소수점 처리 실수", fix_instruction := "소수점 자리를 다시 확인하세요.", location_hint := "3행", highlight := { mode := "tap", shape := "circle" } }]
          patch := { minimal_changes := [], patched_solution_brief := "" }
          next_checklist := ["최종 답 단위 확인"]
          confidence := 0.8
          missing_info := []
          answer_verdict := "correct"
          answer_verdict_reason := "" }
        { steps := []
          findings := []
          expected_x := none
          observed_x := none
          confidence := 0.5
          requires_review := false }).score_total
      + roundToTenth (((ensureMistakeCoverage
        { score_total := 9.0
          rubric_scores := { conditions := 2, modeling := 2, logic := 2, calculation := 2, final := 1.5 }
          mistakes := [{ type := "ARITHMETIC_ERROR", severity := "low", points_deducted := 0.5, evidence := "[step:s2][rule:RULE_EQUIV_TRANSFORM] 마지막 줄 계산에서 소수점 처리 실수", fix_instruction := "소수점 자리를 다시 확인하세요.", location_hint := "3행", highlight := { mode := "tap", shape := "circle" } }]
          patch := { minimal_changes := [], patched_solution_brief := "" }
          next_checklist := ["최종 답 단위 확인"]
          confidence := 0.8
          missing_info := []
          answer_verdict := "correct"
          answer_verdict_reason := "" }
        { steps := []
          findings := []
          expected_x := none
          observed_x := none
          confidence := 0.5
          requires_review := false }).mistakes.map (·.points_deducted)).sum) - 10| ≤ 1 / 20) := by
  with_unfolding_all decide

set_option maxRecDepth 4000 in
/-- C4 witness: a concrete balancing-path run (unknown verdict): the
recomputed score equals 10 minus the surviving deductions and the rounded
balance identity lands exactly on 10. -/
theorem c4_deduction_balancer_witness :
    (ensureMistakeCoverage
        { score_total := 7.3
          rubric_scores := { conditions := 2, modeling := 1.5, logic := 1.5, calculation := 1.5, final := 0.8 }
          mistakes := [{ type := "ALGEBRA_ERROR", severity := "med", points_deducted := 1.2, evidence := "[step:s1][rule:RULE_EQUIV_TRANSFORM] 이항 부호 오류", fix_instruction := "이항 시 부호를 바꾸세요.", location_hint := "2행", highlight := { mode := "tap", shape := "circle" } }]
          patch := { minimal_changes := [], patched_solution_brief := "" }
          next_checklist := []
          confidence := 0.6
          missing_info := []
          answer_verdict := ""
          answer_verdict_reason := "" }
        { steps := []
          findings := []
          expected_x := none
          observed_x := none
          confidence := 0.5
          requires_review := false }).score_total
      = 10 - (((ensureMistakeCoverage
        { score_total := 7.3
          rubric_scores := { conditions := 2, modeling := 1.5, logic := 1.5, calculation := 1.5, final := 0.8 }
          mistakes := [{ type := "ALGEBRA_ERROR", severity := "med", points_deducted := 1.2, evidence := "[step:s1][rule:RULE_EQUIV_TRANSFORM] 이항 부호 오류", fix_instruction := "이항 시 부호를 바꾸세요.", location_hint := "2행", highlight := { mode := "tap", shape := "circle" } }]
          patch := { minimal_changes := [], patched_solution_brief := "" }
          next_checklist := []
          confidence := 0.6
          missing_info := []
          answer_verdict := ""
          answer_verdict_reason := "" }
        { steps := []
          findings := []
          expected_x := none
          observed_x := none
          confidence := 0.5
          requires_review := false }).mistakes.map (·.points_deducted)).sum)
    ∧ roundToTenth (ensureMistakeCoverage
        { score_total := 7.3
          rubric_scores := { conditions := 2, modeling := 1.5, logic := 1.5, calculation := 1.5, final := 0.8 }
          mistakes := [{ type := "ALGEBRA_ERROR", severity := "med", points_deducted := 1.2, evidence := "[step:s1][rule:RULE_EQUIV_TRANSFORM] 이항 부호 오류", fix_instruction := "이항 시 부호를 바꾸세요.", location_hint := "2행", highlight := { mode := "tap", shape := "circle" } }]
          patch := { minimal_changes := [], patched_solution_brief := "" }
          next_checklist := []
          confidence := 0.6
          missing_info := []
          answer_verdict := ""
          answer_verdict_reason := "" }
        { steps := []
          findings := []
          expected_x := none
          observed_x := none
          confidence := 0.5
          requires_review := false }).score_total
      + roundToTenth (((ensureMistakeCoverage
        { score_total := 7.3
          rubric_scores := { conditions := 2, modeling := 1.5, logic := 1.5, calculation := 1.5, final := 0.8 }
          mistakes := [{ type := "ALGEBRA_ERROR", severity := "med", points_deducted := 1.2, evidence := "[step:s1][rule:RULE_EQUIV_TRANSFORM] 이항 부호 오류", fix_instruction := "이항 시 부호를 바꾸세요.", location_hint := "2행", highlight := { mode := "tap", shape := "circle" } }]
          patch := { minimal_changes := [], patched_solution_brief := "" }
          next_checklist := []
          confidence := 0.6
          missing_info := []
          answer_verdict := ""
          answer_verdict_reason := "" }
        { steps := []
          findings := []
          expected_x := none
          observed_x := none
          confidence := 0.5
          requires_review := false }).mistakes.map (·.points_deducted)).sum) = 10 := by
  have h := c4_deduction_balancer.2
    { score_total := 7.3
      rubric_scores := { conditions := 2, modeling := 1.5, logic := 1.5, calculation := 1.5, final := 0.8 }
      mistakes := [{ type := "ALGEBRA_ERROR", severity := "med", points_deducted := 1.2, evidence := "[step:s1][rule:RULE_EQUIV_TRANSFORM] 이항 부호 오류", fix_instruction := "이항 시 부호를 바꾸세요.", location_hint := "2행", highlight := { mode := "tap", shape := "circle" } }]
      patch := { minimal_changes := [], patched_solution_brief := "" }
      next_checklist := []
      confidence := 0.6
      missing_info := []
      answer_verdict := ""
      answer_verdict_reason := "" }
    { steps := []
      findings := []
      expected_x := none
      observed_x := none
      confidence := 0.5
      requires_review := false }
    (by with_unfolding_all decide)
  exact ⟨h.1, h.2.1⟩

lemma pyRound_nonneg (d : ℕ) {q : ℚ} (h : 0 ≤ q) : 0 ≤ pyRound d q := by
  unfold pyRound
  have hp : (0:ℚ) < (10:ℚ) ^ d := by positivity
  have h1 : (0:ℤ) ≤ ⌊q * (10:ℚ) ^ d + 1/2⌋ := by
    apply Int.floor_nonneg.mpr
    nlinarith
  have h2 : (0:ℚ) ≤ ((⌊q * (10:ℚ) ^ d + 1/2⌋ : ℤ) : ℚ) := by exact_mod_cast h1
  positivity

lemma pyRound_le_int (d : ℕ) (n : ℤ) {q : ℚ} (h : q ≤ n) : pyRound d q ≤ n := by
  unfold pyRound
  have hp : (0:ℚ) < (10:ℚ) ^ d := by positivity
  have hd : ∃ m : ℕ, ((10:ℚ) ^ d) = ((10 ^ d : ℤ) : ℚ) := ⟨d, by push_cast; ring⟩
  have h1 : ⌊q * (10:ℚ) ^ d + 1/2⌋ ≤ n * 10 ^ d := by
    have : q * (10:ℚ) ^ d + 1/2 ≤ ((n * 10 ^ d : ℤ) : ℚ) + 1/2 := by
      push_cast
      nlinarith
    calc ⌊q * (10:ℚ) ^ d + 1/2⌋ ≤ ⌊((n * 10 ^ d : ℤ) : ℚ) + 1/2⌋ := Int.floor_le_floor this
      _ = n * 10 ^ d + ⌊(1/2 : ℚ)⌋ := by rw [Int.floor_int_add]
      _ = n * 10 ^ d := by norm_num
  have h2 : ((⌊q * (10:ℚ) ^ d + 1/2⌋ : ℤ) : ℚ) ≤ ((n * 10 ^ d : ℤ) : ℚ) := by exact_mod_cast h1
  rw [div_le_iff hp]
  push_cast at h2 ⊢
  nlinarith

lemma int_le_pyRound (d : ℕ) (n : ℤ) {q : ℚ} (h : (n : ℚ) ≤ q) : (n : ℚ) ≤ pyRound d q := by
  unfold pyRound
  have hp : (0:ℚ) < (10:ℚ) ^ d := by positivity
  have h1 : n * 10 ^ d ≤ ⌊q * (10:ℚ) ^ d + 1/2⌋ := by
    apply Int.le_floor.mpr
    push_cast
    nlinarith
  have h2 : ((n * 10 ^ d : ℤ) : ℚ) ≤ ((⌊q * (10:ℚ) ^ d + 1/2⌋ : ℤ) : ℚ) := by exact_mod_cast h1
  rw [le_div_iff hp]
  push_cast at h2 ⊢
  nlinarith

lemma roundToTenth_nonneg {q : ℚ} (h : 0 ≤ q) : 0 ≤ roundToTenth q := by
  unfold roundToTenth
  exact pyRound_nonneg 1 (by linarith)

lemma roundToTenth_le_int (n : ℤ) {q : ℚ} (h : q ≤ n) : roundToTenth q ≤ n := by
  unfold roundToTenth pyRound
  have h1 : ⌊(q + 1/1000000000) * (10:ℚ) ^ (1:ℕ) + 1/2⌋ ≤ n * 10 := by
    have hle : (q + 1/1000000000) * (10:ℚ) ^ (1:ℕ) + 1/2 < ((n * 10 : ℤ) : ℚ) + 1 := by
      push_cast
      nlinarith
    have := Int.floor_le_floor (le_of_lt hle)
    have h2 : ⌊((n * 10 : ℤ) : ℚ) + 1⌋ = n * 10 + 1 := by
      rw [show ((n * 10 : ℤ) : ℚ) + 1 = ((n * 10 + 1 : ℤ) : ℚ) by push_cast; ring, Int.floor_intCast]
    have h3 := Int.lt_floor_add_one ((q + 1/1000000000) * (10:ℚ) ^ (1:ℕ) + 1/2)
    apply Int.lt_add_one_iff.mp
    rw [← h2]
    apply Int.floor_lt.mpr
    calc (q + 1/1000000000) * (10:ℚ) ^ (1:ℕ) + 1/2 < ((n * 10 : ℤ) : ℚ) + 1 := hle
      _ = ((⌊((n * 10 : ℤ) : ℚ) + 1⌋ : ℤ) : ℚ) := by rw [h2]; push_cast; ring
  have h2 : ((⌊(q + 1/1000000000) * (10:ℚ) ^ (1:ℕ) + 1/2⌋ : ℤ) : ℚ) ≤ ((n * 10 : ℤ) : ℚ) := by
    exact_mod_cast h1
  rw [div_le_iff (by norm_num : (0:ℚ) < (10:ℚ) ^ (1:ℕ))]
  push_cast at h2 ⊢
  nlinarith

lemma int_le_roundToTenth (n : ℤ) {q : ℚ} (h : (n : ℚ) ≤ q) : (n : ℚ) ≤ roundToTenth q := by
  unfold roundToTenth
  exact int_le_pyRound 1 n (by linarith)

lemma mistakeOfFailedFinding_points (steps : List ExtractedStep) (f : VerificationFinding) :
    0 ≤ (mistakeOfFailedFinding steps f).points_deducted
      ∧ (mistakeOfFailedFinding steps f).points_deducted ≤ 2 := by
  unfold mistakeOfFailedFinding
  dsimp only
  split <;> constructor <;> norm_num

lemma injectVerificationFindings_points (result : GradingResult) (report : VerificationReport)
    (h : ∀ m ∈ result.mistakes, 0 ≤ m.points_deducted ∧ m.points_deducted ≤ 2) :
    ∀ m ∈ (injectVerificationFindings result report).mistakes,
      0 ≤ m.points_deducted ∧ m.points_deducted ≤ 2 := by
  intro m hm
  simp only [injectVerificationFindings] at hm
  split at hm
  · exact h m hm
  · dsimp only at hm
    rcases List.mem_append.mp (List.mem_of_mem_take hm) with h1 | h2
    · obtain ⟨f, _, rfl⟩ := List.mem_map.mp h1
      exact mistakeOfFailedFinding_points _ _
    · exact h m h2

set_option maxHeartbeats 2000000 in
lemma gateOne_points (hvc : Bool) (steps : List ExtractedStep) (idx : ℕ) (m : Mistake)
    (missing : List String) (h0 : 0 ≤ m.points_deducted) (h2 : m.points_deducted ≤ 2) :
    0 ≤ (gateOne hvc steps idx m missing).1.points_deducted
      ∧ (gateOne hvc steps idx m missing).1.points_deducted ≤ 2 := by
  simp only [gateOne]
  repeat' split
  all_goals first
    | exact ⟨h0, h2⟩
    | exact ⟨by norm_num, by norm_num⟩

lemma snd_mem_of_mem_enum {α : Type} {p : ℕ × α} {l : List α} (h : p ∈ l.enum) : p.2 ∈ l := by
  rw [List.enum_eq_zip_range] at h
  exact (List.of_mem_zip h).2

set_option maxHeartbeats 1000000 in
lemma gateFold_points (hvc : Bool) (steps : List ExtractedStep) :
    ∀ (l : List (ℕ × Mistake)) (missing : List String),
      (∀ p ∈ l, 0 ≤ p.2.points_deducted ∧ p.2.points_deducted ≤ 2) →
      ∀ m ∈ (gateFold hvc steps l missing).1,
        0 ≤ m.points_deducted ∧ m.points_deducted ≤ 2 := by
  intro l
  induction l with
  | nil =>
    intro missing _ m hm
    simp [gateFold] at hm
  | cons p rest ih =>
    intro missing h m hm
    obtain ⟨idx, pm⟩ := p
    simp only [gateFold] at hm
    rcases hg : gateOne hvc steps idx pm missing with ⟨m2, mi2⟩
    rw [hg] at hm
    rcases hf : gateFold hvc steps rest mi2 with ⟨tail, mi3⟩
    rw [hf] at hm
    dsimp only at hm
    rcases List.mem_cons.mp hm with rfl | htail
    · have := gateOne_points hvc steps idx pm missing
        (h (idx, pm) (List.mem_cons_self _ _)).1 (h (idx, pm) (List.mem_cons_self _ _)).2
      rw [hg] at this
      exact this
    · have := ih mi2 (fun q hq => h q (List.mem_cons_of_mem _ hq)) m
      rw [hf] at this
      exact this htail

lemma enforceEvidenceGate_points (result : GradingResult) (report : VerificationReport)
    (h : ∀ m ∈ result.mistakes, 0 ≤ m.points_deducted ∧ m.points_deducted ≤ 2) :
    ∀ m ∈ (enforceEvidenceGate result report).mistakes,
      0 ≤ m.points_deducted ∧ m.points_deducted ≤ 2 := by
  intro m hm
  simp only [enforceEvidenceGate] at hm
  rcases hg : gateFold (!report.findings.isEmpty || !report.steps.isEmpty) report.steps
      result.mistakes.enum result.missing_info with ⟨adjusted, missing⟩
  rw [hg] at hm
  dsimp only at hm
  have hall := gateFold_points (!report.findings.isEmpty || !report.steps.isEmpty) report.steps
    result.mistakes.enum result.missing_info
    (fun p hp => h p.2 (snd_mem_of_mem_enum hp))
  rw [hg] at hall
  exact hall m (List.mem_of_mem_take hm)
set_option maxHeartbeats 1000000 in
lemma dedupeMerge_points (key : String × String) (existing m : Mistake)
    (he0 : 0 ≤ existing.points_deducted) (he2 : existing.points_deducted ≤ 2)
    (hm0 : 0 ≤ m.points_deducted) (hm2 : m.points_deducted ≤ 2) :
    0 ≤ (dedupeMerge key existing m).points_deducted
      ∧ (dedupeMerge key existing m).points_deducted ≤ 2 := by
  simp only [dedupeMerge]
  split
  · exact ⟨hm0, hm2⟩
  · exact ⟨le_max_of_le_left he0, max_le he2 hm2⟩

set_option maxHeartbeats 1000000 in
lemma dedupeGroup_points :
    ∀ (l : List Mistake) (acc : List ((String × String) × Mistake)),
      (∀ m ∈ l, 0 ≤ m.points_deducted ∧ m.points_deducted ≤ 2) →
      (∀ kv ∈ acc, 0 ≤ kv.2.points_deducted ∧ kv.2.points_deducted ≤ 2) →
      ∀ kv ∈ dedupeGroup l acc,
        0 ≤ kv.2.points_deducted ∧ kv.2.points_deducted ≤ 2 := by
  intro l
  induction l with
  | nil =>
    intro acc _ hacc kv hkv
    exact hacc kv (by simpa [dedupeGroup] using hkv)
  | cons x rest ih =>
    intro acc hl hacc kv hkv
    simp only [dedupeGroup] at hkv
    split at hkv
    · refine ih _ (fun m hm => hl m (List.mem_cons_of_mem _ hm)) ?_ kv hkv
      intro kv2 hkv2
      rcases List.mem_map.mp hkv2 with ⟨kv0, hkv0, heq⟩
      rw [← heq]
      split
      · exact dedupeMerge_points _ _ _ (hacc kv0 hkv0).1 (hacc kv0 hkv0).2
          (hl x (List.mem_cons_self _ _)).1 (hl x (List.mem_cons_self _ _)).2
      · exact hacc kv0 hkv0
    · refine ih _ (fun m hm => hl m (List.mem_cons_of_mem _ hm)) ?_ kv hkv
      intro kv2 hkv2
      rcases List.mem_append.mp hkv2 with h1 | h1
      · exact hacc kv2 h1
      · rw [List.mem_singleton] at h1
        rw [h1]
        exact ⟨(hl x (List.mem_cons_self _ _)).1, (hl x (List.mem_cons_self _ _)).2⟩

set_option maxHeartbeats 1000000 in
lemma dedupeMistakesByStepRule_points (result : GradingResult)
    (h : ∀ m ∈ result.mistakes, 0 ≤ m.points_deducted ∧ m.points_deducted ≤ 2) :
    ∀ m ∈ (dedupeMistakesByStepRule result).mistakes,
      0 ≤ m.points_deducted ∧ m.points_deducted ≤ 2 := by
  intro m hm
  simp only [dedupeMistakesByStepRule] at hm
  have hmem := mem_stableSort.mp (List.mem_of_mem_take hm)
  rcases List.mem_map.mp hmem with ⟨kv, hkv, rfl⟩
  exact dedupeGroup_points result.mistakes [] h (by simp) kv hkv

set_option maxHeartbeats 1000000 in
lemma capUpgradeFirst_points (failure : VerificationFinding) :
    ∀ (l : List Mistake),
      (∀ m ∈ l, 0 ≤ m.points_deducted ∧ m.points_deducted ≤ 2) →
      ∀ m ∈ capUpgradeFirst failure l,
        0 ≤ m.points_deducted ∧ m.points_deducted ≤ 2 := by
  intro l
  induction l with
  | nil =>
    intro _ m hm
    simp [capUpgradeFirst] at hm
  | cons x rest ih =>
    intro h m hm
    simp only [capUpgradeFirst] at hm
    split at hm
    · rcases List.mem_cons.mp hm with rfl | htail
      · refine ⟨le_max_of_le_left (h x (List.mem_cons_self _ _)).1, ?_⟩
        exact max_le (h x (List.mem_cons_self _ _)).2 (by norm_num)
      · exact h m (List.mem_cons_of_mem _ htail)
    · rcases List.mem_cons.mp hm with rfl | htail
      · exact h m (List.mem_cons_self _ _)
      · exact ih (fun q hq => h q (List.mem_cons_of_mem _ hq)) m htail

set_option maxHeartbeats 1000000 in
lemma applyVerifiedWrongFinalCap_points (result : GradingResult) (report : VerificationReport)
    (h : ∀ m ∈ result.mistakes, 0 ≤ m.points_deducted ∧ m.points_deducted ≤ 2) :
    ∀ m ∈ (applyVerifiedWrongFinalCap result report).mistakes,
      0 ≤ m.points_deducted ∧ m.points_deducted ≤ 2 := by
  intro m hm
  simp only [applyVerifiedWrongFinalCap] at hm
  split at hm
  · exact h m hm
  · dsimp only at hm
    have hmem := List.mem_of_mem_take hm
    split at hmem
    · exact capUpgradeFirst_points _ result.mistakes h m hmem
    · rcases List.mem_cons.mp hmem with rfl | htail
      · constructor <;> norm_num [capSyntheticMistake]
      · exact h m htail

lemma applyAnswerVerdictPolicy_mistakes (result : GradingResult) (report : VerificationReport) :
    (applyAnswerVerdictPolicy result report).mistakes = result.mistakes := rfl

lemma applyAnswerVerdictPolicy_confidence (result : GradingResult) (report : VerificationReport) :
    (applyAnswerVerdictPolicy result report).confidence = result.confidence := rfl

set_option maxHeartbeats 1000000 in
lemma applyUncertaintyPolicy_points (ut ma : ℚ) (result : GradingResult)
    (report : VerificationReport) (meta : ConsensusMeta)
    (h : ∀ m ∈ result.mistakes, 0 ≤ m.points_deducted ∧ m.points_deducted ≤ 2) :
    ∀ m ∈ (applyUncertaintyPolicy ut ma result report meta).mistakes,
      0 ≤ m.points_deducted ∧ m.points_deducted ≤ 2 := by
  by_cases hh : uncertaintyShouldHold ut ma
      (pyRound 2 (clampQ (result.confidence * 0.5 + report.confidence * 0.3
        + meta.agreement * 0.2) 0 1)) report meta = true
  · intro m hm
    obtain ⟨hz, _⟩ := (applyUncertaintyPolicy_of_hold ut ma result report meta hh).1 m hm
    rw [hz]
    constructor <;> norm_num
  · rw [applyUncertaintyPolicy_of_not_hold ut ma result report meta
      (Bool.eq_false_iff.mpr hh)]
    exact h

lemma pyOrQ_nonneg {v : ℚ} (d : ℚ) (hv : 0 ≤ v) (hd : 0 ≤ d) : 0 ≤ pyOrQ v d := by
  unfold pyOrQ
  split <;> assumption

lemma clampQ_nonneg (v hi : ℚ) : 0 ≤ clampQ v 0 hi := le_clampQ v 0 hi

lemma pyRound_clamp02_mem (d : ℕ) (v : ℚ) :
    0 ≤ pyRound d (clampQ v 0 2) ∧ pyRound d (clampQ v 0 2) ≤ 2 := by
  constructor
  · exact pyRound_nonneg d (le_clampQ v 0 2)
  · have h2 : clampQ v 0 2 ≤ ((2 : ℤ) : ℚ) := by
      exact_mod_cast clampQ_le_right v 0 2 (by norm_num)
    have := pyRound_le_int d 2 h2
    exact_mod_cast this

set_option maxHeartbeats 1000000 in
lemma applyVerifiedWrongFinalCap_bounds (result : GradingResult) (report : VerificationReport)
    (hs0 : 0 ≤ result.score_total) (hs10 : result.score_total ≤ 10)
    (hco0 : 0 ≤ result.rubric_scores.conditions) (hco2 : result.rubric_scores.conditions ≤ 2)
    (hmo0 : 0 ≤ result.rubric_scores.modeling) (hmo2 : result.rubric_scores.modeling ≤ 2)
    (hlo0 : 0 ≤ result.rubric_scores.logic) (hlo2 : result.rubric_scores.logic ≤ 2)
    (hca0 : 0 ≤ result.rubric_scores.calculation) (hca2 : result.rubric_scores.calculation ≤ 2)
    (hfi0 : 0 ≤ result.rubric_scores.final) (hfi2 : result.rubric_scores.final ≤ 2)
    (hc0 : 0 ≤ result.confidence) (hc1 : result.confidence ≤ 1) :
    (0 ≤ (applyVerifiedWrongFinalCap result report).score_total
      ∧ (applyVerifiedWrongFinalCap result report).score_total ≤ 10)
    ∧ (0 ≤ (applyVerifiedWrongFinalCap result report).rubric_scores.conditions
      ∧ (applyVerifiedWrongFinalCap result report).rubric_scores.conditions ≤ 2)
    ∧ (0 ≤ (applyVerifiedWrongFinalCap result report).rubric_scores.modeling
      ∧ (applyVerifiedWrongFinalCap result report).rubric_scores.modeling ≤ 2)
    ∧ (0 ≤ (applyVerifiedWrongFinalCap result report).rubric_scores.logic
      ∧ (applyVerifiedWrongFinalCap result report).rubric_scores.logic ≤ 2)
    ∧ (0 ≤ (applyVerifiedWrongFinalCap result report).rubric_scores.calculation
      ∧ (applyVerifiedWrongFinalCap result report).rubric_scores.calculation ≤ 2)
    ∧ (0 ≤ (applyVerifiedWrongFinalCap result report).rubric_scores.final
      ∧ (applyVerifiedWrongFinalCap result report).rubric_scores.final ≤ 2)
    ∧ (0 ≤ (applyVerifiedWrongFinalCap result report).confidence
      ∧ (applyVerifiedWrongFinalCap result report).confidence ≤ 1) := by
  simp only [applyVerifiedWrongFinalCap]
  split
  · exact ⟨⟨hs0, hs10⟩, ⟨hco0, hco2⟩, ⟨hmo0, hmo2⟩, ⟨hlo0, hlo2⟩, ⟨hca0, hca2⟩,
      ⟨hfi0, hfi2⟩, ⟨hc0, hc1⟩⟩
  · dsimp only
    have hfinal0 : (0:ℚ) ≤ min (pyOrQ result.rubric_scores.final 0.6) 0.8 :=
      le_min (pyOrQ_nonneg 0.6 hfi0 (by norm_num)) (by norm_num)
    have hfinal2 : min (pyOrQ result.rubric_scores.final 0.6) 0.8 ≤ 2 :=
      le_trans (min_le_right _ _) (by norm_num)
    have hlogic0 : (0:ℚ) ≤ min (pyOrQ result.rubric_scores.logic 1.1) 1.6 :=
      le_min (pyOrQ_nonneg 1.1 hlo0 (by norm_num)) (by norm_num)
    have hlogic2 : min (pyOrQ result.rubric_scores.logic 1.1) 1.6 ≤ 2 :=
      le_trans (min_le_right _ _) (by norm_num)
    have hcond := pyRound_clamp02_mem 0 (pyOrQ result.rubric_scores.conditions 1.2)
    refine ⟨?_, ?_, ?_, ?_, ?_, ?_, ?_⟩
    · constructor
      · apply pyRound_nonneg
        apply le_min
        apply le_min
        · apply pyOrQ_nonneg
          · split
            · norm_num
            · exact hs0
          · norm_num
        · have h1 := le_clampQ (pyOrQ result.rubric_scores.conditions 1.2) 0 2
          have h2 := le_clampQ (pyOrQ result.rubric_scores.modeling 1.2) 0 2
          have h3 := le_clampQ (pyOrQ result.rubric_scores.calculation 1.2) 0 2
          linarith
        · norm_num
      · have h7 : (min (min (pyOrQ (if pyOrQ result.score_total 10.0 > (7.0:ℚ) then (7.0:ℚ) else result.score_total) 7.0)
            (clampQ (pyOrQ result.rubric_scores.conditions 1.2) 0 2
              + clampQ (pyOrQ result.rubric_scores.modeling 1.2) 0 2
              + min (pyOrQ result.rubric_scores.logic 1.1) 1.6
              + clampQ (pyOrQ result.rubric_scores.calculation 1.2) 0 2
              + min (pyOrQ result.rubric_scores.final 0.6) 0.8)) 7.0) ≤ ((10:ℤ):ℚ) := by
          push_cast
          exact le_trans (min_le_right _ _) (by norm_num)
        have := pyRound_le_int 2 10 h7
        exact_mod_cast this
    · exact ⟨(le_clampQ _ 0 2), clampQ_le_right _ 0 2 (by norm_num)⟩
    · exact ⟨(le_clampQ _ 0 2), clampQ_le_right _ 0 2 (by norm_num)⟩
    · exact ⟨hlogic0, hlogic2⟩
    · exact ⟨(le_clampQ _ 0 2), clampQ_le_right _ 0 2 (by norm_num)⟩
    · exact ⟨hfinal0, hfinal2⟩
    · constructor
      · exact pyRound_nonneg 2 (le_min (pyOrQ_nonneg 0.7 hc0 (by norm_num)) (by norm_num))
      · have h1 : min (pyOrQ result.confidence 0.7) 0.72 ≤ ((1:ℤ):ℚ) := by
          push_cast
          exact le_trans (min_le_right _ _) (by norm_num)
        have := pyRound_le_int 2 1 h1
        exact_mod_cast this

lemma pyRound_le_two (d : ℕ) {q : ℚ} (h : q ≤ 2) : pyRound d q ≤ 2 := by
  have := pyRound_le_int d 2 (by exact_mod_cast h)
  exact_mod_cast this

set_option maxHeartbeats 1000000 in
lemma applyUncertaintyPolicy_rubric (ut ma : ℚ) (result : GradingResult)
    (report : VerificationReport) (meta : ConsensusMeta)
    (hco0 : 0 ≤ result.rubric_scores.conditions) (hco2 : result.rubric_scores.conditions ≤ 2)
    (hmo0 : 0 ≤ result.rubric_scores.modeling) (hmo2 : result.rubric_scores.modeling ≤ 2)
    (hlo0 : 0 ≤ result.rubric_scores.logic) (hlo2 : result.rubric_scores.logic ≤ 2)
    (hca0 : 0 ≤ result.rubric_scores.calculation) (hca2 : result.rubric_scores.calculation ≤ 2)
    (hfi0 : 0 ≤ result.rubric_scores.final) (hfi2 : result.rubric_scores.final ≤ 2) :
    (0 ≤ (applyUncertaintyPolicy ut ma result report meta).rubric_scores.conditions
      ∧ (applyUncertaintyPolicy ut ma result report meta).rubric_scores.conditions ≤ 2)
    ∧ (0 ≤ (applyUncertaintyPolicy ut ma result report meta).rubric_scores.modeling
      ∧ (applyUncertaintyPolicy ut ma result report meta).rubric_scores.modeling ≤ 2)
    ∧ (0 ≤ (applyUncertaintyPolicy ut ma result report meta).rubric_scores.logic
      ∧ (applyUncertaintyPolicy ut ma result report meta).rubric_scores.logic ≤ 2)
    ∧ (0 ≤ (applyUncertaintyPolicy ut ma result report meta).rubric_scores.calculation
      ∧ (applyUncertaintyPolicy ut ma result report meta).rubric_scores.calculation ≤ 2)
    ∧ (0 ≤ (applyUncertaintyPolicy ut ma result report meta).rubric_scores.final
      ∧ (applyUncertaintyPolicy ut ma result report meta).rubric_scores.final ≤ 2) := by
  simp only [applyUncertaintyPolicy]
  split
  · exact ⟨⟨hco0, hco2⟩, ⟨hmo0, hmo2⟩, ⟨hlo0, hlo2⟩, ⟨hca0, hca2⟩, ⟨hfi0, hfi2⟩⟩
  · simp only [apply_ite GradingResult.rubric_scores]
    by_cases h1 : (8.8:ℚ) < result.score_total
    · simp only [if_pos h1]
      rw [if_neg (by norm_num : ¬((8.8:ℚ) < 8.0))]
      split
      · refine ⟨?_, ?_, ?_, ?_, ?_⟩ <;>
          exact ⟨pyRound_nonneg 2 (le_clampQ _ 0 2),
            pyRound_le_two 2 (clampQ_le_right _ 0 2 (by norm_num))⟩
      · refine ⟨?_, ?_, ?_, ?_, ?_⟩ <;>
          exact ⟨le_min (by norm_num) (pyRound_nonneg 2 (by norm_num)), min_le_left _ _⟩
    · simp only [if_neg h1]
      by_cases h2 : result.score_total < (8.0:ℚ)
      · simp only [if_pos h2]
        exact ⟨⟨le_max_of_le_left hco0, max_le hco2 (pyRound_le_two 2 (by norm_num))⟩,
          ⟨le_max_of_le_left hmo0, max_le hmo2 (pyRound_le_two 2 (by norm_num))⟩,
          ⟨le_max_of_le_left hlo0, max_le hlo2 (pyRound_le_two 2 (by norm_num))⟩,
          ⟨le_max_of_le_left hca0, max_le hca2 (pyRound_le_two 2 (by norm_num))⟩,
          ⟨le_max_of_le_left hfi0, max_le hfi2 (pyRound_le_two 2 (by norm_num))⟩⟩
      · simp only [if_neg h2]
        exact ⟨⟨hco0, hco2⟩, ⟨hmo0, hmo2⟩, ⟨hlo0, hlo2⟩, ⟨hca0, hca2⟩, ⟨hfi0, hfi2⟩⟩

set_option maxHeartbeats 1000000 in
lemma rescaleRubricToScore_bounds (rubric : RubricScores) (score_total : ℚ) (verdict : String) :
    (0 ≤ (rescaleRubricToScore rubric score_total verdict).conditions
      ∧ (rescaleRubricToScore rubric score_total verdict).conditions ≤ 2)
    ∧ (0 ≤ (rescaleRubricToScore rubric score_total verdict).modeling
      ∧ (rescaleRubricToScore rubric score_total verdict).modeling ≤ 2)
    ∧ (0 ≤ (rescaleRubricToScore rubric score_total verdict).logic
      ∧ (rescaleRubricToScore rubric score_total verdict).logic ≤ 2)
    ∧ (0 ≤ (rescaleRubricToScore rubric score_total verdict).calculation
      ∧ (rescaleRubricToScore rubric score_total verdict).calculation ≤ 2)
    ∧ (0 ≤ (rescaleRubricToScore rubric score_total verdict).final
      ∧ (rescaleRubricToScore rubric score_total verdict).final ≤ 2) := by
  simp only [rescaleRubricToScore]
  have hb : ∀ v : ℚ, 0 ≤ pyRound 2 (clampQ v 0 2) ∧ pyRound 2 (clampQ v 0 2) ≤ 2 :=
    fun v => ⟨pyRound_nonneg 2 (le_clampQ v 0 2),
      pyRound_le_two 2 (clampQ_le_right v 0 2 (by norm_num))⟩
  by_cases hinc : verdict = avIncorrect
  · have hcorr : ¬ verdict = avCorrect := by
      rw [hinc]
      decide
    by_cases hsum : rubric.conditions + rubric.modeling + rubric.logic
        + rubric.calculation + rubric.final ≤ 0
    · simp only [if_pos hsum, if_pos hinc, if_neg hcorr]
      exact ⟨hb _, hb _, hb _, hb _,
        ⟨le_min (hb _).1 (by norm_num), le_trans (min_le_right _ _) (by norm_num)⟩⟩
    · simp only [if_neg hsum, if_pos hinc, if_neg hcorr]
      exact ⟨hb _, hb _, hb _, hb _,
        ⟨le_min (hb _).1 (by norm_num), le_trans (min_le_right _ _) (by norm_num)⟩⟩
  · by_cases hcorr : verdict = avCorrect
    · by_cases hsum : rubric.conditions + rubric.modeling + rubric.logic
          + rubric.calculation + rubric.final ≤ 0
      · simp only [if_pos hsum, if_neg hinc, if_pos hcorr]
        exact ⟨hb _, hb _, hb _, hb _,
          ⟨le_max_of_le_right (by norm_num), max_le (hb _).2 (by norm_num)⟩⟩
      · simp only [if_neg hsum, if_neg hinc, if_pos hcorr]
        exact ⟨hb _, hb _, hb _, hb _,
          ⟨le_max_of_le_right (by norm_num), max_le (hb _).2 (by norm_num)⟩⟩
    · by_cases hsum : rubric.conditions + rubric.modeling + rubric.logic
          + rubric.calculation + rubric.final ≤ 0
      · simp only [if_pos hsum, if_neg hinc, if_neg hcorr]
        exact ⟨hb _, hb _, hb _, hb _, hb _⟩
      · simp only [if_neg hsum, if_neg hinc, if_neg hcorr]
        exact ⟨hb _, hb _, hb _, hb _, hb _⟩

set_option maxHeartbeats 1000000 in
lemma targetScore_bounds (verdict : String) (lq cs : ℚ) (h0 : 0 ≤ cs) (h10 : cs ≤ 10) :
    0 ≤ (if verdict = avCorrect then
          (let t := pyRound 2 (clampQ (7 + lq * 3) 7 10)
           if 7 ≤ cs && cs ≤ 10 && cs > t then cs else t)
        else if verdict = avIncorrect then
          (let t := pyRound 2 (clampQ (lq * 7) 0 7)
           if cs < t then cs else t)
        else pyRound 2 (clampQ cs 0 10))
      ∧ (if verdict = avCorrect then
          (let t := pyRound 2 (clampQ (7 + lq * 3) 7 10)
           if 7 ≤ cs && cs ≤ 10 && cs > t then cs else t)
        else if verdict = avIncorrect then
          (let t := pyRound 2 (clampQ (lq * 7) 0 7)
           if cs < t then cs else t)
        else pyRound 2 (clampQ cs 0 10)) ≤ 10 := by
  have h7t : ((7:ℤ):ℚ) ≤ pyRound 2 (clampQ (7 + lq * 3) 7 10) :=
    int_le_pyRound 2 7 (by exact_mod_cast le_clampQ _ 7 10)
  have h10t : pyRound 2 (clampQ (7 + lq * 3) 7 10) ≤ ((10:ℤ):ℚ) :=
    pyRound_le_int 2 10 (by exact_mod_cast clampQ_le_right _ 7 10 (by norm_num))
  have h0t : (0:ℚ) ≤ pyRound 2 (clampQ (lq * 7) 0 7) :=
    pyRound_nonneg 2 (le_clampQ _ 0 7)
  have h7t2 : pyRound 2 (clampQ (lq * 7) 0 7) ≤ ((7:ℤ):ℚ) :=
    pyRound_le_int 2 7 (by exact_mod_cast clampQ_le_right _ 0 7 (by norm_num))
  have h0u : (0:ℚ) ≤ pyRound 2 (clampQ cs 0 10) :=
    pyRound_nonneg 2 (le_clampQ _ 0 10)
  have h10u : pyRound 2 (clampQ cs 0 10) ≤ ((10:ℤ):ℚ) :=
    pyRound_le_int 2 10 (by exact_mod_cast clampQ_le_right _ 0 10 (by norm_num))
  push_cast at h7t h10t h7t2 h10u
  dsimp only
  split
  · split
    · exact ⟨h0, h10⟩
    · exact ⟨by linarith, h10t⟩
  · split
    · split
      · rename_i hlt
        exact ⟨h0, by linarith⟩
      · exact ⟨h0t, by linarith⟩
    · exact ⟨h0u, h10u⟩

set_option maxHeartbeats 1000000 in
lemma applyAnswerVerdictPolicy_score (result : GradingResult) (report : VerificationReport)
    (hs0 : 0 ≤ result.score_total) (hs10 : result.score_total ≤ 10) :
    0 ≤ (applyAnswerVerdictPolicy result report).score_total
      ∧ (applyAnswerVerdictPolicy result report).score_total ≤ 10 := by
  simp only [applyAnswerVerdictPolicy]
  exact targetScore_bounds _ _ _ hs0 hs10

set_option maxHeartbeats 1000000 in
lemma applyAnswerVerdictPolicy_rubric (result : GradingResult) (report : VerificationReport) :
    (0 ≤ (applyAnswerVerdictPolicy result report).rubric_scores.conditions
      ∧ (applyAnswerVerdictPolicy result report).rubric_scores.conditions ≤ 2)
    ∧ (0 ≤ (applyAnswerVerdictPolicy result report).rubric_scores.modeling
      ∧ (applyAnswerVerdictPolicy result report).rubric_scores.modeling ≤ 2)
    ∧ (0 ≤ (applyAnswerVerdictPolicy result report).rubric_scores.logic
      ∧ (applyAnswerVerdictPolicy result report).rubric_scores.logic ≤ 2)
    ∧ (0 ≤ (applyAnswerVerdictPolicy result report).rubric_scores.calculation
      ∧ (applyAnswerVerdictPolicy result report).rubric_scores.calculation ≤ 2)
    ∧ (0 ≤ (applyAnswerVerdictPolicy result report).rubric_scores.final
      ∧ (applyAnswerVerdictPolicy result report).rubric_scores.final ≤ 2) := by
  simp only [applyAnswerVerdictPolicy]
  exact rescaleRubricToScore_bounds _ _ _

lemma applyUncertaintyPolicy_score_bounds (ut ma : ℚ) (result : GradingResult)
    (report : VerificationReport) (meta : ConsensusMeta)
    (hs0 : 0 ≤ result.score_total) (hs10 : result.score_total ≤ 10) :
    0 ≤ (applyUncertaintyPolicy ut ma result report meta).score_total
      ∧ (applyUncertaintyPolicy ut ma result report meta).score_total ≤ 10 := by
  by_cases hh : uncertaintyShouldHold ut ma
      (pyRound 2 (clampQ (result.confidence * 0.5 + report.confidence * 0.3
        + meta.agreement * 0.2) 0 1)) report meta = true
  · have h := applyUncertaintyPolicy_of_hold ut ma result report meta hh
    exact ⟨by linarith [h.2.2.1], by linarith [h.2.2.2.1]⟩
  · rw [applyUncertaintyPolicy_of_not_hold ut ma result report meta (Bool.eq_false_iff.mpr hh)]
    exact ⟨hs0, hs10⟩

lemma applyUncertaintyPolicy_confidence_bounds (ut ma : ℚ) (result : GradingResult)
    (report : VerificationReport) (meta : ConsensusMeta) :
    0 ≤ (applyUncertaintyPolicy ut ma result report meta).confidence
      ∧ (applyUncertaintyPolicy ut ma result report meta).confidence ≤ 1 := by
  rw [applyUncertaintyPolicy_confidence]
  constructor
  · exact pyRound_nonneg 2 (le_clampQ _ 0 1)
  · have h1 := pyRound_le_int 2 1 (by
      exact_mod_cast clampQ_le_right _ 0 1 (by norm_num) :
        clampQ (result.confidence * 0.5 + report.confidence * 0.3 + meta.agreement * 0.2) 0 1
          ≤ ((1:ℤ):ℚ))
    exact_mod_cast h1

set_option maxHeartbeats 1000000 in
lemma ensureMistakeCoverage_rubric (result : GradingResult) (report : VerificationReport) :
    (ensureMistakeCoverage result report).rubric_scores = result.rubric_scores := by
  simp only [ensureMistakeCoverage, apply_ite GradingResult.rubric_scores]
  split
  · rw [ite_self, ite_self]
  · rfl

set_option maxHeartbeats 1000000 in
lemma ensureMistakeCoverage_conf (result : GradingResult) (report : VerificationReport) :
    (ensureMistakeCoverage result report).confidence = result.confidence := by
  simp only [ensureMistakeCoverage, apply_ite GradingResult.confidence]
  split
  · rw [ite_self, ite_self]
  · rfl

set_option maxHeartbeats 1000000 in
lemma ensureMistakeCoverage_len (result : GradingResult) (report : VerificationReport) :
    (ensureMistakeCoverage result report).mistakes.length ≤ 20 := by
  simp only [ensureMistakeCoverage, apply_ite GradingResult.mistakes]
  split
  · rw [ite_self, ite_self]
    exact List.length_take_le _ _
  · exact List.length_take_le _ _

lemma reconcileScoreFromDeductions_mistakes (result : GradingResult) :
    (reconcileScoreFromDeductions result).mistakes = result.mistakes := by
  simp only [reconcileScoreFromDeductions]
  split
  · rfl
  · rfl

lemma reconcileScoreFromDeductions_conf (result : GradingResult) :
    (reconcileScoreFromDeductions result).confidence = result.confidence := by
  simp only [reconcileScoreFromDeductions]
  split
  · rfl
  · rfl

set_option maxHeartbeats 1000000 in
lemma reconcileScoreFromDeductions_bounds (result : GradingResult)
    (hs0 : 0 ≤ result.score_total) (hs10 : result.score_total ≤ 10)
    (hco0 : 0 ≤ result.rubric_scores.conditions) (hco2 : result.rubric_scores.conditions ≤ 2)
    (hmo0 : 0 ≤ result.rubric_scores.modeling) (hmo2 : result.rubric_scores.modeling ≤ 2)
    (hlo0 : 0 ≤ result.rubric_scores.logic) (hlo2 : result.rubric_scores.logic ≤ 2)
    (hca0 : 0 ≤ result.rubric_scores.calculation) (hca2 : result.rubric_scores.calculation ≤ 2)
    (hfi0 : 0 ≤ result.rubric_scores.final) (hfi2 : result.rubric_scores.final ≤ 2) :
    (0 ≤ (reconcileScoreFromDeductions result).score_total
      ∧ (reconcileScoreFromDeductions result).score_total ≤ 10)
    ∧ (0 ≤ (reconcileScoreFromDeductions result).rubric_scores.conditions
      ∧ (reconcileScoreFromDeductions result).rubric_scores.conditions ≤ 2)
    ∧ (0 ≤ (reconcileScoreFromDeductions result).rubric_scores.modeling
      ∧ (reconcileScoreFromDeductions result).rubric_scores.modeling ≤ 2)
    ∧ (0 ≤ (reconcileScoreFromDeductions result).rubric_scores.logic
      ∧ (reconcileScoreFromDeductions result).rubric_scores.logic ≤ 2)
    ∧ (0 ≤ (reconcileScoreFromDeductions result).rubric_scores.calculation
      ∧ (reconcileScoreFromDeductions result).rubric_scores.calculation ≤ 2)
    ∧ (0 ≤ (reconcileScoreFromDeductions result).rubric_scores.final
      ∧ (reconcileScoreFromDeductions result).rubric_scores.final ≤ 2) := by
  have hceil0 : (0:ℚ) ≤ roundToTenth (clampQ (10 -
      (result.mistakes.map (·.points_deducted)).sum) 0 10) :=
    roundToTenth_nonneg (le_clampQ _ 0 10)
  have hceil10 : roundToTenth (clampQ (10 -
      (result.mistakes.map (·.points_deducted)).sum) 0 10) ≤ ((10:ℤ):ℚ) :=
    roundToTenth_le_int 10 (by exact_mod_cast clampQ_le_right _ 0 10 (by norm_num))
  push_cast at hceil10
  have hb : ∀ v : ℚ, 0 ≤ pyRound 2 (clampQ v 0 2) ∧ pyRound 2 (clampQ v 0 2) ≤ 2 :=
    fun v => ⟨pyRound_nonneg 2 (le_clampQ v 0 2),
      pyRound_le_two 2 (clampQ_le_right v 0 2 (by norm_num))⟩
  simp only [reconcileScoreFromDeductions]
  split
  · exact ⟨⟨hs0, hs10⟩, ⟨hco0, hco2⟩, ⟨hmo0, hmo2⟩, ⟨hlo0, hlo2⟩, ⟨hca0, hca2⟩, ⟨hfi0, hfi2⟩⟩
  · refine ⟨⟨hceil0, hceil10⟩, ?_⟩
    split
    · exact ⟨hb _, hb _, hb _, hb _, hb _⟩
    · have hpb0 : (0:ℚ) ≤ min 2 (pyRound 2 (roundToTenth (clampQ (10 -
          (result.mistakes.map (·.points_deducted)).sum) 0 10) / 5)) :=
        le_min (by norm_num) (pyRound_nonneg 2 (by positivity))
      have hpb2 : min 2 (pyRound 2 (roundToTenth (clampQ (10 -
          (result.mistakes.map (·.points_deducted)).sum) 0 10) / 5)) ≤ 2 := min_le_left _ _
      exact ⟨⟨hpb0, hpb2⟩, ⟨hpb0, hpb2⟩, ⟨hpb0, hpb2⟩, ⟨hpb0, hpb2⟩, ⟨hpb0, hpb2⟩⟩

lemma sum_set_succ_le (l : List ℕ) (i : ℕ) :
    (l.set i (l.getD i 0 + 1)).sum ≤ l.sum + 1 := by
  induction l generalizing i with
  | nil => simp
  | cons x xs ih =>
    cases i with
    | zero =>
      simp [List.getD]
      omega
    | succ n =>
      simp only [List.set, List.sum_cons, List.getD_cons_succ]
      have := ih n
      omega

lemma sum_set_pred (l : List ℕ) (i : ℕ) (h : 0 < l.getD i 0) :
    (l.set i (l.getD i 0 - 1)).sum + 1 = l.sum := by
  induction l generalizing i with
  | nil => simp [List.getD] at h
  | cons x xs ih =>
    cases i with
    | zero =>
      simp only [List.getD_cons_zero] at h
      simp [List.getD]
      omega
    | succ n =>
      simp only [List.getD_cons_succ] at h
      simp only [List.set, List.sum_cons, List.getD_cons_succ]
      have := ih n h
      omega

lemma length_set_eq (l : List ℕ) (i v : ℕ) : (l.set i v).length = l.length :=
  List.length_set ..

lemma deficitPassGo_sum (order : List ℕ) :
    ∀ (u : List ℕ) (d : ℕ) (mv : Bool), 1 ≤ d →
      (deficitPassGo order u d mv).1.sum + (deficitPassGo order u d mv).2.1 ≤ u.sum + d := by
  induction order with
  | nil =>
    intro u d mv h
    simp [deficitPassGo]
  | cons idx rest ih =>
    intro u d mv h
    simp only [deficitPassGo]
    split
    · exact ih u d mv h
    · split
      · rename_i hz
        have h1 := sum_set_succ_le u idx
        simp only
        omega
      · rename_i hz
        have h1 := sum_set_succ_le u idx
        have h2 := ih (u.set idx (u.getD idx 0 + 1)) (d - 1) true (by omega)
        omega

lemma deficitLoop_sum (order : List ℕ) :
    ∀ (fuel : ℕ) (u : List ℕ) (d : ℕ),
      (deficitLoop order fuel u d).sum ≤ u.sum + d := by
  intro fuel
  induction fuel with
  | zero =>
    intro u d
    simp [deficitLoop]
  | succ n ih =>
    intro u d
    simp only [deficitLoop]
    split
    · simp
    · rename_i hd
      rcases hp : deficitPassGo order u d false with ⟨u2, d2, moved⟩
      have hps := deficitPassGo_sum order u d false (by omega)
      rw [hp] at hps
      dsimp only at hps ⊢
      split
      · omega
      · split
        · omega
        · have := ih u2 d2
          omega

lemma sum_eq_zero_of_getD (l : List ℕ) (h : ∀ i, i < l.length → l.getD i 0 = 0) :
    l.sum = 0 := by
  induction l with
  | nil => rfl
  | cons x xs ih =>
    have h0 := h 0 (by simp)
    simp only [List.getD_cons_zero] at h0
    have hrest : ∀ i, i < xs.length → xs.getD i 0 = 0 := by
      intro i hi
      have := h (i + 1) (by simpa using Nat.succ_lt_succ hi)
      simpa using this
    simp [h0, ih hrest]

lemma overflowPassGo_props (order : List ℕ) :
    ∀ (u : List ℕ) (o : ℕ) (mv : Bool), 1 ≤ o →
      ((overflowPassGo order u o mv).1.sum + o
          = u.sum + (overflowPassGo order u o mv).2.1)
      ∧ (overflowPassGo order u o mv).2.1 ≤ o
      ∧ (overflowPassGo order u o mv).1.length = u.length
      ∧ (mv = true → (overflowPassGo order u o mv).2.2 = true)
      ∧ ((overflowPassGo order u o mv).2.2 = false →
          (overflowPassGo order u o mv).1 = u
            ∧ (overflowPassGo order u o mv).2.1 = o
            ∧ ∀ idx ∈ order, u.getD idx 0 = 0)
      ∧ (mv = false → (overflowPassGo order u o mv).2.2 = true →
          (overflowPassGo order u o mv).2.1 < o) := by
  induction order with
  | nil =>
    intro u o mv h
    refine ⟨rfl, le_refl o, rfl, fun h2 => h2, fun hf => ⟨rfl, rfl, by simp⟩, ?_⟩
    intro h1 h2
    rw [h1] at h2
    simp [overflowPassGo] at h2
  | cons idx rest ih =>
    intro u o mv h
    simp only [overflowPassGo]
    split
    · rename_i hz
      have hres := ih u o mv h
      refine ⟨hres.1, hres.2.1, hres.2.2.1, hres.2.2.2.1, ?_, hres.2.2.2.2.2⟩
      intro hf
      obtain ⟨he, ho, hall⟩ := hres.2.2.2.2.1 hf
      refine ⟨he, ho, ?_⟩
      intro j hj
      rcases List.mem_cons.mp hj with rfl | hj2
      · exact hz
      · exact hall j hj2
    · rename_i hz
      have hpos : 0 < u.getD idx 0 := Nat.pos_of_ne_zero hz
      have hset := sum_set_pred u idx hpos
      have hlen := length_set_eq u idx (u.getD idx 0 - 1)
      split
      · rename_i ho1
        have ho : o = 1 := by omega
        dsimp only
        refine ⟨by omega, by omega, hlen, fun _ => rfl, ?_, fun _ h2 => by omega⟩
        intro hf
        exact absurd hf (by simp)
      · rename_i ho1
        have h1 : 1 ≤ o - 1 := by omega
        have hres := ih (u.set idx (u.getD idx 0 - 1)) (o - 1) true h1
        rw [hlen] at hres
        refine ⟨by omega, by omega, hres.2.2.1, fun _ => hres.2.2.2.1 rfl, ?_, ?_⟩
        · intro hf
          exact absurd (hres.2.2.2.1 rfl) (by rw [hf]; simp)
        · intro _ _
          have := hres.2.1
          omega

lemma overflowLoop_sum (order : List ℕ) (n : ℕ) (hcov : ∀ i, i < n → i ∈ order) :
    ∀ (fuel : ℕ) (u : List ℕ) (o : ℕ), u.length = n → o ≤ fuel →
      ((overflowLoop order fuel u o).sum + o ≤ u.sum
        ∨ (overflowLoop order fuel u o).sum = 0) := by
  intro fuel
  induction fuel with
  | zero =>
    intro u o hlen hf
    have : o = 0 := by omega
    subst this
    simp [overflowLoop]
  | succ k ih =>
    intro u o hlen hf
    simp only [overflowLoop]
    split
    · rename_i h0
      subst h0
      left
      omega
    · rename_i h0
      have h1 : 1 ≤ o := by omega
      rcases hp : overflowPassGo order u o false with ⟨u2, o2, moved⟩
      have hps := overflowPassGo_props order u o false h1
      rw [hp] at hps
      dsimp only at hps ⊢
      obtain ⟨heq, hle, hlen2, _, hstuck, hprog⟩ := hps
      split
      · rename_i hmv
        have hmf : moved = false := by
          revert hmv
          cases moved <;> simp
        obtain ⟨he, ho, hall⟩ := hstuck hmf
        right
        rw [he]
        apply sum_eq_zero_of_getD
        intro i hi
        exact hall i (hcov i (by omega))
      · rename_i hmv
        have hmt : moved = true := by
          revert hmv
          cases moved <;> simp
        split
        · left
          omega
        · rename_i ho2
          have hlt : o2 < o := hprog rfl hmt
          have := ih u2 o2 (by omega) (by omega)
          rcases this with hl | hr
          · left
            omega
          · right
            exact hr

lemma length_foldl_set (idxs : List ℕ) (v : ℕ → ℚ) :
    ∀ l : List ℚ, (idxs.foldl (fun acc idx => acc.set idx (v idx)) l).length = l.length := by
  induction idxs with
  | nil => intro l; rfl
  | cons i is ih =>
    intro l
    simp only [List.foldl_cons]
    rw [ih (l.set i (v i)), List.length_set]

lemma allocLoopGo_length (weights : List ℚ) (safeCap : ℚ) :
    ∀ (fuel : ℕ) (allocations : List ℚ) (rt : ℚ) (rem : List ℕ),
      (allocLoopGo weights safeCap fuel allocations rt rem).length = allocations.length := by
  intro fuel
  induction fuel with
  | zero => intro a rt rem; rfl
  | succ k ih =>
    intro a rt rem
    simp only [allocLoopGo]
    split
    · rfl
    · split
      · exact length_foldl_set rem _ a
      · split
        · rw [ih]
          exact length_foldl_set _ _ a
        · exact length_foldl_set rem _ a

lemma allocateWeightedWithCap_length (weights : List ℚ) (target cap : ℚ) :
    (allocateWeightedWithCap weights target cap).length = weights.length := by
  simp only [allocateWeightedWithCap]
  split
  · rename_i he
    rw [List.isEmpty_iff] at he
    simp [he]
  · rw [allocLoopGo_length, List.length_replicate]

lemma sum_div_const {α : Type} (L : List α) (f : α → ℚ) (c : ℚ) :
    (L.map (fun x => f x / c)).sum = (L.map f).sum / c := by
  induction L with
  | nil => simp
  | cons x xs ih =>
    simp only [List.map_cons, List.sum_cons, ih]
    ring

lemma sum_map_cast {α : Type} (L : List α) (g : α → ℕ) :
    (L.map (fun x => ((g x : ℕ) : ℚ))).sum = (((L.map g).sum : ℕ) : ℚ) := by
  induction L with
  | nil => simp
  | cons x xs ih =>
    simp only [List.map_cons, List.sum_cons, ih]
    push_cast
    ring

lemma sum_range_getD (U : List ℕ) : ∀ n : ℕ,
    ((List.range n).map (fun i => U.getD i 0)).sum = (U.take n).sum := by
  intro n
  induction n with
  | zero => simp
  | succ k ih =>
    rw [List.range_succ, List.map_append, List.sum_append, ih, List.take_succ]
    simp only [List.map_cons, List.map_nil, List.sum_cons, List.sum_nil]
    cases hk : U[k]? with
    | none => simp [List.getD, hk]
    | some a => simp [List.getD, hk]

lemma sum_take_le_nat (U : List ℕ) (n : ℕ) : (U.take n).sum ≤ U.sum := by
  have h := congrArg List.sum (List.take_append_drop n U)
  rw [List.sum_append] at h
  omega

lemma sum_filterMap_le_map {α : Type} (L : List α) (f : α → Option Mistake) (g : α → ℚ)
    (hg : ∀ x ∈ L, 0 ≤ g x)
    (hf : ∀ x ∈ L, ∀ y, f x = some y → y.points_deducted ≤ g x) :
    ((L.filterMap f).map (·.points_deducted)).sum ≤ (L.map g).sum := by
  induction L with
  | nil => simp
  | cons x xs ih =>
    have ihx := ih (fun z hz => hg z (List.mem_cons_of_mem _ hz))
      (fun z hz => hf z (List.mem_cons_of_mem _ hz))
    cases hfx : f x with
    | none =>
      simp only [List.filterMap_cons, hfx, List.map_cons, List.sum_cons]
      have := hg x (List.mem_cons_self _ _)
      linarith
    | some y =>
      simp only [List.filterMap_cons, hfx, List.map_cons, List.sum_cons]
      have := hf x (List.mem_cons_self _ _) y hfx
      linarith

lemma units_sum_le (pointUnits : List ℕ) (tu : ℕ) (order1 order2 : List ℕ)
    (hcov : ∀ i, i < pointUnits.length → i ∈ order2) :
    (if 0 < (tu : ℤ) - (pointUnits.sum : ℤ) then
        deficitLoop order1 ((tu : ℤ) - (pointUnits.sum : ℤ)).toNat pointUnits
          ((tu : ℤ) - (pointUnits.sum : ℤ)).toNat
      else if (tu : ℤ) - (pointUnits.sum : ℤ) < 0 then
        overflowLoop order2 (-((tu : ℤ) - (pointUnits.sum : ℤ))).toNat pointUnits
          (-((tu : ℤ) - (pointUnits.sum : ℤ))).toNat
      else pointUnits).sum ≤ tu := by
  split
  · rename_i hd
    have := deficitLoop_sum order1 ((tu : ℤ) - (pointUnits.sum : ℤ)).toNat pointUnits
      ((tu : ℤ) - (pointUnits.sum : ℤ)).toNat
    omega
  · split
    · rename_i hd1 hd2
      have := overflowLoop_sum order2 pointUnits.length hcov
        (-((tu : ℤ) - (pointUnits.sum : ℤ))).toNat pointUnits
        (-((tu : ℤ) - (pointUnits.sum : ℤ))).toNat rfl (le_refl _)
      omega
    · omega

lemma roundClamp_le_div (u : ℕ) :
    roundToTenth (clampQ ((u : ℚ) / 10) 0 2) ≤ (u : ℚ) / 10 := by
  rw [clamp_nat_tenth, roundToTenth_int_div]
  have h1 : min 20 (u : ℤ) ≤ (u : ℤ) := min_le_right _ _
  have h2 : ((min 20 (u : ℤ) : ℤ) : ℚ) ≤ ((u : ℤ) : ℚ) := by exact_mod_cast h1
  push_cast at h2 ⊢
  linarith

lemma sum_map_points_le_units (N : List Mistake) (U : List ℕ) :
    (((N.enum.filterMap (fun im =>
        if roundToTenth (clampQ ((U.getD im.1 0 : ℚ) / 10) 0 2) < 0.1 then none
        else some { im.2 with
          points_deducted := roundToTenth (clampQ ((U.getD im.1 0 : ℚ) / 10) 0 2)
          severity := higherSeverity im.2.severity
            (severityForPoints (roundToTenth (clampQ ((U.getD im.1 0 : ℚ) / 10) 0 2))) })).map
      (·.points_deducted)).sum) ≤ ((U.sum : ℕ) : ℚ) / 10 := by
  have h1 := sum_filterMap_le_map N.enum
    (fun im => if roundToTenth (clampQ ((U.getD im.1 0 : ℚ) / 10) 0 2) < 0.1 then none
      else some { im.2 with
        points_deducted := roundToTenth (clampQ ((U.getD im.1 0 : ℚ) / 10) 0 2)
        severity := higherSeverity im.2.severity
          (severityForPoints (roundToTenth (clampQ ((U.getD im.1 0 : ℚ) / 10) 0 2))) })
    (fun im => ((U.getD im.1 0 : ℕ) : ℚ) / 10)
    (fun im _ => by positivity)
    (fun im _ y hy => by
      simp only [] at hy
      split at hy
      · exact absurd hy (by simp)
      · rw [← Option.some.inj hy]
        exact roundClamp_le_div _)
  refine le_trans h1 ?_
  have h2 : (N.enum.map (fun im => ((U.getD im.1 0 : ℕ) : ℚ) / 10))
      = (List.range N.length).map (fun i => ((U.getD i 0 : ℕ) : ℚ) / 10) := by
    rw [List.enum_eq_zip_range]
    rw [show (fun im : ℕ × Mistake => ((U.getD im.1 0 : ℕ) : ℚ) / 10)
      = (fun i : ℕ => ((U.getD i 0 : ℕ) : ℚ) / 10) ∘ Prod.fst from rfl]
    rw [← List.map_map, List.map_fst_zip _ _ (by simp)]
  rw [h2, sum_div_const (List.range N.length) (fun i => ((U.getD i 0 : ℕ) : ℚ)) 10,
    sum_map_cast (List.range N.length) (fun i => U.getD i 0), sum_range_getD]
  have h3 : ((U.take N.length).sum : ℕ) ≤ U.sum := sum_take_le_nat U N.length
  have h4 : (((U.take N.length).sum : ℕ) : ℚ) ≤ ((U.sum : ℕ) : ℚ) := by exact_mod_cast h3
  linarith

lemma sum_insertSorted (le : Mistake → Mistake → Bool) (x : Mistake) (l : List Mistake) :
    ((insertSorted le x l).map (·.points_deducted)).sum
      = x.points_deducted + (l.map (·.points_deducted)).sum := by
  induction l with
  | nil => simp [insertSorted]
  | cons y ys ih =>
    simp only [insertSorted]
    split
    · simp
    · simp only [List.map_cons, List.sum_cons, ih]
      ring

lemma sum_stableSort (le : Mistake → Mistake → Bool) (l : List Mistake) :
    ((stableSort le l).map (·.points_deducted)).sum = (l.map (·.points_deducted)).sum := by
  induction l with
  | nil => rfl
  | cons x xs ih =>
    simp only [stableSort, sum_insertSorted, ih, List.map_cons, List.sum_cons]

lemma sum_take_le_of_nonneg (L : List Mistake) (n : ℕ)
    (h : ∀ m ∈ L, 0 ≤ m.points_deducted) :
    (((L.take n).map (·.points_deducted)).sum) ≤ ((L.map (·.points_deducted)).sum) := by
  have hsplit := congrArg (fun t => (t.map (·.points_deducted)).sum) (List.take_append_drop n L)
  simp only [List.map_append, List.sum_append] at hsplit
  have hdrop : 0 ≤ ((L.drop n).map (·.points_deducted)).sum := by
    apply List.sum_nonneg
    intro q hq
    rcases List.mem_map.mp hq with ⟨m, hm, rfl⟩
    exact h m (List.mem_of_mem_drop hm)
  linarith

lemma sum_nonneg_points (L : List Mistake) (h : ∀ m ∈ L, 0 ≤ m.points_deducted) :
    0 ≤ (L.map (·.points_deducted)).sum := by
  apply List.sum_nonneg
  intro q hq
  rcases List.mem_map.mp hq with ⟨m, hm, rfl⟩
  exact h m hm

lemma take_if_minimal_sum (F : List Mistake) (tu : ℕ) (htu : tu ≤ 100)
    (hsum : (F.map (·.points_deducted)).sum ≤ (tu : ℚ) / 10)
    (hpos : ∀ m ∈ F, 0 ≤ m.points_deducted) :
    ((((if F.isEmpty && decide (0 < tu) then [minimalBalanceEntry tu] else F).take 20).map
        (·.points_deducted)).sum) ≤ 10 := by
  split
  · rename_i hcond
    simp only [Bool.and_eq_true, decide_eq_true_eq] at hcond
    have hm := minimalBalanceEntry_points tu hcond.2
    simp only [List.take, List.map_cons, List.map_nil, List.sum_cons, List.sum_nil]
    linarith [hm.2.2]
  · have h1 := sum_take_le_of_nonneg F 20 hpos
    have h2 : (tu : ℚ) / 10 ≤ 10 := by
      have : (tu : ℚ) ≤ 100 := by exact_mod_cast htu
      linarith
    linarith

lemma div10_mono {a b : ℕ} (h : a ≤ b) : ((a : ℕ) : ℚ) / 10 ≤ ((b : ℕ) : ℚ) / 10 := by
  have : ((a : ℕ) : ℚ) ≤ ((b : ℕ) : ℚ) := by exact_mod_cast h
  linarith

set_option maxHeartbeats 1000000 in
lemma normalizeDeductionsToTarget_sum_le (mistakes : List Mistake) (t : ℚ) :
    (((normalizeDeductionsToTarget mistakes t).map (·.points_deducted)).sum) ≤ 10 := by
  simp only [normalizeDeductionsToTarget]
  split
  · simp
  · split
    · simp
    · rename_i hne hpos
      have htu100 : (⌊roundToTenth (clampQ t 0 10) * 10 + 1/2⌋).toNat ≤ 100 := by
        have h1 : roundToTenth (clampQ t 0 10) ≤ ((10:ℤ):ℚ) :=
          roundToTenth_le_int 10 (by exact_mod_cast clampQ_le_right t 0 10 (by norm_num))
        have h2 : ⌊roundToTenth (clampQ t 0 10) * 10 + 1/2⌋ ≤ 100 := by
          have h3 : roundToTenth (clampQ t 0 10) * 10 + 1/2 ≤ ((100:ℤ):ℚ) + 1/2 := by
            push_cast at h1 ⊢
            linarith
          calc ⌊roundToTenth (clampQ t 0 10) * 10 + 1/2⌋
              ≤ ⌊((100:ℤ):ℚ) + 1/2⌋ := Int.floor_le_floor h3
            _ = 100 := by
                rw [Int.floor_int_add]
                norm_num
        omega
      refine take_if_minimal_sum _ _ htu100 ?_ ?_
      · refine le_trans (sum_map_points_le_units _ _) ?_
        refine div10_mono ?_
        refine units_sum_le _ _ _ _ ?_
        intro i hi
        rw [mem_stableSort]
        refine List.mem_range.mpr ?_
        rwa [List.length_map, allocateWeightedWithCap_length, List.length_map] at hi
      · intro m hm
        have h := filterMap_units_points _ _ m hm
        linarith [h.2.1]

lemma sum_sortMistakes (l : List Mistake) :
    ((sortMistakesByPointsDesc l).map (·.points_deducted)).sum
      = (l.map (·.points_deducted)).sum := by
  simp only [sortMistakesByPointsDesc]
  exact sum_stableSort _ l

set_option maxHeartbeats 1000000 in
lemma ensureMistakeCoverage_sum_le (result : GradingResult) (report : VerificationReport)
    (h : ¬ (normalizeAnswerVerdict result.answer_verdict = avCorrect
        ∧ (report.findings.any fun f => !f.passed) = false)) :
    (((ensureMistakeCoverage result report).mistakes.map (·.points_deducted)).sum) ≤ 10 := by
  have hb : (decide (normalizeAnswerVerdict result.answer_verdict = avCorrect)
      && !(report.findings.any fun f => !f.passed)) = false := by
    by_cases hv : normalizeAnswerVerdict result.answer_verdict = avCorrect
    · have hany : (report.findings.any fun f => !f.passed) = true := by
        by_contra hf
        exact h ⟨hv, Bool.eq_false_iff.mpr hf⟩
      simp [hany]
    · simp [hv]
  simp only [ensureMistakeCoverage, hb, Bool.false_eq_true, if_false]
  refine le_trans (sum_take_le_of_nonneg _ 20 ?_) ?_
  · intro m hm
    have := normalizeDeductionsToTarget_points _ _ m (mem_sortMistakesByPointsDesc.mp hm)
    linarith [this.2.1]
  · rw [sum_sortMistakes]
    exact normalizeDeductionsToTarget_sum_le _ _

set_option maxHeartbeats 1000000 in
lemma ensureMistakeCoverage_score_bounds (result : GradingResult) (report : VerificationReport)
    (hs0 : 0 ≤ result.score_total) (hs10 : result.score_total ≤ 10) :
    0 ≤ (ensureMistakeCoverage result report).score_total
      ∧ (ensureMistakeCoverage result report).score_total ≤ 10 := by
  by_cases hA : normalizeAnswerVerdict result.answer_verdict = avCorrect
  · by_cases hB : (report.findings.any fun f => !f.passed) = false
    · rcases (ensureMistakeCoverage_skip result report hA hB).2.2 with heq | heq
      · rw [heq]
        exact ⟨hs0, hs10⟩
      · rw [heq]
        constructor
        · exact roundToTenth_nonneg (le_clampQ _ 0 10)
        · have hcl : clampQ (10 - roundToTenth
              (((ensureMistakeCoverage result report).mistakes.map (·.points_deducted)).sum)) 0 10
              ≤ ((10:ℤ):ℚ) := by
            exact_mod_cast clampQ_le_right _ 0 10 (by norm_num)
          have h10 := roundToTenth_le_int 10 hcl
          exact_mod_cast h10
    · have hbal := ensureMistakeCoverage_balancing result report (fun hc => hB hc.2)
      have hsum := ensureMistakeCoverage_sum_le result report (fun hc => hB hc.2)
      have hnn : 0 ≤ (((ensureMistakeCoverage result report).mistakes.map
          (·.points_deducted)).sum) := by
        apply sum_nonneg_points
        intro m hm
        linarith [(hbal.2.2 m hm).2.1]
      rw [hbal.1]
      constructor <;> linarith
  · have hbal := ensureMistakeCoverage_balancing result report (fun hc => hA hc.1)
    have hsum := ensureMistakeCoverage_sum_le result report (fun hc => hA hc.1)
    have hnn : 0 ≤ (((ensureMistakeCoverage result report).mistakes.map
        (·.points_deducted)).sum) := by
      apply sum_nonneg_points
      intro m hm
      linarith [(hbal.2.2 m hm).2.1]
    rw [hbal.1]
    constructor <;> linarith

set_option maxHeartbeats 1000000 in
lemma ensureMistakeCoverage_points (result : GradingResult) (report : VerificationReport)
    (h : ∀ m ∈ result.mistakes, 0 ≤ m.points_deducted ∧ m.points_deducted ≤ 2) :
    ∀ m ∈ (ensureMistakeCoverage result report).mistakes,
      0 ≤ m.points_deducted ∧ m.points_deducted ≤ 2 := by
  intro m hm
  by_cases hA : normalizeAnswerVerdict result.answer_verdict = avCorrect
  · by_cases hB : (report.findings.any fun f => !f.passed) = false
    · exact h m ((ensureMistakeCoverage_skip result report hA hB).2.1 m hm)
    · have := (ensureMistakeCoverage_balancing result report (fun hc => hB hc.2)).2.2 m hm
      exact ⟨by linarith [this.2.1], this.2.2⟩
  · have := (ensureMistakeCoverage_balancing result report (fun hc => hA hc.1)).2.2 m hm
    exact ⟨by linarith [this.2.1], this.2.2⟩

lemma injectVerificationFindings_score (result : GradingResult) (report : VerificationReport) :
    (injectVerificationFindings result report).score_total = result.score_total := by
  simp only [injectVerificationFindings, apply_ite GradingResult.score_total]
  rw [ite_self]

lemma injectVerificationFindings_rubric (result : GradingResult) (report : VerificationReport) :
    (injectVerificationFindings result report).rubric_scores = result.rubric_scores := by
  simp only [injectVerificationFindings, apply_ite GradingResult.rubric_scores]
  rw [ite_self]

lemma injectVerificationFindings_conf (result : GradingResult) (report : VerificationReport) :
    (injectVerificationFindings result report).confidence = result.confidence := by
  simp only [injectVerificationFindings, apply_ite GradingResult.confidence]
  rw [ite_self]

lemma enforceEvidenceGate_score (result : GradingResult) (report : VerificationReport) :
    (enforceEvidenceGate result report).score_total = result.score_total := by
  simp only [enforceEvidenceGate]

lemma enforceEvidenceGate_rubric (result : GradingResult) (report : VerificationReport) :
    (enforceEvidenceGate result report).rubric_scores = result.rubric_scores := by
  simp only [enforceEvidenceGate]

lemma enforceEvidenceGate_conf (result : GradingResult) (report : VerificationReport) :
    (enforceEvidenceGate result report).confidence = result.confidence := by
  simp only [enforceEvidenceGate]

lemma dedupeMistakesByStepRule_score (result : GradingResult) :
    (dedupeMistakesByStepRule result).score_total = result.score_total := rfl

lemma dedupeMistakesByStepRule_rubric (result : GradingResult) :
    (dedupeMistakesByStepRule result).rubric_scores = result.rubric_scores := rfl

lemma dedupeMistakesByStepRule_conf (result : GradingResult) :
    (dedupeMistakesByStepRule result).confidence = result.confidence := rfl

set_option maxHeartbeats 2000000 in
/-- C3: the reasoning-guardrails pipeline preserves the model bounds: given a result whose fields satisfy the pydantic constraints (score in [0,10], each rubric dimension in its range, each mistake deduction in [0,3], at most 20 mistakes), the output of applyReasoningGuardrails keeps score_total in [0,10], every rubric dimension in its declared range, confidence in [0,1], every mistake deduction in [0,3], and at most 20 mistakes. -/
theorem c3_pipeline_bounds (ut ma : ℚ) (result : GradingResult)
    (report : VerificationReport) (meta : ConsensusMeta)
    (hs0 : 0 ≤ result.score_total) (hs10 : result.score_total ≤ 10)
    (hco0 : 0 ≤ result.rubric_scores.conditions) (hco2 : result.rubric_scores.conditions ≤ 2)
    (hmo0 : 0 ≤ result.rubric_scores.modeling) (hmo2 : result.rubric_scores.modeling ≤ 2)
    (hlo0 : 0 ≤ result.rubric_scores.logic) (hlo2 : result.rubric_scores.logic ≤ 2)
    (hca0 : 0 ≤ result.rubric_scores.calculation) (hca2 : result.rubric_scores.calculation ≤ 2)
    (hfi0 : 0 ≤ result.rubric_scores.final) (hfi2 : result.rubric_scores.final ≤ 2)
    (hc0 : 0 ≤ result.confidence) (hc1 : result.confidence ≤ 1)
    (hmk : ∀ m ∈ result.mistakes, 0 ≤ m.points_deducted ∧ m.points_deducted ≤ 2) :
    (0 ≤ (applyReasoningGuardrails ut ma result report meta).score_total
      ∧ (applyReasoningGuardrails ut ma result report meta).score_total ≤ 10)
    ∧ (0 ≤ (applyReasoningGuardrails ut ma result report meta).rubric_scores.conditions
      ∧ (applyReasoningGuardrails ut ma result report meta).rubric_scores.conditions ≤ 2)
    ∧ (0 ≤ (applyReasoningGuardrails ut ma result report meta).rubric_scores.modeling
      ∧ (applyReasoningGuardrails ut ma result report meta).rubric_scores.modeling ≤ 2)
    ∧ (0 ≤ (applyReasoningGuardrails ut ma result report meta).rubric_scores.logic
      ∧ (applyReasoningGuardrails ut ma result report meta).rubric_scores.logic ≤ 2)
    ∧ (0 ≤ (applyReasoningGuardrails ut ma result report meta).rubric_scores.calculation
      ∧ (applyReasoningGuardrails ut ma result report meta).rubric_scores.calculation ≤ 2)
    ∧ (0 ≤ (applyReasoningGuardrails ut ma result report meta).rubric_scores.final
      ∧ (applyReasoningGuardrails ut ma result report meta).rubric_scores.final ≤ 2)
    ∧ (0 ≤ (applyReasoningGuardrails ut ma result report meta).confidence
      ∧ (applyReasoningGuardrails ut ma result report meta).confidence ≤ 1)
    ∧ (∀ m ∈ (applyReasoningGuardrails ut ma result report meta).mistakes,
        0 ≤ m.points_deducted ∧ m.points_deducted ≤ 2)
    ∧ (applyReasoningGuardrails ut ma result report meta).mistakes.length ≤ 20 := by
  set r1 := injectVerificationFindings result report with hr1
  set r2 := enforceEvidenceGate r1 report with hr2
  set r3 := dedupeMistakesByStepRule r2 with hr3
  set r4 := applyVerifiedWrongFinalCap r3 report with hr4
  set r5 := applyUncertaintyPolicy ut ma r4 report meta with hr5
  set r6 := applyAnswerVerdictPolicy r5 report with hr6
  set r7 := ensureMistakeCoverage r6 report with hr7
  have hdef : applyReasoningGuardrails ut ma result report meta
      = reconcileScoreFromDeductions r7 := rfl
  rw [hdef]
  have h3score : r3.score_total = result.score_total := by
    rw [hr3, hr2, hr1, dedupeMistakesByStepRule_score, enforceEvidenceGate_score,
      injectVerificationFindings_score]
  have h3rub : r3.rubric_scores = result.rubric_scores := by
    rw [hr3, hr2, hr1, dedupeMistakesByStepRule_rubric, enforceEvidenceGate_rubric,
      injectVerificationFindings_rubric]
  have h3conf : r3.confidence = result.confidence := by
    rw [hr3, hr2, hr1, dedupeMistakesByStepRule_conf, enforceEvidenceGate_conf,
      injectVerificationFindings_conf]
  have h3points : ∀ m ∈ r3.mistakes, 0 ≤ m.points_deducted ∧ m.points_deducted ≤ 2 := by
    rw [hr3, hr2, hr1]
    exact dedupeMistakesByStepRule_points _
      (enforceEvidenceGate_points _ _ (injectVerificationFindings_points _ _ hmk))
  have h4 := applyVerifiedWrongFinalCap_bounds r3 report
    (by rw [h3score]; exact hs0) (by rw [h3score]; exact hs10)
    (by rw [h3rub]; exact hco0) (by rw [h3rub]; exact hco2)
    (by rw [h3rub]; exact hmo0) (by rw [h3rub]; exact hmo2)
    (by rw [h3rub]; exact hlo0) (by rw [h3rub]; exact hlo2)
    (by rw [h3rub]; exact hca0) (by rw [h3rub]; exact hca2)
    (by rw [h3rub]; exact hfi0) (by rw [h3rub]; exact hfi2)
    (by rw [h3conf]; exact hc0) (by rw [h3conf]; exact hc1)
  have h4points := applyVerifiedWrongFinalCap_points r3 report h3points
  rw [← hr4] at h4 h4points
  have h5score := applyUncertaintyPolicy_score_bounds ut ma r4 report meta h4.1.1 h4.1.2
  have h5rub := applyUncertaintyPolicy_rubric ut ma r4 report meta
    h4.2.1.1 h4.2.1.2 h4.2.2.1.1 h4.2.2.1.2 h4.2.2.2.1.1 h4.2.2.2.1.2
    h4.2.2.2.2.1.1 h4.2.2.2.2.1.2 h4.2.2.2.2.2.1.1 h4.2.2.2.2.2.1.2
  have h5conf := applyUncertaintyPolicy_confidence_bounds ut ma r4 report meta
  have h5points := applyUncertaintyPolicy_points ut ma r4 report meta h4points
  rw [← hr5] at h5score h5rub h5conf h5points
  have h6score := applyAnswerVerdictPolicy_score r5 report h5score.1 h5score.2
  have h6rub := applyAnswerVerdictPolicy_rubric r5 report
  have h6confeq := applyAnswerVerdictPolicy_confidence r5 report
  have h6mist := applyAnswerVerdictPolicy_mistakes r5 report
  rw [← hr6] at h6score h6rub h6confeq h6mist
  have h6points : ∀ m ∈ r6.mistakes, 0 ≤ m.points_deducted ∧ m.points_deducted ≤ 2 := by
    rw [h6mist]
    exact h5points
  have h7score := ensureMistakeCoverage_score_bounds r6 report h6score.1 h6score.2
  have h7rubeq := ensureMistakeCoverage_rubric r6 report
  have h7confeq := ensureMistakeCoverage_conf r6 report
  have h7points := ensureMistakeCoverage_points r6 report h6points
  have h7len := ensureMistakeCoverage_len r6 report
  rw [← hr7] at h7score h7rubeq h7confeq h7points h7len
  have h8 := reconcileScoreFromDeductions_bounds r7 h7score.1 h7score.2
    (by rw [h7rubeq]; exact h6rub.1.1) (by rw [h7rubeq]; exact h6rub.1.2)
    (by rw [h7rubeq]; exact h6rub.2.1.1) (by rw [h7rubeq]; exact h6rub.2.1.2)
    (by rw [h7rubeq]; exact h6rub.2.2.1.1) (by rw [h7rubeq]; exact h6rub.2.2.1.2)
    (by rw [h7rubeq]; exact h6rub.2.2.2.1.1) (by rw [h7rubeq]; exact h6rub.2.2.2.1.2)
    (by rw [h7rubeq]; exact h6rub.2.2.2.2.1) (by rw [h7rubeq]; exact h6rub.2.2.2.2.2)
  have h8mist := reconcileScoreFromDeductions_mistakes r7
  have h8conf := reconcileScoreFromDeductions_conf r7
  refine ⟨h8.1, h8.2.1, h8.2.2.1, h8.2.2.2.1, h8.2.2.2.2.1, h8.2.2.2.2.2, ?_, ?_, ?_⟩
  · rw [h8conf, h7confeq, h6confeq]
    exact h5conf
  · rw [h8mist]
    exact h7points
  · rw [h8mist]
    exact h7len


theorem c3_pipeline_bounds_witness :
    (0 ≤ (applyReasoningGuardrails 0.6 0.55
        { score_total := 7.3
          rubric_scores := { conditions := 2, modeling := 1.5, logic := 1.5, calculation := 1.5, final := 0.8 }
          mistakes := [{ type := "ALGEBRA_ERROR", severity := "med", points_deducted := 1.2, evidence := "[step:s1][rule:RULE_EQUIV_TRANSFORM] 이항 부호 오류", fix_instruction := "이항 시 부호를 바꾸세요.", location_hint := "2행", highlight := { mode := "tap", shape := "circle" } }]
          patch := { minimal_changes := [], patched_solution_brief := "" }
          next_checklist := []
          confidence := 0.6
          missing_info := []
          answer_verdict := ""
          answer_verdict_reason := "" }
        { steps := []
          findings := []
          expected_x := none
          observed_x := none
          confidence := 0.5
          requires_review := false }
        { runs_requested := 3, runs_used := 3, agreement := 0.42, score_spread := 0.6 }).score_total
      ∧ (applyReasoningGuardrails 0.6 0.55
        { score_total := 7.3
          rubric_scores := { conditions := 2, modeling := 1.5, logic := 1.5, calculation := 1.5, final := 0.8 }
          mistakes := [{ type := "ALGEBRA_ERROR", severity := "med", points_deducted := 1.2, evidence := "[step:s1][rule:RULE_EQUIV_TRANSFORM] 이항 부호 오류", fix_instruction := "이항 시 부호를 바꾸세요.", location_hint := "2행", highlight := { mode := "tap", shape := "circle" } }]
          patch := { minimal_changes := [], patched_solution_brief := "" }
          next_checklist := []
          confidence := 0.6
          missing_info := []
          answer_verdict := ""
          answer_verdict_reason := "" }
        { steps := []
          findings := []
          expected_x := none
          observed_x := none
          confidence := 0.5
          requires_review := false }
        { runs_requested := 3, runs_used := 3, agreement := 0.42, score_spread := 0.6 }).score_total ≤ 10)
    ∧ ((applyReasoningGuardrails 0.6 0.55
        { score_total := 7.3
          rubric_scores := { conditions := 2, modeling := 1.5, logic := 1.5, calculation := 1.5, final := 0.8 }
          mistakes := [{ type := "ALGEBRA_ERROR", severity := "med", points_deducted := 1.2, evidence := "[step:s1][rule:RULE_EQUIV_TRANSFORM] 이항 부호 오류", fix_instruction := "이항 시 부호를 바꾸세요.", location_hint := "2행", highlight := { mode := "tap", shape := "circle" } }]
          patch := { minimal_changes := [], patched_solution_brief := "" }
          next_checklist := []
          confidence := 0.6
          missing_info := []
          answer_verdict := ""
          answer_verdict_reason := "" }
        { steps := []
          findings := []
          expected_x := none
          observed_x := none
          confidence := 0.5
          requires_review := false }
        { runs_requested := 3, runs_used := 3, agreement := 0.42, score_spread := 0.6 }).mistakes.length ≤ 20) := by
  have h := c3_pipeline_bounds 0.6 0.55
    { score_total := 7.3
      rubric_scores := { conditions := 2, modeling := 1.5, logic := 1.5, calculation := 1.5, final := 0.8 }
      mistakes := [{ type := "ALGEBRA_ERROR", severity := "med", points_deducted := 1.2, evidence := "[step:s1][rule:RULE_EQUIV_TRANSFORM] 이항 부호 오류", fix_instruction := "이항 시 부호를 바꾸세요.", location_hint := "2행", highlight := { mode := "tap", shape := "circle" } }]
      patch := { minimal_changes := [], patched_solution_brief := "" }
      next_checklist := []
      confidence := 0.6
      missing_info := []
      answer_verdict := ""
      answer_verdict_reason := "" }
    { steps := []
      findings := []
      expected_x := none
      observed_x := none
      confidence := 0.5
      requires_review := false }
    { runs_requested := 3, runs_used := 3, agreement := 0.42, score_spread := 0.6 }
    (by norm_num) (by norm_num) (by norm_num) (by norm_num) (by norm_num) (by norm_num)
    (by norm_num) (by norm_num) (by norm_num) (by norm_num) (by norm_num) (by norm_num)
    (by norm_num) (by norm_num)
    (by with_unfolding_all decide)
  exact ⟨h.1, h.2.2.2.2.2.2.2.2⟩


lemma objHas_objSet_self (p : JObj) (k : String) (v : Json) :
    objHas (objSet p k v) k = true := by
  unfold objSet
  split
  · rename_i h
    unfold objHas at h ⊢
    rcases List.any_eq_true.mp h with ⟨kv, hmem, hk⟩
    simp only [decide_eq_true_eq] at hk
    refine List.any_eq_true.mpr ⟨(k, v), ?_, by simp⟩
    refine List.mem_map.mpr ⟨kv, hmem, ?_⟩
    simp [hk]
  · unfold objHas
    refine List.any_eq_true.mpr ⟨(k, v), by simp, by simp⟩

lemma objHas_objSet_of (p : JObj) (k : String) (v : Json) (k' : String)
    (h : objHas p k' = true) : objHas (objSet p k v) k' = true := by
  unfold objSet
  split
  · unfold objHas at h ⊢
    rcases List.any_eq_true.mp h with ⟨kv, hmem, hk⟩
    by_cases hkk : kv.1 = k
    · refine List.any_eq_true.mpr ⟨(k, v), List.mem_map.mpr ⟨kv, hmem, by simp [hkk]⟩, ?_⟩
      simp only [decide_eq_true_eq] at hk ⊢
      rw [← hkk] at *
      exact hk
    · exact List.any_eq_true.mpr ⟨kv, List.mem_map.mpr ⟨kv, hmem, by simp [hkk]⟩, by simp [hk]⟩
  · unfold objHas at h ⊢
    rcases List.any_eq_true.mp h with ⟨kv, hmem, hk⟩
    exact List.any_eq_true.mpr ⟨kv, by simp [hmem], hk⟩

lemma harmonize_preserves_has (p : JObj) (k : String)
    (h : objHas p k = true) : objHas (harmonizeScoreWithDeductions p) k = true := by
  simp only [harmonizeScoreWithDeductions]
  repeat' split
  all_goals first
    | exact h
    | exact objHas_objSet_of _ _ _ _ h

lemma reconcile_preserves_has (p : JObj) (k : String)
    (h : objHas p k = true) : objHas (reconcileRubricWithScore p) k = true := by
  simp only [reconcileRubricWithScore]
  repeat' split
  all_goals first
    | exact h
    | exact objHas_objSet_of _ _ _ _ h
    | exact objHas_objSet_of _ _ _ _ (objHas_objSet_of _ _ _ _ h)

lemma inject_preserves_has (p : JObj) (k : String)
    (h : objHas p k = true) : objHas (injectUncertaintyHint p) k = true := by
  simp only [injectUncertaintyHint]
  repeat' split
  all_goals first
    | exact h
    | exact objHas_objSet_of _ _ _ _ h

lemma ensureRequiredDefaults_has_verdict (p : JObj) :
    objHas (ensureRequiredDefaults p) "answer_verdict" = true := by
  simp only [ensureRequiredDefaults]
  apply inject_preserves_has
  apply reconcile_preserves_has
  apply harmonize_preserves_has
  apply objHas_objSet_of
  apply objHas_objSet_of
  exact objHas_objSet_self _ _ _

lemma pydantic_false_of_verdict (q : JObj)
    (h : objHas q "answer_verdict" = true) :
    pydanticCheckAnalysisResult q = false := by
  rcases List.any_eq_true.mp h with ⟨kv, hmem, hk⟩
  simp only [decide_eq_true_eq] at hk
  unfold pydanticCheckAnalysisResult
  rw [Bool.eq_false_iff]
  intro hall
  have h1 := (Bool.and_eq_true _ _).mp hall
  have h2 := (Bool.and_eq_true _ _).mp h1.1
  have h3 := (Bool.and_eq_true _ _).mp h2.1
  have h4 := (Bool.and_eq_true _ _).mp h3.1
  have h5 := (Bool.and_eq_true _ _).mp h4.1
  have h6 := (Bool.and_eq_true _ _).mp h5.1
  have h7 := (Bool.and_eq_true _ _).mp h6.1
  have hfields := List.all_eq_true.mp h7.1 kv hmem
  rw [hk] at hfields
  simp [analysisResultModelFields] at hfields

lemma validateResult_always_error (data : Json) :
    ∃ e, validateResult data = Except.error e := by
  cases data with
  | obj entries =>
    have hverdict : objHas (normalizeResultCandidate entries) "answer_verdict" = true := by
      unfold normalizeResultCandidate
      exact ensureRequiredDefaults_has_verdict _
    have hpyd := pydantic_false_of_verdict _ hverdict
    by_cases hs : schemaCheckAnalysisResult (Json.obj (normalizeResultCandidate entries))
    · exact ⟨"pydantic_validation_error", by simp [validateResult, hs, hpyd]⟩
    · exact ⟨"schema_validation_failed", by simp [validateResult, Bool.eq_false_iff.mpr hs]⟩
  | null => exact ⟨"not_a_mapping", rfl⟩
  | bool b => exact ⟨"not_a_mapping", rfl⟩
  | num q => exact ⟨"not_a_mapping", rfl⟩
  | str s => exact ⟨"not_a_mapping", rfl⟩
  | arr items => exact ⟨"not_a_mapping", rfl⟩


lemma matchLitCI_self_append (p rest : List Char) : matchLitCI p (p ++ rest) = some rest := by
  induction p with
  | nil => simp [matchLitCI]
  | cons c cs ih => simp [matchLitCI, ih]

lemma takeWhile_append_all (p : Char → Bool) (a b : List Char) (h : ∀ c ∈ a, p c = true) :
    (a ++ b).takeWhile p = a ++ b.takeWhile p := by
  induction a with
  | nil => rfl
  | cons c cs ih =>
    simp only [List.cons_append, List.takeWhile_cons, h c (by simp)]
    rw [ih (fun x hx => h x (by simp [hx]))]
    simp

lemma dropWhile_append_all (p : Char → Bool) (a b : List Char) (h : ∀ c ∈ a, p c = true) :
    (a ++ b).dropWhile p = b.dropWhile p := by
  induction a with
  | nil => rfl
  | cons c cs ih =>
    simp only [List.cons_append, List.dropWhile_cons, h c (by simp)]
    exact ih (fun x hx => h x (by simp [hx]))

lemma pySplitAux_nonspace_left (A : List Char) (h : ∀ c ∈ A, pyIsSpace c = false) :
    ∀ (l acc : List Char), pySplitAux (A ++ l) acc = pySplitAux l (A.reverse ++ acc) := by
  induction A with
  | nil => intro l acc; rfl
  | cons c cs ih =>
    intro l acc
    have hc : pyIsSpace c = false := h c (by simp)
    simp only [List.cons_append, pySplitAux, hc, Bool.false_eq_true, if_false]
    rw [List.append_eq, ih (fun x hx => h x (by simp [hx])) l (c :: acc)]
    simp

lemma pySplitAux_words_ok (l : List Char) :
    ∀ acc : List Char, (∀ c ∈ acc, pyIsSpace c = false) →
      ∀ w ∈ pySplitAux l acc, w ≠ [] ∧ ∀ c ∈ w, pyIsSpace c = false := by
  induction l with
  | nil =>
    intro acc hacc w hw
    simp only [pySplitAux] at hw
    split at hw
    · simp at hw
    · rename_i hne
      simp only [List.mem_singleton] at hw
      subst hw
      refine ⟨?_, ?_⟩
      · simp only [ne_eq, List.reverse_eq_nil_iff]
        simpa [List.isEmpty_iff] using hne
      · intro c hc
        exact hacc c (List.mem_reverse.mp hc)
  | cons c cs ih =>
    intro acc hacc w hw
    simp only [pySplitAux] at hw
    by_cases hc : pyIsSpace c = true
    · rw [if_pos hc] at hw
      split at hw
      · exact ih [] (by simp) w hw
      · rename_i hne
        rcases List.mem_cons.mp hw with hw | hw
        · subst hw
          refine ⟨?_, fun x hx => hacc x (List.mem_reverse.mp hx)⟩
          simp only [ne_eq, List.reverse_eq_nil_iff]
          simpa [List.isEmpty_iff] using hne
        · exact ih [] (by simp) w hw
    · rw [if_neg hc] at hw
      refine ih (c :: acc) ?_ w hw
      intro x hx
      rcases List.mem_cons.mp hx with hx | hx
      · subst hx; exact Bool.eq_false_iff.mpr hc
      · exact hacc x hx

lemma pySplit_words_ok (l : List Char) :
    ∀ w ∈ pySplit l, w ≠ [] ∧ ∀ c ∈ w, pyIsSpace c = false :=
  pySplitAux_words_ok l [] (by simp)

lemma pySplit_of_words (W : List (List Char))
    (h : ∀ w ∈ W, w ≠ [] ∧ ∀ c ∈ w, pyIsSpace c = false) :
    pySplit (joinSpace W) = W := by
  induction W with
  | nil => rfl
  | cons w ws ih =>
    have hw := h w (by simp)
    cases ws with
    | nil =>
      show pySplit (joinSpace [w]) = [w]
      have : joinSpace [w] = w := rfl
      rw [this]
      unfold pySplit
      have := pySplitAux_nonspace_left w hw.2 [] []
      rw [List.append_nil] at this
      rw [this]
      simp only [pySplitAux, List.append_nil]
      rw [if_neg (by simpa [List.isEmpty_iff] using hw.1)]
      simp
    | cons w2 ws2 =>
      have hjoin : joinSpace (w :: w2 :: ws2) = w ++ ' ' :: joinSpace (w2 :: ws2) := rfl
      rw [hjoin]
      unfold pySplit
      rw [pySplitAux_nonspace_left w hw.2 (' ' :: joinSpace (w2 :: ws2)) []]
      simp only [pySplitAux, List.append_nil]
      rw [if_pos (by rfl)]
      rw [if_neg (by simpa [List.isEmpty_iff] using hw.1)]
      simp only [List.reverse_reverse]
      have := ih (fun x hx => h x (by simp [hx]))
      unfold pySplit at this
      rw [this]

lemma normWs_of_nonspace (l : List Char) (hne : l ≠ [])
    (h : ∀ c ∈ l, pyIsSpace c = false) : normWs l = l := by
  have : pySplit (joinSpace [l]) = [l] := pySplit_of_words [l] (by simpa using ⟨hne, h⟩)
  have hj : joinSpace [l] = l := rfl
  rw [hj] at this
  unfold normWs
  rw [this, hj]

lemma normWs_idem (l : List Char) : normWs (normWs l) = normWs l := by
  unfold normWs
  rw [pySplit_of_words (pySplit l) (pySplit_words_ok l)]

lemma joinSpace_length_le (l : List Char) :
    ∀ acc : List Char, (joinSpace (pySplitAux l acc)).length ≤ l.length + acc.length := by
  induction l with
  | nil =>
    intro acc
    simp only [pySplitAux]
    split
    · simp [joinSpace]
    · simp [joinSpace]
  | cons c cs ih =>
    intro acc
    simp only [pySplitAux]
    by_cases hc : pyIsSpace c = true
    · rw [if_pos hc]
      split
      · calc (joinSpace (pySplitAux cs [])).length ≤ cs.length + 0 := ih []
          _ ≤ (c :: cs).length + acc.length := by simp; omega
      · cases hsplit : pySplitAux cs [] with
        | nil =>
          have : joinSpace [acc.reverse] = acc.reverse := rfl
          rw [this]
          simp only [List.length_reverse, List.length_cons]
          omega
        | cons w2 ws2 =>
          have hj : joinSpace (acc.reverse :: w2 :: ws2)
              = acc.reverse ++ ' ' :: joinSpace (w2 :: ws2) := rfl
          have h2 := ih []
          rw [hsplit] at h2
          simp only [List.length_nil, Nat.add_zero] at h2
          rw [hj]
          simp only [List.length_append, List.length_reverse, List.length_cons]
          omega
    · rw [if_neg hc]
      have h2 := ih (c :: acc)
      simp only [List.length_cons] at *
      omega

lemma normWs_length_le (l : List Char) : (normWs l).length ≤ l.length := by
  have := joinSpace_length_le l []
  simpa [normWs, pySplit] using this


lemma string_mk_data (s : String) : String.mk s.data = s := by cases s; rfl

lemma pySplit_ne_nil_of_head (c : Char) (l : List Char) (hc : pyIsSpace c = false) :
    pySplit (c :: l) ≠ [] := by
  unfold pySplit
  simp only [pySplitAux, hc, Bool.false_eq_true, if_false]
  obtain ⟨w, ws, hw, _⟩ := pySplitAux_ne_nil l [c] (by simp)
  rw [hw]
  simp

lemma normWs_space_join (A rest : List Char) (hAws : ∀ c ∈ A, pyIsSpace c = false)
    (hAne : A ≠ []) (hrest : pySplit rest ≠ []) :
    normWs (A ++ ' ' :: rest) = A ++ ' ' :: normWs rest := by
  unfold normWs pySplit
  rw [pySplitAux_nonspace_left A hAws (' ' :: rest) []]
  simp only [pySplitAux, List.append_nil]
  rw [if_pos (by decide)]
  rw [if_neg (by simpa [List.isEmpty_iff] using hAne)]
  rw [List.reverse_reverse]
  unfold pySplit at hrest
  cases hsplit : pySplitAux rest [] with
  | nil => exact absurd hsplit hrest
  | cons w ws => rfl

lemma string_length_data (s : String) : s.length = s.data.length := rfl

lemma pyCleanText_id (s d : String) (n : ℕ) (hne : s.data ≠ [])
    (hws : ∀ c ∈ s.data, pyIsSpace c = false) (hlen : s.data.length ≤ n) :
    pyCleanText s d n = s := by
  have hemp : s.isEmpty = false := by
    rw [string_isEmpty_false_iff]
    intro h
    rw [h] at hne
    exact hne rfl
  simp only [pyCleanText]
  rw [normWs_of_nonspace s.data hne hws, string_mk_data, hemp]
  simp only [Bool.false_eq_true, if_false]
  rw [List.take_of_length_le hlen, string_mk_data]

/-- C10 (amended): the provenance round-trip holds when the step id and rule
are nonempty, contain no closing bracket and no whitespace characters at
all, fit in 20 and 40 characters, and the formatted string stays within the
240-character cap: parsing the evidence produced by
formatProvenanceEvidence recovers exactly that step id and rule.  The
claim as stated also admits whitespace runs inside the rule; the
formatter's final clean pass collapses those, so exact recovery fails
there (see the counterexample). -/
theorem c10_provenance_roundtrip (sid rule reason : String)
    (hs_ne : sid.data ≠ []) (hs_len : sid.data.length ≤ 20)
    (hs_ok : ∀ c ∈ sid.data, pyIsSpace c = false ∧ c ≠ ']')
    (hr_ne : rule.data ≠ []) (hr_len : rule.data.length ≤ 40)
    (hr_ok : ∀ c ∈ rule.data, pyIsSpace c = false ∧ c ≠ ']')
    (h240 : ("[step:" ++ sid ++ "][rule:" ++ rule ++ "] 근거: "
      ++ pyCleanText reason "근거 부족으로 자동 감점을 보류했습니다." 160).length ≤ 240) :
    (parseProvenance (formatProvenanceEvidence sid rule reason)).1 = some sid ∧
    (parseProvenance (formatProvenanceEvidence sid rule reason)).2.1 = some rule := by
  set X := pyCleanText reason "근거 부족으로 자동 감점을 보류했습니다." 160 with hX
  set A : List Char := "[step:".data ++ sid.data ++ "][rule:".data ++ rule.data ++ [']'] with hA
  set bodyChars : List Char := "근거: ".data ++ X.data with hbody
  set B : List Char := normWs bodyChars with hB
  have hlit1 : ∀ c ∈ "[step:".data, pyIsSpace c = false := by decide
  have hlit2 : ∀ c ∈ "][rule:".data, pyIsSpace c = false := by decide
  have hAws : ∀ c ∈ A, pyIsSpace c = false := by
    intro c hc
    rw [hA] at hc
    simp only [List.mem_append, List.mem_singleton] at hc
    rcases hc with ((((hc | hc) | hc) | hc) | hc)
    · exact hlit1 c hc
    · exact (hs_ok c hc).1
    · exact hlit2 c hc
    · exact (hr_ok c hc).1
    · subst hc; decide
  have hAne : A ≠ [] := by rw [hA]; simp
  have hbodyCons : bodyChars = '근' :: ("거: ".data ++ X.data) := by rw [hbody]; rfl
  have hbodySplit : pySplit bodyChars ≠ [] := by
    rw [hbodyCons]
    exact pySplit_ne_nil_of_head _ _ (by decide)
  have hBsplit : pySplit B ≠ [] := by
    rw [hB]
    unfold normWs
    rw [pySplit_of_words (pySplit bodyChars) (pySplit_words_ok bodyChars)]
    exact hbodySplit
  have hlen240 : (A ++ ' ' :: B).length ≤ 240 := by
    have hnb : B.length ≤ bodyChars.length := by rw [hB]; exact normWs_length_le bodyChars
    have h240d : ("[step:".data ++ sid.data ++ "][rule:".data ++ rule.data
        ++ "] 근거: ".data ++ X.data).length ≤ 240 := by
      have h1 : ("[step:" ++ sid ++ "][rule:" ++ rule ++ "] 근거: " ++ X).data
          = "[step:".data ++ sid.data ++ "][rule:".data ++ rule.data
            ++ "] 근거: ".data ++ X.data := by
        simp [string_data_append]
      have h2 := h240
      rw [string_length_data, h1] at h2
      exact h2
    have hbl : bodyChars.length = 4 + X.data.length := by
      rw [hbody]
      simp only [List.length_append]
      rfl
    have hal : A.length = 14 + sid.data.length + rule.data.length := by
      rw [hA]
      simp only [List.length_append, List.length_singleton, List.length_cons, List.length_nil]
      omega
    have h240l : 19 + sid.data.length + rule.data.length + X.data.length ≤ 240 := by
      simp only [List.length_append, List.length_cons, List.length_nil] at h240d
      omega
    simp only [List.length_append, List.length_cons]
    omega
  have hfulldata : ("[step:" ++ sid ++ "][rule:" ++ rule ++ "] " ++ ("근거: " ++ X)).data
      = A ++ ' ' :: bodyChars := by
    simp [string_data_append, hA, hbody, List.append_assoc]
  have hnormfull : normWs (A ++ ' ' :: bodyChars) = A ++ ' ' :: B := by
    rw [hB]
    exact normWs_space_join A bodyChars hAws hAne hbodySplit
  have hAcons : A = '[' :: ("step:".data ++ sid.data ++ "][rule:".data ++ rule.data ++ [']']) := by
    rw [hA]; rfl
  have hmkne : ∀ rest : List Char, (String.mk (A ++ rest)).isEmpty = false := by
    intro rest
    rw [hAcons]
    simp only [List.cons_append]
    exact isEmpty_mk_cons _ _
  have hformat : formatProvenanceEvidence sid rule reason = String.mk (A ++ ' ' :: B) := by
    simp only [formatProvenanceEvidence, ← hX]
    simp only [pyCleanText, hfulldata, hnormfull]
    rw [hmkne (' ' :: B)]
    simp only [Bool.false_eq_true, if_false]
    rw [List.take_of_length_le hlen240]
  have hnormtext : normWs (A ++ ' ' :: B) = A ++ ' ' :: B := by
    have : normWs B = B := by rw [hB]; exact normWs_idem bodyChars
    rw [normWs_space_join A B hAws hAne hBsplit, this]
  have htext : pyCleanText (String.mk (A ++ ' ' :: B)) "" 240 = String.mk (A ++ ' ' :: B) := by
    simp only [pyCleanText, hnormtext]
    rw [hmkne (' ' :: B)]
    simp only [Bool.false_eq_true, if_false]
    rw [List.take_of_length_le hlen240]
  have hsid_ne_br : ∀ c ∈ sid.data, (decide (c ≠ ']')) = true := by
    intro c hc
    simpa using (hs_ok c hc).2
  have hrule_ne_br : ∀ c ∈ rule.data, (decide (c ≠ ']')) = true := by
    intro c hc
    simpa using (hr_ok c hc).2
  have hmatch : provMatch (A ++ ' ' :: B)
      = some (sid.data, rule.data, B.dropWhile pyIsSpace) := by
    have hregroup : A ++ ' ' :: B = "[step:".data
        ++ (sid.data ++ (']' :: ("[rule:".data ++ (rule.data ++ ']' :: ' ' :: B)))) := by
      rw [hA]
      have : "][rule:".data = ']' :: "[rule:".data := rfl
      rw [this]
      simp [List.append_assoc]
    have hs_emp : sid.data.isEmpty = false := by simpa [List.isEmpty_iff] using hs_ne
    have hr_emp : rule.data.isEmpty = false := by simpa [List.isEmpty_iff] using hr_ne
    have htw_stop : ∀ l : List Char,
        List.takeWhile (fun c => decide (c ≠ ']')) (']' :: l) = [] := by
      intro l
      simp [List.takeWhile_cons]
    have hdw_stop : ∀ l : List Char,
        List.dropWhile (fun c => decide (c ≠ ']')) (']' :: l) = ']' :: l := by
      intro l
      simp [List.dropWhile_cons]
    have hsp1 : pyIsSpace '[' = false := by decide
    have hsp2 : pyIsSpace ' ' = true := by decide
    have hdw2 : List.dropWhile pyIsSpace
        (['[', 'r', 'u', 'l', 'e', ':'] ++ (rule.data ++ ']' :: ' ' :: B))
        = ['[', 'r', 'u', 'l', 'e', ':'] ++ (rule.data ++ ']' :: ' ' :: B) := by
      show List.dropWhile pyIsSpace
        ('[' :: (['r', 'u', 'l', 'e', ':'] ++ (rule.data ++ ']' :: ' ' :: B))) = _
      rw [List.dropWhile_cons, hsp1]
      simp
    rw [hregroup]
    simp only [provMatch, matchLitCI_self_append, Option.bind_eq_bind, Option.some_bind,
      takeWhile_append_all _ sid.data (']' :: ("[rule:".data ++ (rule.data ++ ']' :: ' ' :: B)))
        hsid_ne_br,
      dropWhile_append_all _ sid.data (']' :: ("[rule:".data ++ (rule.data ++ ']' :: ' ' :: B)))
        hsid_ne_br,
      takeWhile_append_all _ rule.data (']' :: ' ' :: B) hrule_ne_br,
      dropWhile_append_all _ rule.data (']' :: ' ' :: B) hrule_ne_br,
      htw_stop, hdw_stop, List.append_nil, hs_emp, hr_emp, Bool.false_eq_true, if_false,
      hdw2, List.dropWhile_cons, hsp1, hsp2, if_true, matchLitCI_self_append]
  have hsid_str : pyCleanText (String.mk sid.data) "" 20 = sid := by
    rw [string_mk_data]
    exact pyCleanText_id sid "" 20 hs_ne (fun c hc => (hs_ok c hc).1) hs_len
  have hrule_str : pyCleanText (String.mk rule.data) "" 40 = rule := by
    rw [string_mk_data]
    exact pyCleanText_id rule "" 40 hr_ne (fun c hc => (hr_ok c hc).1) hr_len
  have hsid_empty : sid.isEmpty = false := by
    rw [string_isEmpty_false_iff]
    intro h
    rw [h] at hs_ne
    exact hs_ne rfl
  have hrule_empty : rule.isEmpty = false := by
    rw [string_isEmpty_false_iff]
    intro h
    rw [h] at hr_ne
    exact hr_ne rfl
  have hparse : parseProvenance (formatProvenanceEvidence sid rule reason)
      = (some sid, some rule,
         pyCleanText (String.mk (B.dropWhile pyIsSpace)) "" 180) := by
    rw [hformat]
    simp only [parseProvenance, htext]
    rw [hmkne (' ' :: B)]
    simp only [Bool.false_eq_true, if_false]
    rw [hmatch]
    simp only [hsid_str, hrule_str, hsid_empty, hrule_empty, Bool.false_eq_true, if_false]
  rw [hparse]
  exact ⟨rfl, rfl⟩



lemma holdNote_isEmpty_false (idx : ℕ) (suffix : String) :
    (pyCleanText ("mistake#" ++ toString (idx + 1) ++ suffix) "" 80).isEmpty = false := by
  have h0 : ∃ l, ("mistake#" : String).data = 'm' :: l := ⟨_, rfl⟩
  have h1 := exists_data_cons_append _ (toString (idx + 1)) _ h0
  have h2 := exists_data_cons_append _ suffix _ h1
  obtain ⟨l, hl⟩ := h2
  exact pyCleanText_isEmpty_false _ "" 80 (by norm_num) 'm' l hl (by decide)

/-- C9: a provenance reason is actionable exactly when its cleaned length is
at least 8 and it is not one of the fixed boilerplate phrases; for a
mistake whose reason is not actionable, the gate with verification context
zeroes the deduction, downgrades severity to low, records a hold note in
missing_info and re-stamps the evidence in canonical [step:...][rule:...]
form, while without any verification context it keeps the model deduction
but floors it at 0.3 when non-positive, likewise re-stamping the
evidence. -/
theorem c9_evidence_gate (steps : List ExtractedStep) (idx : ℕ) (m : Mistake)
    (missing : List String)
    (hna : hasActionableReason
      (if (parseProvenance m.evidence).2.2.isEmpty
       then pyCleanText m.evidence "" 180 else (parseProvenance m.evidence).2.2) = false) :
    (∀ r : String, hasActionableReason r = true ↔
      (8 ≤ (pyCleanText r "" 180).length ∧
        defaultGenericEvidence.contains (pyCleanText r "" 180) = false)) ∧
    ((gateOne true steps idx m missing).1.points_deducted = 0 ∧
      (gateOne true steps idx m missing).1.severity = sevLow ∧
      pyCleanText ("mistake#" ++ toString (idx + 1) ++ ": evidence_gate_hold") "" 80
        ∈ (gateOne true steps idx m missing).2 ∧
      (gateOne true steps idx m missing).1.evidence
        = formatProvenanceEvidence
            (gateInferredStep (parseProvenance m.evidence).1 m.location_hint steps)
            (((parseProvenance m.evidence).2.1).getD (defaultRuleForMistakeType m.type))
            "근거 부족으로 자동 감점을 보류했습니다.") ∧
    ((gateOne false steps idx m missing).1.points_deducted
        = (if m.points_deducted ≤ 0 then (3 / 10 : ℚ) else m.points_deducted) ∧
      (m.points_deducted ≤ 0 → (gateOne false steps idx m missing).1.severity = sevLow) ∧
      (gateOne false steps idx m missing).1.evidence
        = formatProvenanceEvidence
            (gateInferredStep (parseProvenance m.evidence).1 m.location_hint steps)
            (((parseProvenance m.evidence).2.1).getD (defaultRuleForMistakeType m.type))
            "OCR 검증 정보 부족: 모델 감점 근거를 보류 없이 반영") := by
  refine ⟨?_, ?_, ?_⟩
  · intro r
    unfold hasActionableReason
    constructor
    · intro h
      by_cases hlen : (pyCleanText r "" 180).length < 8
      · rw [if_pos hlen] at h
        exact absurd h (by simp)
      · rw [if_neg hlen] at h
        refine ⟨by omega, ?_⟩
        cases hc : defaultGenericEvidence.contains (pyCleanText r "" 180) with
        | false => rfl
        | true => rw [hc] at h; exact absurd h (by simp)
    · rintro ⟨h8, hc⟩
      rw [if_neg (by omega), hc]
      rfl
  · simp only [gateOne, hna, Bool.false_eq_true, if_false, eq_self_iff_true, if_true]
    refine ⟨trivial, trivial, ?_, trivial⟩
    have hne := holdNote_isEmpty_false idx ": evidence_gate_hold"
    rw [hne]
    by_cases hmem : missing.contains
        (pyCleanText ("mistake#" ++ toString (idx + 1) ++ ": evidence_gate_hold") "" 80) = true
    · rw [hmem]
      simp only [Bool.not_false, Bool.not_true, Bool.true_and, Bool.false_eq_true, if_false]
      exact List.mem_of_elem_eq_true hmem
    · rw [Bool.eq_false_iff.mpr hmem]
      simp only [Bool.not_false, Bool.true_and, if_true]
      simp
  · simp only [gateOne, hna, Bool.false_eq_true, if_false, eq_self_iff_true, if_true]
    by_cases hp : m.points_deducted ≤ 0
    · rw [if_pos hp, if_pos hp]
      exact ⟨by norm_num, fun _ => rfl, trivial⟩
    · rw [if_neg hp, if_neg hp]
      exact ⟨rfl, fun h => absurd h hp, trivial⟩


lemma pairwise_insertSorted {α : Type} (le : α → α → Bool)
    (htot : ∀ a b, le a b = true ∨ le b a = true)
    (htrans : ∀ a b c, le a b = true → le b c = true → le a c = true)
    (x : α) (l : List α) (hl : l.Pairwise (fun a b => le a b = true)) :
    (insertSorted le x l).Pairwise (fun a b => le a b = true) := by
  induction l with
  | nil => simp [insertSorted]
  | cons y ys ih =>
    simp only [insertSorted]
    rcases List.pairwise_cons.mp hl with ⟨hy, hys⟩
    by_cases hxy : le x y = true
    · rw [if_pos hxy]
      refine List.pairwise_cons.mpr ⟨?_, hl⟩
      intro z hz
      rcases List.mem_cons.mp hz with hz | hz
      · rw [hz]; exact hxy
      · exact htrans x y z hxy (hy z hz)
    · rw [if_neg hxy]
      refine List.pairwise_cons.mpr ⟨?_, ih hys⟩
      intro z hz
      rcases mem_insertSorted.mp hz with hz | hz
      · rw [hz]
        rcases htot x y with h | h
        · exact absurd h hxy
        · exact h
      · exact hy z hz

lemma pairwise_stableSort {α : Type} (le : α → α → Bool)
    (htot : ∀ a b, le a b = true ∨ le b a = true)
    (htrans : ∀ a b c, le a b = true → le b c = true → le a c = true)
    (l : List α) : (stableSort le l).Pairwise (fun a b => le a b = true) := by
  induction l with
  | nil => simp [stableSort]
  | cons x xs ih => exact pairwise_insertSorted le htot htrans x _ ih

lemma head_stableSort_le {α : Type} (le : α → α → Bool)
    (htot : ∀ a b, le a b = true ∨ le b a = true)
    (htrans : ∀ a b c, le a b = true → le b c = true → le a c = true)
    (l : List α) (h : α) (t : List α) (hs : stableSort le l = h :: t) :
    ∀ x ∈ l, le h x = true := by
  intro x hx
  have hmem : x ∈ h :: t := by
    rw [← hs]
    exact mem_stableSort.mpr hx
  rcases List.mem_cons.mp hmem with hxh | hxt
  · rw [hxh]
    rcases htot h h with hh | hh <;> simpa [hxh] using hh
  · have hp := pairwise_stableSort le htot htrans l
    rw [hs] at hp
    exact (List.pairwise_cons.mp hp).1 x hxt

lemma head_stableSort_mem {α : Type} (le : α → α → Bool)
    (l : List α) (h : α) (t : List α) (hs : stableSort le l = h :: t) : h ∈ l := by
  refine (@mem_stableSort α le h l).mp ?_
  rw [hs]
  simp

/-- Totality of the descending (points, severity-rank) preorder used to
pick a bucket representative. -/
lemma bucketLe_total (x y : Mistake) :
    (!(decide (x.points_deducted < y.points_deducted)
      || (decide (x.points_deducted = y.points_deducted)
          && decide (severityRank (pyOrStr x.severity sevLow)
            < severityRank (pyOrStr y.severity sevLow))))) = true ∨
    (!(decide (y.points_deducted < x.points_deducted)
      || (decide (y.points_deducted = x.points_deducted)
          && decide (severityRank (pyOrStr y.severity sevLow)
            < severityRank (pyOrStr x.severity sevLow))))) = true := by
  by_cases h1 : x.points_deducted < y.points_deducted
  · right
    simp only [Bool.not_eq_true', Bool.or_eq_false_iff, Bool.and_eq_false_iff,
      decide_eq_false_iff_not]
    constructor
    · exact not_lt_of_lt h1
    · left; exact ne_of_gt h1
  · by_cases h2 : x.points_deducted = y.points_deducted
    · by_cases h3 : severityRank (pyOrStr x.severity sevLow)
          < severityRank (pyOrStr y.severity sevLow)
      · right
        simp only [Bool.not_eq_true', Bool.or_eq_false_iff, Bool.and_eq_false_iff,
          decide_eq_false_iff_not]
        exact ⟨by rw [h2]; exact lt_irrefl _, Or.inr (by omega)⟩
      · left
        simp only [Bool.not_eq_true', Bool.or_eq_false_iff, Bool.and_eq_false_iff,
          decide_eq_false_iff_not]
        exact ⟨h1, Or.inr h3⟩
    · left
      simp only [Bool.not_eq_true', Bool.or_eq_false_iff, Bool.and_eq_false_iff,
        decide_eq_false_iff_not]
      exact ⟨h1, Or.inl h2⟩

/-- Transitivity of the descending representative preorder. -/
lemma bucketLe_trans (x y z : Mistake)
    (hxy : (!(decide (x.points_deducted < y.points_deducted)
      || (decide (x.points_deducted = y.points_deducted)
          && decide (severityRank (pyOrStr x.severity sevLow)
            < severityRank (pyOrStr y.severity sevLow))))) = true)
    (hyz : (!(decide (y.points_deducted < z.points_deducted)
      || (decide (y.points_deducted = z.points_deducted)
          && decide (severityRank (pyOrStr y.severity sevLow)
            < severityRank (pyOrStr z.severity sevLow))))) = true) :
    (!(decide (x.points_deducted < z.points_deducted)
      || (decide (x.points_deducted = z.points_deducted)
          && decide (severityRank (pyOrStr x.severity sevLow)
            < severityRank (pyOrStr z.severity sevLow))))) = true := by
  simp only [Bool.not_eq_true', Bool.or_eq_false_iff, Bool.and_eq_false_iff,
    decide_eq_false_iff_not] at hxy hyz ⊢
  obtain ⟨h1, h2⟩ := hxy
  obtain ⟨h3, h4⟩ := hyz
  constructor
  · intro hlt
    rcases lt_trichotomy y.points_deducted z.points_deducted with h | h | h
    · exact h3 h
    · exact h1 (by rw [← h] at hlt; exact hlt)
    · exact h1 (lt_trans hlt h)
  · by_cases heq : x.points_deducted = z.points_deducted
    · right
      have hyx : y.points_deducted ≤ x.points_deducted := le_of_not_lt h1
      have hzy : z.points_deducted ≤ y.points_deducted := le_of_not_lt h3
      have hxyq : x.points_deducted = y.points_deducted := by
        rw [heq] at hyx ⊢
        exact le_antisymm hzy hyx
      have hyzq : y.points_deducted = z.points_deducted := by rw [← hxyq, heq]
      rcases h2 with h2 | h2
      · exact absurd hxyq h2
      · rcases h4 with h4 | h4
        · exact absurd hyzq h4
        · omega
    · left
      exact heq


lemma foldl_max_tenth (l : List ℚ) : ∀ a : ℚ, (∃ n : ℤ, a = (n : ℚ) / 10) →
    (∀ x ∈ l, ∃ n : ℤ, x = (n : ℚ) / 10) → ∃ n : ℤ, l.foldl max a = (n : ℚ) / 10 := by
  induction l with
  | nil => intro a ha _; exact ha
  | cons x xs ih =>
    intro a ha hl
    simp only [List.foldl_cons]
    refine ih (max a x) ?_ (fun y hy => hl y (by simp [hy]))
    rcases max_choice a x with h | h
    · rw [h]; exact ha
    · rw [h]; exact hl x (by simp)

lemma foldl_min_tenth (l : List ℚ) : ∀ a : ℚ, (∃ n : ℤ, a = (n : ℚ) / 10) →
    (∀ x ∈ l, ∃ n : ℤ, x = (n : ℚ) / 10) → ∃ n : ℤ, l.foldl min a = (n : ℚ) / 10 := by
  induction l with
  | nil => intro a ha _; exact ha
  | cons x xs ih =>
    intro a ha hl
    simp only [List.foldl_cons]
    refine ih (min a x) ?_ (fun y hy => hl y (by simp [hy]))
    rcases min_choice a x with h | h
    · rw [h]; exact ha
    · rw [h]; exact hl x (by simp)

lemma pyRound3_tenth (n : ℤ) : pyRound 3 ((n : ℚ) / 10) = (n : ℚ) / 10 := by
  unfold pyRound
  have h1 : (n : ℚ) / 10 * (10 : ℚ) ^ 3 + 1 / 2 = (100 * n : ℤ) + 1 / 2 := by
    push_cast
    ring
  rw [h1]
  have h2 : ⌊((100 * n : ℤ) : ℚ) + 1 / 2⌋ = 100 * n := by
    rw [Int.floor_eq_iff]
    constructor
    · simp
    · push_cast
      linarith
  rw [h2]
  push_cast
  ring

lemma length_insertSorted {α : Type} (le : α → α → Bool) (x : α) (l : List α) :
    (insertSorted le x l).length = l.length + 1 := by
  induction l with
  | nil => rfl
  | cons y ys ih =>
    simp only [insertSorted]
    split
    · simp
    · simp [ih]

lemma length_stableSort {α : Type} (le : α → α → Bool) (l : List α) :
    (stableSort le l).length = l.length := by
  induction l with
  | nil => rfl
  | cons x xs ih => simp [stableSort, length_insertSorted, ih]


set_option maxHeartbeats 1000000 in
/-- C8: the consensus merger passes a single validated run through with
agreement 1.0 and spread 0.0; for two or more runs (whose scores are tenth
multiples, as the upstream rounding produces) the merged score_total is
the 2-decimal-rounded median of the per-run scores, the meta score_spread
is exactly max minus min, the agreement averages score_agreement
= 1 - min(1, spread/3) with the surviving-bucket ratio, every merged
mistake is the representative of a (type, normalized location-hint)
bucket holding at least ceil(N/2) votes, and a bucket representative is a
bucket member of maximal (points_deducted, severity rank) with its
location hint re-cleaned against the bucket key. -/
theorem c8_consensus_merger (r0 : GradingResult) (kr : ℕ)
    (runs : List GradingResult) (k : ℕ)
    (h2 : 2 ≤ runs.length)
    (h10 : ∀ r ∈ runs, ∃ n : ℤ, r.score_total = (n : ℚ) / 10) :
    (mergeConsensusResults [r0] kr
      = some (r0, { runs_requested := kr, runs_used := 1, agreement := 1, score_spread := 0 })) ∧
    (∃ merged meta, mergeConsensusResults runs k = some (merged, meta) ∧
      merged.score_total = pyRound 2 (medianQ (runs.map (·.score_total))) ∧
      meta.score_spread
        = (runs.map (·.score_total)).foldl max ((runs.map (·.score_total)).headD 0)
          - (runs.map (·.score_total)).foldl min ((runs.map (·.score_total)).headD 0) ∧
      meta.agreement = pyRound 2 (clampQ
        (((1 - min 1 (((runs.map (·.score_total)).foldl max ((runs.map (·.score_total)).headD 0)
            - (runs.map (·.score_total)).foldl min ((runs.map (·.score_total)).headD 0)) / 3))
          + (if (consensusBuckets runs).isEmpty then 1
             else ((stableSort (fun x y : Mistake =>
                !(decide (x.points_deducted < y.points_deducted)
                  || (decide (x.points_deducted = y.points_deducted)
                      && decide (x.type < y.type))))
                ((consensusBuckets runs).filterMap (fun kv =>
                  if kv.2.length < max 1 ((runs.length + 1) / 2) then none
                  else bucketRepresentative kv.1 kv.2))).length : ℚ)
               / ((consensusBuckets runs).length : ℚ))) / 2) 0 1) ∧
      ∀ m ∈ merged.mistakes, ∃ kv ∈ consensusBuckets runs,
        max 1 ((runs.length + 1) / 2) ≤ kv.2.length
          ∧ bucketRepresentative kv.1 kv.2 = some m) ∧
    (∀ (key : String × String) (bucket : List Mistake) (rep : Mistake),
      bucketRepresentative key bucket = some rep →
      ∃ b ∈ bucket,
        rep = { b with location_hint := pyCleanText b.location_hint (pyOrStr key.2 "풀이 중간 구간") 120 } ∧
        ∀ x ∈ bucket, x.points_deducted < b.points_deducted
          ∨ (x.points_deducted = b.points_deducted
            ∧ severityRank (pyOrStr x.severity sevLow)
              ≤ severityRank (pyOrStr b.severity sevLow))) := by
  refine ⟨rfl, ?_, ?_⟩
  · rcases runs with _ | ⟨a, t⟩
    · simp at h2
    rcases t with _ | ⟨b, rest⟩
    · simp at h2
    refine ⟨_, _, rfl, ?_, ?_, ?_, ?_⟩
    · show (if (checklistVotes (a :: b :: rest)).isEmpty then (_ : GradingResult) else _).score_total
          = pyRound 2 (medianQ ((a :: b :: rest).map (·.score_total)))
      split <;> rfl
    · show pyRound 3 _ = _
      have hhead : (((a :: b :: rest).map (·.score_total)).headD 0) = a.score_total := rfl
      obtain ⟨nx, hnx⟩ := foldl_max_tenth ((a :: b :: rest).map (·.score_total))
        (((a :: b :: rest).map (·.score_total)).headD 0)
        (by rw [hhead]; exact h10 a (by simp))
        (by
          intro x hx
          rcases List.mem_map.mp hx with ⟨r, hr, hrx⟩
          rw [← hrx]
          exact h10 r hr)
      obtain ⟨nm, hnm⟩ := foldl_min_tenth ((a :: b :: rest).map (·.score_total))
        (((a :: b :: rest).map (·.score_total)).headD 0)
        (by rw [hhead]; exact h10 a (by simp))
        (by
          intro x hx
          rcases List.mem_map.mp hx with ⟨r, hr, hrx⟩
          rw [← hrx]
          exact h10 r hr)
      rw [hnx, hnm]
      have hd : (nx : ℚ) / 10 - (nm : ℚ) / 10 = ((nx - nm : ℤ) : ℚ) / 10 := by
        push_cast
        ring
      rw [hd, pyRound3_tenth]
    · rfl
    · intro m hm
      have hmist : ∀ M : GradingResult × ConsensusMeta,
          mergeConsensusResults (a :: b :: rest) k = some M →
          M.1.mistakes = (stableSort (fun x y : Mistake =>
              !(decide (x.points_deducted < y.points_deducted)
                || (decide (x.points_deducted = y.points_deducted)
                    && decide (x.type < y.type))))
            ((consensusBuckets (a :: b :: rest)).filterMap (fun kv =>
              if kv.2.length < max 1 (((a :: b :: rest).length + 1) / 2) then none
              else bucketRepresentative kv.1 kv.2))).take 20 := by
        intro M hM
        have : M = (mergeConsensusResults (a :: b :: rest) k).getD M := by rw [hM]; rfl
        rw [this]
        show (if (checklistVotes (a :: b :: rest)).isEmpty then (_ : GradingResult) else _).mistakes
            = (stableSort (fun x y : Mistake =>
              !(decide (x.points_deducted < y.points_deducted)
                || (decide (x.points_deducted = y.points_deducted)
                    && decide (x.type < y.type))))
            ((consensusBuckets (a :: b :: rest)).filterMap (fun kv =>
              if kv.2.length < max 1 (((a :: b :: rest).length + 1) / 2) then none
              else bucketRepresentative kv.1 kv.2))).take 20
        split <;> rfl
      rw [hmist _ rfl] at hm
      have hm2 := mem_stableSort.mp (List.mem_of_mem_take hm)
      rcases List.mem_filterMap.mp hm2 with ⟨kv, hkv, hkveq⟩
      by_cases hlen : kv.2.length < max 1 (((a :: b :: rest).length + 1) / 2)
      · rw [if_pos hlen] at hkveq
        exact absurd hkveq (by simp)
      · rw [if_neg hlen] at hkveq
        exact ⟨kv, hkv, le_of_not_lt hlen, hkveq⟩
  · intro key bucket rep hrep
    unfold bucketRepresentative at hrep
    cases hs : stableSort (fun x y : Mistake =>
        !(decide (x.points_deducted < y.points_deducted)
          || (decide (x.points_deducted = y.points_deducted)
              && decide (severityRank (pyOrStr x.severity sevLow)
                < severityRank (pyOrStr y.severity sevLow))))) bucket with
    | nil =>
      rw [hs] at hrep
      exact absurd hrep (by simp)
    | cons h t =>
      rw [hs] at hrep
      simp only [List.head?_cons, Option.map_some, Option.map_some', Option.some.injEq] at hrep
      refine ⟨h, head_stableSort_mem _ bucket h t hs, hrep.symm, ?_⟩
      intro x hx
      have hle := head_stableSort_le _ bucketLe_total bucketLe_trans bucket h t hs x hx
      simp only [Bool.not_eq_true', Bool.or_eq_false_iff, Bool.and_eq_false_iff,
        decide_eq_false_iff_not] at hle
      obtain ⟨hp, hr⟩ := hle
      rcases lt_trichotomy x.points_deducted h.points_deducted with hlt | heq | hgt
      · exact Or.inl hlt
      · refine Or.inr ⟨heq, ?_⟩
        rcases hr with hr | hr
        · exact absurd heq.symm hr
        · omega
      · exact absurd hgt hp



lemma validateResult_toOption_none (p : Json) : (validateResult p).toOption = none := by
  rcases validateResult_always_error p with ⟨e, he⟩
  rw [he]
  rfl

/-- C1: refuted — the candidate normalizer can never return successfully.
ensureRequiredDefaults always injects the answer_verdict and
answer_verdict_reason keys (the JSON schema of schemas.py requires them),
but the strict pydantic AnalysisResult model of models.py forbids extra
fields and does not declare either key, so the secondary validation pass
rejects every normalized candidate: validateResult errors on all
inputs. -/
theorem c1_candidate_normalizer_never_validates (data : Json) :
    ∃ e, validateResult data = Except.error e :=
  validateResult_always_error data

/-- C2: refuted — since no candidate ever validates, every job reaches the
fallback path, and the fallback payload goes through the same
always-failing validator inside the exception handler; the resulting
validation error is neither FallbackMissing nor PersistenceFailure, yet
it escapes the job boundary: with a fallback asset present the job always
ends in the fatal validation outcome and never persists a record. -/
theorem c2_fallback_job_fatal (providerResults : List (Except String Json))
    (fallbackAsset : Json) (runsRequested : ℕ)
    (postProcess : GradingResult → GradingResult) (saveOk : Bool) :
    processAnalysisJob providerResults (some fallbackAsset) runsRequested postProcess saveOk
      = JobOutcome.fatalValidationError := by
  have hruns : ((providerResults.filterMap (fun r => r.toOption)).filterMap
      (fun p => (validateResult p).toOption)) = [] := by
    rw [List.filterMap_eq_nil_iff]
    intro p _
    exact validateResult_toOption_none p
  rcases validateResult_always_error fallbackAsset with ⟨e, he⟩
  simp only [processAnalysisJob]
  rw [hruns]
  by_cases hp : (providerResults.filterMap (fun r => r.toOption)).isEmpty
  · simp [hp, loadFallbackResult, he]
  · simp [hp, loadFallbackResult, he]


/-- Concrete instantiation of the provenance round-trip. -/
theorem c10_provenance_roundtrip_witness :
    (parseProvenance (formatProvenanceEvidence "s1" "RULE_EQUIV_TRANSFORM" "이항 부호 오류")).1
        = some "s1" ∧
    (parseProvenance (formatProvenanceEvidence "s1" "RULE_EQUIV_TRANSFORM" "이항 부호 오류")).2.1
        = some "RULE_EQUIV_TRANSFORM" :=
  c10_provenance_roundtrip "s1" "RULE_EQUIV_TRANSFORM" "이항 부호 오류"
    (by decide) (by decide) (by decide) (by decide) (by decide) (by decide)
    (by with_unfolding_all decide)

/-- Counterexample to the claim as stated: the rule "R  R" is nonempty,
fits in 40 characters and contains no closing bracket, but the formatter
collapses its whitespace run, so parsing recovers "R R" instead. -/
theorem c10_whitespace_rule_counterexample :
    (("R  R" : String).data ≠ [] ∧ ("R  R" : String).data.length ≤ 40 ∧
      ∀ c ∈ ("R  R" : String).data, c ≠ ']') ∧
    (parseProvenance (formatProvenanceEvidence "s1" "R  R" "검산 오류")).2.1 = some "R R" ∧
    some ("R R" : String) ≠ some ("R  R" : String) :=
  ⟨by decide, by with_unfolding_all decide, by decide⟩


/-- Concrete instantiation of the evidence-gate hold branch. -/
theorem c9_evidence_gate_witness :
    (gateOne true [] 0 { type := "LOGIC_GAP", severity := "med", points_deducted := 1, evidence := "", fix_instruction := "", location_hint := "", highlight := { mode := "tap", shape := "circle" } } []).1.points_deducted = 0 ∧
    (gateOne true [] 0 { type := "LOGIC_GAP", severity := "med", points_deducted := 1, evidence := "", fix_instruction := "", location_hint := "", highlight := { mode := "tap", shape := "circle" } } []).1.severity = sevLow ∧
    pyCleanText ("mistake#" ++ toString (0 + 1) ++ ": evidence_gate_hold") "" 80
      ∈ (gateOne true [] 0 { type := "LOGIC_GAP", severity := "med", points_deducted := 1, evidence := "", fix_instruction := "", location_hint := "", highlight := { mode := "tap", shape := "circle" } } []).2 := by
  have h := c9_evidence_gate [] 0 { type := "LOGIC_GAP", severity := "med", points_deducted := 1, evidence := "", fix_instruction := "", location_hint := "", highlight := { mode := "tap", shape := "circle" } } [] (by with_unfolding_all decide)
  exact ⟨h.2.1.1, h.2.1.2.1, h.2.1.2.2.1⟩


/-- Concrete instantiation of the consensus merger facts. -/
theorem c8_consensus_merger_witness :
    mergeConsensusResults [{ score_total := 7.3, rubric_scores := { conditions := 2, modeling := 1.5, logic := 1.5, calculation := 1.5, final := 0.8 }, mistakes := [], patch := { minimal_changes := [], patched_solution_brief := "" }, next_checklist := [], confidence := 0.6, missing_info := [], answer_verdict := "", answer_verdict_reason := "" }] 3
      = some ({ score_total := 7.3, rubric_scores := { conditions := 2, modeling := 1.5, logic := 1.5, calculation := 1.5, final := 0.8 }, mistakes := [], patch := { minimal_changes := [], patched_solution_brief := "" }, next_checklist := [], confidence := 0.6, missing_info := [], answer_verdict := "", answer_verdict_reason := "" },
        { runs_requested := 3, runs_used := 1, agreement := 1, score_spread := 0 }) :=
  (c8_consensus_merger { score_total := 7.3, rubric_scores := { conditions := 2, modeling := 1.5, logic := 1.5, calculation := 1.5, final := 0.8 }, mistakes := [], patch := { minimal_changes := [], patched_solution_brief := "" }, next_checklist := [], confidence := 0.6, missing_info := [], answer_verdict := "", answer_verdict_reason := "" } 3
    [{ score_total := 7.3, rubric_scores := { conditions := 2, modeling := 1.5, logic := 1.5, calculation := 1.5, final := 0.8 }, mistakes := [], patch := { minimal_changes := [], patched_solution_brief := "" }, next_checklist := [], confidence := 0.6, missing_info := [], answer_verdict := "", answer_verdict_reason := "" }, { score_total := 8.1, rubric_scores := { conditions := 2, modeling := 1.5, logic := 1.5, calculation := 1.5, final := 0.8 }, mistakes := [], patch := { minimal_changes := [], patched_solution_brief := "" }, next_checklist := [], confidence := 0.6, missing_info := [], answer_verdict := "", answer_verdict_reason := "" }] 3
    (by norm_num)
    (by
      intro r hr
      rcases List.mem_cons.mp hr with h | h
      · exact ⟨73, by rw [h]; norm_num⟩
      · rcases List.mem_cons.mp h with h | h
        · exact ⟨81, by rw [h]; norm_num⟩
        · simp at h)).1

end MistakePatch
